import Mathlib

set_option autoImplicit false

/-! goverter: the list rule and the method dispatcher.

A shallow embedding of `builder/list.go` (the `List` rule) and of
`generator/generator.go` (the method registry and the dispatcher `Build`),
followed by theorems about them.

Conventions of the embedding.

* Generated Go code is a value of `Code`, an abstract syntax tree with one
  constructor per syntactic form that the two source files emit through the
  jennifer library (`jen.Id(x).Op(":=").Make(..)` is `Code.define (Code.id x) (Code.make ..)`).
* A `*xtype.Type` / `types.Type` is a handle `TypeRef`; the descriptor fields the
  sources read (`List`, `ListFixed`, `ListInner`, `Named`, `Basic`, `T.String()`,
  `ID()`, `UnescapedID()`, `TypeAsJen()`) are looked up in a table
  `TypeRef → XType` that the embedding takes as a parameter.  Handles make cyclic
  type graphs (`type Node []Node`) representable.
* Go's `(stmt, id, err)` triple is `Except Error (List Code × JenID)`; the
  projections `BuildResult.stmt`, `BuildResult.id`, `BuildResult.err` give the
  triple back (`nil, nil, err` on failure).
* Pointer-shared mutable state (`*MethodContext`, `*Generator`) is passed and
  returned explicitly.
* `Generator.Build` is recursive through the rules and `addMethod`; it is defined
  by recursion on a fuel argument that bounds the call depth, and `none` means the
  fuel ran out.
-/

namespace Goverter

/-! ## Generated code -/

/-- Go syntax emitted through jennifer by the two source files. -/
inductive Code where
  /-- An identifier, `jen.Id(name)`. -/
  | id (name : String)
  /-- A package-qualified identifier, `jen.Qual(path, name)`. -/
  | qual (path name : String)
  /-- An integer literal, `jen.Lit(n)`. -/
  | lit (n : Nat)
  /-- The predeclared `nil`, `.Nil()`. -/
  | nil
  /-- A pointer type `*x`, `.Op("*").Id(x)`. -/
  | ptr (elem : Code)
  /-- A parameter `name ty`, `jen.Id(name).Add(ty)` / `jen.Id(name).Op("*").Id(ty)`. -/
  | param (name : String) (ty : Code)
  /-- An index expression `x[i]`, `x.Index(i)`. -/
  | index (x i : Code)
  /-- A selector `x.name`, `x.Dot(name)`. -/
  | dot (x : Code) (name : String)
  /-- A call `f(args...)`, `f.Call(args...)`. -/
  | call (f : Code) (args : List Code)
  /-- The builtin `len(x)`, `jen.Len(x)`. -/
  | len (x : Code)
  /-- The builtin `make(ty, n, cap)`, `.Make(ty, n, cap)`. -/
  | make (ty n cap : Code)
  /-- A binary operation `l op r`, `l.Op(op).r`. -/
  | binop (op : String) (l r : Code)
  /-- The statement `x++`, `x.Op("++")`. -/
  | incr (x : Code)
  /-- The assignment `l = r`, `l.Op("=").r`. -/
  | assign (l r : Code)
  /-- The short variable declaration `l := r`, `l.Op(":=").r`. -/
  | define (l r : Code)
  /-- The declaration `var x ty` without initializer, `jen.Var().Add(x, ty)`. -/
  | varDecl (x ty : Code)
  /-- The statement `if cond { body }`, `jen.If(cond).Block(body...)`. -/
  | ifStmt (cond : Code) (body : List Code)
  /-- The statement `for init; cond; post { body }`, `jen.For(init, cond, post).Block(body...)`. -/
  | forStmt (init cond post : Code) (body : List Code)
  /-- The statement `return x`, `jen.Return().Add(x)` / `jen.Return(x)`. -/
  | ret (x : Code)
  /-- A method declaration `func (recv) name(params) (results) { body }`,
  `file.Func().Params(recv).Id(name).Params(params...).Params(results...).Block(body...)`. -/
  | funcDecl (recv : Code) (name : String) (params results body : List Code)

/-- The pair `xtype.JenID`: a code fragment and whether it is a plain variable. -/
structure JenID where
  Code : Code
  Variable : Bool

/-- Go `xtype.VariableID`. -/
def VariableID (code : Code) : JenID := ⟨code, true⟩

/-- Go `xtype.OtherID`. -/
def OtherID (code : Code) : JenID := ⟨code, false⟩

/-! ## Type descriptors -/

/-- A handle of a `types.Type` / `*xtype.Type`. -/
abbrev TypeRef := Nat

/-- The fields and methods of `xtype.Type` that the two source files read.
`T` stands for `T.String()`, the identity string of the described type. -/
structure XType where
  T : String
  List : Bool
  ListFixed : Bool
  ListInner : TypeRef
  Named : Bool
  Basic : Bool
  ID : String
  UnescapedID : String
  TypeAsJen : Code

/-! ## Errors -/

/-- Go `builder.Path`: one frame of an error path. -/
structure Path where
  SourceID : String
  TargetID : String
  SourceType : String
  TargetType : String
deriving DecidableEq

/-- Modelled from the spec: `builder.Error` is not among the sources.  A base
error (the cause) together with the frames attached while it propagates. -/
structure Error where
  Path : List Path
  Cause : String
deriving DecidableEq

/-- Modelled from the spec: `builder.NewError`, a base error without frames. -/
def NewError (cause : String) : Error := ⟨[], cause⟩

/-- Modelled from the spec: `Error.Lift` attaches one frame in front of the
frames already present and keeps the cause. -/
def Error.Lift (e : Error) (p : Goverter.Path) : Error := ⟨p :: e.Path, e.Cause⟩

/-- The third argument the list rule hands to the dispatcher,
`Wrap("error setting index %d", jen.Id(index))`. -/
structure ErrorWrapper where
  format : String
  args : List Code

/-- Go `builder.Wrap`, kept as data. -/
def Wrap (format : String) (args : List Code) : ErrorWrapper := ⟨format, args⟩

/-! ## Namer and method context -/

/-- Modelled from the spec: `namer.Namer` is not among the sources.  The set of
names taken so far. -/
structure Namer where
  lookup : List String

/-- Modelled from the spec: `namer.New`, a namer with nothing registered. -/
def Namer.New : Namer := ⟨[]⟩

/-- Modelled from the spec: `Namer.Register` records a name as taken; the flag
tells whether it was free. -/
def Namer.Register (m : Namer) (name : String) : Bool × Namer :=
  if name ∈ m.lookup then (false, m) else (true, ⟨name :: m.lookup⟩)

/-- Modelled from the spec: the candidates tried by `Namer.Name` are the base
itself, then the base with the numeric suffixes 2, 3, ... -/
def Namer.candidate (name : String) (k : Nat) : String :=
  if k = 0 then name else name ++ toString (k + 1)

/-- Modelled from the spec: `Namer.Name` returns the first candidate derived from
the base that is not taken, and registers it.  Among `lookup.length + 1`
candidates one is free, so the search is bounded. -/
def Namer.Name (m : Namer) (name : String) : String × Namer :=
  match ((List.range (m.lookup.length + 1)).map (Namer.candidate name)).find?
      (fun c => decide (c ∉ m.lookup)) with
  | some c => (c, ⟨c :: m.lookup⟩)
  | none => (name, m)

/-- Go `builder.MethodContext`. -/
structure MethodContext where
  Namer : Namer
  MappingBaseID : String
  Mapping : List (String × String)
  IgnoredFields : List String

/-- Modelled from the spec: `ctx.Name` asks the context's namer for a fresh name. -/
def MethodContext.Name (ctx : MethodContext) (name : String) : String × MethodContext :=
  let r := ctx.Namer.Name name
  (r.1, { ctx with Namer := r.2 })

/-- Modelled from the spec: `ctx.Index` asks the context's namer for a fresh
loop-index name. -/
def MethodContext.Index (ctx : MethodContext) : String × MethodContext :=
  ctx.Name "i"

/-! ## Registry -/

/-- The result of `Type()` on a `*types.Func`: a signature with its parameter and
result types, or some other type, of which only the `%#v` rendering is kept. -/
inductive FuncType where
  | signature (params results : List TypeRef)
  | other (goString : String)
deriving DecidableEq

/-- Go `types.Func` as far as the sources read it: `Pkg().Path()`, `Name()`,
`FullName()` and `Type()` (the field `Typ`). -/
structure Func where
  PkgPath : String
  Name : String
  FullName : String
  Typ : FuncType
deriving DecidableEq

/-- What `Scope().Lookup` finds: a function or another kind of object. -/
inductive Object where
  | func (f : Func)
  | other
deriving DecidableEq

/-- Go `types.Package` as far as the sources read it: `Scope().Lookup(name)`,
`none` for `nil`. -/
abbrev Package := String → Option Object

/-- Go `comments.Method`: the directives of one declared conversion. -/
structure CommentsMethod where
  NameMapping : List (String × String)
  IgnoredFields : List String
  Delegate : String

/-- Go `generator.Method`. -/
structure Method where
  ID : String
  Name : String
  Source : TypeRef
  Target : TypeRef
  Mapping : List (String × String)
  IgnoredFields : List String
  Delegate : Option Func
deriving DecidableEq

/-- Go `generator.Signature`. -/
structure Signature where
  Source : String
  Target : String
deriving DecidableEq

/-- The Go map `map[Signature]*Method` as an association list with unique keys. -/
abbrev Lookup := List (Signature × Method)

/-- Map read `lookup[sig]` with the comma-ok result. -/
def Lookup.get : Lookup → Signature → Option Method
  | [], _ => none
  | (k, v) :: rest, sig => if k = sig then some v else Lookup.get rest sig

/-- Map write `lookup[sig] = m`: overwrites the entry of `sig` or adds one. -/
def Lookup.set : Lookup → Signature → Method → Lookup
  | [], sig, m => [(sig, m)]
  | (k, v) :: rest, sig, m =>
    if k = sig then (sig, m) :: rest else (k, v) :: Lookup.set rest sig m

/-- Go `generator.Generator`. -/
structure Generator where
  namer : Namer
  name : String
  file : List Code
  lookup : Lookup

/-! ## The rule contract -/

/-- Go's `([]jen.Code, *JenID, *Error)`. -/
abbrev BuildResult := Except Error (List Code × JenID)

/-- The returned statements (`nil` on failure). -/
def BuildResult.stmt : BuildResult → List Code
  | .ok r => r.1
  | .error _ => []

/-- The returned result expression (`nil` on failure). -/
def BuildResult.id : BuildResult → Option JenID
  | .ok r => some r.2
  | .error _ => none

/-- The returned error (`nil` on success). -/
def BuildResult.err : BuildResult → Option Error
  | .ok _ => none
  | .error e => some e

/-- What a build returns: the result, and the context and generator it leaves
behind; `none` when the fuel ran out. -/
abbrev BuildOut := Option (BuildResult × MethodContext × Generator)

/-- The method `Build` of the interface `builder.Generator`, as the list rule
calls it. -/
abbrev GenBuild :=
  MethodContext → JenID → TypeRef → TypeRef → ErrorWrapper → Generator → BuildOut

/-- A rule: the interface `builder.Builder`. -/
structure Builder where
  Matches : TypeRef → TypeRef → Bool
  Build : GenBuild → MethodContext → JenID → TypeRef → TypeRef → Generator → BuildOut

/-! ## builder/list.go -/

/-- Go `(*List).Matches`. -/
def List.Matches (ty : TypeRef → XType) (source target : TypeRef) : Bool :=
  (ty source).List && (ty target).List && !(ty target).ListFixed

/-- The initialization statements of `(*List).Build` (lines 35-47). -/
def List.initializeStmt (ty : TypeRef → XType) (targetSlice : String) (sourceID : JenID)
    (source target : TypeRef) : List Code :=
  if (ty source).ListFixed then
    [Code.define (Code.id targetSlice)
      (Code.make (ty target).TypeAsJen (Code.len sourceID.Code) (Code.len sourceID.Code))]
  else
    [Code.varDecl (Code.id targetSlice) (ty target).TypeAsJen,
     Code.ifStmt (Code.binop "!=" sourceID.Code Code.nil)
      [Code.assign (Code.id targetSlice)
        (Code.make (ty target).TypeAsJen (Code.len sourceID.Code) (Code.len sourceID.Code))]]

/-- The loop of `(*List).Build` (lines 49-50). -/
def List.loopAssignStmt (index : String) (sourceID : JenID) (newStmt : List Code) : Code :=
  Code.forStmt (Code.define (Code.id index) (Code.lit 0))
    (Code.binop "<" (Code.id index) (Code.len sourceID.Code))
    (Code.incr (Code.id index))
    newStmt

/-- Go `(*List).Build`. -/
def List.Build (ty : TypeRef → XType) (gen : GenBuild) (ctx : MethodContext) (sourceID : JenID)
    (source target : TypeRef) (g : Generator) : BuildOut :=
  let targetSlice := (ctx.Name (ty target).ID).1
  let ctx1 := (ctx.Name (ty target).ID).2
  let index := ctx1.Index.1
  let ctx2 := ctx1.Index.2
  let indexedSource := VariableID (Code.index sourceID.Code (Code.id index))
  let errWrapper := Wrap "error setting index %d" [Code.id index]
  match gen ctx2 indexedSource (ty source).ListInner (ty target).ListInner errWrapper g with
  | none => none
  | some (.error err, ctx3, g1) =>
    some (.error (err.Lift
      { SourceID := "[]"
        SourceType := (ty (ty source).ListInner).T
        TargetID := "[]"
        TargetType := (ty (ty target).ListInner).T }), ctx3, g1)
  | some (.ok (newStmt, newID), ctx3, g1) =>
    let newStmt1 := newStmt ++
      [Code.assign (Code.index (Code.id targetSlice) (Code.id index)) newID.Code]
    let initializeStmt := List.initializeStmt ty targetSlice sourceID source target
    let loopAssignStmt := List.loopAssignStmt index sourceID newStmt1
    let stmt := initializeStmt ++ [loopAssignStmt]
    some (.ok (stmt, VariableID (Code.id targetSlice)), ctx3, g1)

/-- The list rule as a value of the rule interface. -/
def List.builder (ty : TypeRef → XType) : Builder :=
  ⟨List.Matches ty, List.Build ty⟩

/-! ## generator/generator.go -/

/-- What the generator takes from outside the two source files: the type
descriptors (`builder.TypeOf`), Go's `strings.Title`, the rule table `BuildSteps`,
and the rendering of an error, `builder.ToString`. -/
structure Env where
  types : TypeRef → XType
  Title : String → String
  BuildSteps : List Builder
  ToString : Error → String

/-- The loop `for _, rule := range BuildSteps` shared by `BuildNoLookup` and `Build`:
the first rule that matches builds. -/
def firstMatch (rules : List Builder) (source target : TypeRef) : Option Builder :=
  rules.find? (fun rule => rule.Matches source target)

/-- Go `(*Generator).BuildNoLookup`; `gen` is the receiver seen through the
interface `builder.Generator`. -/
def Generator.BuildNoLookup (E : Env) (gen : GenBuild) (ctx : MethodContext) (sourceID : JenID)
    (source target : TypeRef) (g : Generator) : BuildOut :=
  match firstMatch E.BuildSteps source target with
  | some rule => rule.Build gen ctx sourceID source target g
  | none =>
    some (.error (NewError ("TypeMismatch: Cannot convert " ++ (E.types source).T ++ " to "
      ++ (E.types target).T)), ctx, g)

/-- The declaration `func (c *<name>) <method.Name>(source <S>) <T> { body }` appended
to the output file by `addMethod`. -/
def methodDecl (E : Env) (g : Generator) (method : Method) (body : List Code) : Code :=
  Code.funcDecl (Code.param "c" (Code.ptr (Code.id g.name))) method.Name
    [Code.param "source" (E.types method.Source).TypeAsJen]
    [(E.types method.Target).TypeAsJen]
    body

/-- Go `(*Generator).addMethod`.  Returns the error (`none` for `nil`) and the
generator afterwards; `none` when the fuel of `gen` ran out. -/
def Generator.addMethod (E : Env) (gen : GenBuild) (method : Method) (g : Generator) :
    Option (Option Error × Generator) :=
  let sourceID := Code.id "source"
  let source := method.Source
  let target := method.Target
  match method.Delegate with
  | some delegate =>
    some (none, { g with file := g.file ++
      [methodDecl E g method
        [Code.ret (Code.call (Code.qual delegate.PkgPath delegate.Name) [Code.id "c", sourceID])]] })
  | none =>
    match Generator.BuildNoLookup E gen
        { Namer := Namer.New
          MappingBaseID := (E.types target).T
          Mapping := method.Mapping
          IgnoredFields := method.IgnoredFields }
        (VariableID sourceID) source target g with
    | none => none
    | some (.error err, _, g1) => some (some err, g1)
    | some (.ok (stmt, newID), _, g1) =>
      some (none, { g1 with file := g1.file ++
        [methodDecl E g1 method (stmt ++ [Code.ret newID.Code])] })

/-- The condition of line 150: either side is named and not basic. -/
def extracts (ty : TypeRef → XType) (source target : TypeRef) : Bool :=
  ((ty source).Named && !(ty source).Basic) || ((ty target).Named && !(ty target).Basic)

/-- The registry key of a pair of types (lines 145 and 161). -/
def signatureOf (ty : TypeRef → XType) (source target : TypeRef) : Signature :=
  { Source := (ty source).T, Target := (ty target).T }

/-- The generator after lines 151-162 of `Build`: the name is taken from the
namer, the empty Method is stored under the pair's Signature, and the name is
registered. -/
def Generator.reserve (E : Env) (source target : TypeRef) (g : Generator) : Method × Generator :=
  let r := g.namer.Name
    ((E.types source).UnescapedID ++ "To" ++ E.Title (E.types target).UnescapedID)
  let name := r.1
  let method : Method :=
    { ID := name
      Name := name
      Source := source
      Target := target
      Mapping := []
      IgnoredFields := []
      Delegate := none }
  let lookup1 := g.lookup.set (signatureOf E.types source target) method
  (method, { g with namer := (r.2.Register method.Name).2, lookup := lookup1 })

/-- Go `(*Generator).Build`.  The first argument bounds the depth of nested calls
of `Build`; the rules and `addMethod` receive the generator as `Build` with one
unit less.  The error wrapper that the list rule passes along is not a parameter
of this `Build` and is dropped where the generator is handed to a rule. -/
def Generator.Build (E : Env) : Nat → MethodContext → JenID → TypeRef → TypeRef → Generator →
    BuildOut
  | 0, _, _, _, _, _ => none
  | fuel + 1, ctx, sourceID, source, target, g =>
    match g.lookup.get (signatureOf E.types source target) with
    | some method =>
      some (.ok ([], OtherID (Code.call (Code.dot (Code.id "c") method.Name) [sourceID.Code])),
        ctx, g)
    | none =>
      if extracts E.types source target then
        match Generator.addMethod E (fun c i s t _ => Generator.Build E fuel c i s t)
            (Generator.reserve E source target g).1 (Generator.reserve E source target g).2 with
        | none => none
        | some (some err, g1) => some (.error err, ctx, g1)
        | some (none, g1) =>
          -- try again to trigger the found method thingy above
          Generator.Build E fuel ctx sourceID source target g1
      else
        -- lines 170-176 repeat the body of BuildNoLookup
        Generator.BuildNoLookup E (fun c i s t _ => Generator.Build E fuel c i s t)
          ctx sourceID source target g

/-- The generator as the rules see it, with `fuel` levels of nesting left. -/
def Generator.asGen (E : Env) (fuel : Nat) : GenBuild :=
  fun c i s t _ => Generator.Build E fuel c i s t

/-- Go `(*Generator).registerMethod`.  Returns the error message (`none` for `nil`)
and the generator afterwards. -/
def Generator.registerMethod (E : Env) (sources : Package) (method : Func)
    (methodComments : CommentsMethod) (g : Generator) : Option String × Generator :=
  match method.Typ with
  | FuncType.other goString => (some ("expected signature " ++ goString), g)
  | FuncType.signature params result =>
    match params with
    | [source] =>
      match result with
      | [target] =>
        let m : Method :=
          { ID := method.FullName
            Name := method.Name
            Source := source
            Target := target
            Mapping := methodComments.NameMapping
            IgnoredFields := methodComments.IgnoredFields
            Delegate := none }
        let store : Method → Option String × Generator := fun m =>
          (none, { g with lookup := g.lookup.set (signatureOf E.types source target) m
                          namer := (g.namer.Register m.Name).2 })
        if methodComments.Delegate ≠ "" then
          match sources methodComments.Delegate with
          | none => (some ("delegate " ++ methodComments.Delegate ++ " does not exist"), g)
          | some (Object.func f) => store { m with Delegate := some f }
          | some Object.other =>
            (some ("delegate " ++ methodComments.Delegate ++ " does is not a function"), g)
        else store m
      | _ => (some "expected signature to have only one parameter", g)
    | _ => (some "expected signature to have only one parameter", g)

/-- Inserts a Method into a list sorted by `Name`, after the Methods whose name is
not greater. -/
def insertByName (m : Method) : List Method → List Method
  | [] => [m]
  | x :: rest => if m.Name < x.Name then m :: x :: rest else x :: insertByName m rest

/-- The call `sort.Slice(methods, ...)` of `createMethods`: the Methods in
ascending order of `Name`. -/
def sortByName : List Method → List Method
  | [] => []
  | m :: rest => insertByName m (sortByName rest)

/-- The root frame that `createMethods` attaches to a build error (lines 93-98). -/
def rootFrame (E : Env) (method : Method) : Goverter.Path :=
  { SourceID := "source"
    TargetID := "target"
    SourceType := (E.types method.Source).T
    TargetType := (E.types method.Target).T }

/-- The loop of `createMethods` over the sorted Methods (lines 90-102). -/
def Generator.createLoop (E : Env) (gen : GenBuild) :
    List Method → Generator → Option (Option String × Generator)
  | [], g => some (none, g)
  | method :: rest, g =>
    match Generator.addMethod E gen method g with
    | none => none
    | some (some err, g1) =>
      some (some ("Error while creating converter method: " ++ method.ID ++ "\n\n"
        ++ E.ToString (err.Lift (rootFrame E method))), g1)
    | some (none, g1) => Generator.createLoop E gen rest g1

/-- Go `(*Generator).createMethods`.  The Methods are collected from the registry
(in the order of the association list, where Go's map iteration order is
unspecified), sorted by name, and built one after the other; `fuel` bounds the
depth of nested `Build` calls inside each `addMethod`. -/
def Generator.createMethods (E : Env) (fuel : Nat) (g : Generator) :
    Option (Option String × Generator) :=
  let methods := sortByName (g.lookup.map Prod.snd)
  Generator.createLoop E (Generator.asGen E fuel) methods g

/-! ## Names for the intermediate values of `(*List).Build` -/

/-- The name of the target slice, `ctx.Name(target.ID())` (line 18). -/
def List.targetSlice (ty : TypeRef → XType) (ctx : MethodContext) (target : TypeRef) : String :=
  (ctx.Name (ty target).ID).1

/-- The name of the loop index, `ctx.Index()` (line 19). -/
def List.index (ty : TypeRef → XType) (ctx : MethodContext) (target : TypeRef) : String :=
  (ctx.Name (ty target).ID).2.Index.1

/-- The method context after both names are taken. -/
def List.elemCtx (ty : TypeRef → XType) (ctx : MethodContext) (target : TypeRef) : MethodContext :=
  (ctx.Name (ty target).ID).2.Index.2

/-- The element source expression `source[index]` (line 21). -/
def List.indexedSource (ty : TypeRef → XType) (ctx : MethodContext) (sourceID : JenID)
    (target : TypeRef) : JenID :=
  VariableID (Code.index sourceID.Code (Code.id (List.index ty ctx target)))

/-- The nested dispatcher call of line 24. -/
def List.elemBuild (ty : TypeRef → XType) (gen : GenBuild) (ctx : MethodContext)
    (sourceID : JenID) (source target : TypeRef) (g : Generator) : BuildOut :=
  gen (List.elemCtx ty ctx target) (List.indexedSource ty ctx sourceID target)
    (ty source).ListInner (ty target).ListInner
    (Wrap "error setting index %d" [Code.id (List.index ty ctx target)]) g

/-- The frame that `(*List).Build` attaches to a nested error (lines 26-31). -/
def List.frame (ty : TypeRef → XType) (source target : TypeRef) : Goverter.Path :=
  { SourceID := "[]"
    SourceType := (ty (ty source).ListInner).T
    TargetID := "[]"
    TargetType := (ty (ty target).ListInner).T }

/-- Whether a statement is a nil check `if ... != nil { ... }`. -/
def Code.isNilCheck : Code → Bool
  | Code.ifStmt (Code.binop "!=" _ Code.nil) _ => true
  | _ => false

/-! ## Run-time reading of the emitted slice initialization

Go semantics of the three statement forms that initialize the target slice, used
to state what the generated code does with a nil and with a non-nil source. -/

/-- A slice value at run time: `none` is the nil slice, `some n` an allocated
slice of length `n`. -/
abbrev SliceVal := Option Nat

/-- Go's `len` of a slice value; `len(nil)` is 0. -/
def SliceVal.len : SliceVal → Nat
  | none => 0
  | some n => n

/-- Executes one declaration or allocation of a slice variable: `var x T` leaves
`x` nil, `x = make(T, len(e), _)` and `x := make(T, len(e), _)` allocate `x` at the
length of `e`.  `val` gives the value of the slice expressions that are read; the
store lists the variables written, latest first.  Other statements are not
covered (`none`). -/
def execSliceStmt (val : Code → SliceVal) (st : List (String × SliceVal)) :
    Code → Option (List (String × SliceVal))
  | Code.varDecl (Code.id x) _ => some ((x, none) :: st)
  | Code.assign (Code.id x) (Code.make _ (Code.len e) _) => some ((x, some (val e).len) :: st)
  | Code.define (Code.id x) (Code.make _ (Code.len e) _) => some ((x, some (val e).len) :: st)
  | _ => none

/-- Executes a block of declarations and allocations. -/
def execSliceBlock (val : Code → SliceVal) :
    List Code → List (String × SliceVal) → Option (List (String × SliceVal))
  | [], st => some st
  | s :: rest, st => (execSliceStmt val st s).bind (execSliceBlock val rest)

/-- Executes initialization statements: a nil check `if e != nil { block }` runs
its block exactly when `e` is not nil. -/
def execInit (val : Code → SliceVal) :
    List Code → List (String × SliceVal) → Option (List (String × SliceVal))
  | [], st => some st
  | Code.ifStmt (Code.binop "!=" e Code.nil) body :: rest, st =>
    if (val e).isSome then (execSliceBlock val body st).bind (execInit val rest)
    else execInit val rest st
  | s :: rest, st => (execSliceStmt val st s).bind (execInit val rest)

/-- The values the index takes in a counted loop
`for i := a; i < len(e); i++ { ... }` whose body leaves `i` and `e` alone. -/
def loopIndices (val : Code → SliceVal) : Code → Option (List Nat)
  | Code.forStmt (Code.define (Code.id i) (Code.lit a))
      (Code.binop "<" (Code.id j) (Code.len e)) (Code.incr (Code.id k)) _ =>
    if i = j ∧ j = k then some (List.range' a ((val e).len - a)) else none
  | _ => none

/-- Whether a statement is a loop. -/
def Code.isLoop : Code → Bool
  | Code.forStmt _ _ _ _ => true
  | _ => false

/-! ## Properties of rules and registries used in the theorems -/

/-- A rule reaches the generator only through the dispatcher it is handed (in Go
it holds the generator as the interface `builder.Generator`): every property of
the generator that the dispatcher keeps, the rule keeps. -/
def Builder.Faithful (R : Builder) : Prop :=
  ∀ (Q : Generator → Prop) (gen : GenBuild),
    (∀ c i s t w g out, Q g → gen c i s t w g = some out → Q out.2.2) →
    ∀ c i s t g out, Q g → R.Build gen c i s t g = some out → Q out.2.2

/-- The method context with which `addMethod` builds a body (lines 117-122). -/
def bodyCtx (E : Env) (method : Method) : MethodContext :=
  { Namer := Namer.New
    MappingBaseID := (E.types method.Target).T
    Mapping := method.Mapping
    IgnoredFields := method.IgnoredFields }

/-- The call expression `c.<name>(<source expression>)` of the cache-hit branch. -/
def methodCall (name : String) (sourceID : JenID) : JenID :=
  OtherID (Code.call (Code.dot (Code.id "c") name) [sourceID.Code])

/-- A rule calls the dispatcher only on the component pairs (`Sub`) of the pair it
converts, and it returns when these calls return: whenever the dispatcher returns
on every component pair from every generator with the property `Q`, keeping `Q`,
so does the rule on a pair it matches. -/
def Builder.Structural (R : Builder)
    (Sub : TypeRef → TypeRef → TypeRef → TypeRef → Prop) : Prop :=
  ∀ (Q : Generator → Prop) (gen : GenBuild) (s t : TypeRef),
    R.Matches s t = true →
    (∀ s1 t1, Sub s t s1 t1 → ∀ c i w g, Q g → ∃ out, gen c i s1 t1 w g = some out ∧ Q out.2.2) →
    ∀ c i g, Q g → ∃ out, R.Build gen c i s t g = some out ∧ Q out.2.2

/-- The component pairs of the list rule: the pair of the element types of a pair
it matches. -/
def listSub (ty : TypeRef → XType) (s t s1 t1 : TypeRef) : Prop :=
  List.Matches ty s t = true ∧ s1 = (ty s).ListInner ∧ t1 = (ty t).ListInner

/-- Every Signature of the first registry is a Signature of the second. -/
def Generator.Extends (g g1 : Generator) : Prop :=
  ∀ k, g.lookup.get k ≠ none → g1.lookup.get k ≠ none

/-- Every Signature over the identity strings `names` that is not in the registry is
listed in `L`. -/
def Generator.Covers (names : List String) (L : List Signature) (g : Generator) : Prop :=
  ∀ a ∈ names, ∀ b ∈ names, g.lookup.get ⟨a, b⟩ = none → (⟨a, b⟩ : Signature) ∈ L

/-- All Signatures over the identity strings `names`. -/
def allSignatures (names : List String) : List Signature :=
  names.flatMap (fun a => names.map (fun b => ⟨a, b⟩))

/-- A call depth that suffices for `Build` when at most `m` Signatures are missing
from the registry and the pair has rank at most `r`, ranks being at most `rmax`. -/
def fuelBound (rmax m r : Nat) : Nat := m * (rmax + 2) + r + 1

/-! ## Example inputs -/

/-- A descriptor of a basic type. -/
def basicType (name : String) : XType :=
  { T := name, List := false, ListFixed := false, ListInner := 0, Named := false, Basic := true
    ID := name, UnescapedID := name, TypeAsJen := Code.id name }

/-- A descriptor of an unnamed list type written `text`, with the element type
`inner`; the type is rendered as it is written. -/
def sliceType (text id : String) (inner : TypeRef) : XType :=
  { T := text, List := true, ListFixed := false, ListInner := inner, Named := false
    Basic := false, ID := id, UnescapedID := id, TypeAsJen := Code.id text }

/-- A descriptor of a named slice type `type name []elem` of package `p`. -/
def namedSliceType (name : String) (inner : TypeRef) : XType :=
  { T := "p." ++ name, List := true, ListFixed := false, ListInner := inner, Named := true
    Basic := false, ID := "p" ++ name, UnescapedID := "p" ++ name, TypeAsJen := Code.qual "p" name }

/-- An example type table: `int`, `string`, `[]int`, `[]string`, `[4]int`, the
mutually recursive `type A []B` and `type B []A`, the self-referential
`type Node []Node` and `type TargetNode []TargetNode`, and `[][]int`, `[][]string`. -/
def exampleTypes : TypeRef → XType
  | 1 => basicType "string"
  | 2 => sliceType "[]int" "intList" 0
  | 3 => sliceType "[]string" "stringList" 1
  | 4 => { sliceType "[4]int" "intList" 0 with ListFixed := true }
  | 5 => namedSliceType "A" 6
  | 6 => namedSliceType "B" 5
  | 7 => namedSliceType "Node" 7
  | 8 => namedSliceType "TargetNode" 8
  | 9 => sliceType "[][]int" "intListList" 2
  | 10 => sliceType "[][]string" "stringListList" 3
  | _ => basicType "int"

/-- An example of a sibling rule: a basic type converts to the same basic type by
handing the source expression on, without statements. -/
def exampleBasic (ty : TypeRef → XType) : Builder :=
  { Matches := fun source target =>
      (ty source).Basic && (ty target).Basic && decide ((ty source).T = (ty target).T)
    Build := fun _ ctx sourceID _ _ g => some (.ok ([], sourceID), ctx, g) }

/-- An example environment: the example types, capitalisation of the first letter
for `strings.Title`, the rule table `[basic, list]`, and a rendering of errors that
lists the frames from the outermost to the innermost and then the cause. -/
def exampleEnv : Env :=
  { types := exampleTypes
    Title := String.capitalize
    BuildSteps := [exampleBasic exampleTypes, List.builder exampleTypes]
    ToString := fun e =>
      String.join (e.Path.map (fun p => p.SourceID ++ " : " ++ p.SourceType ++ " -> "
        ++ p.TargetType ++ " | ")) ++ e.Cause }

/-- A generator with an empty registry, an empty namer and an empty output file. -/
def exampleGenerator : Generator :=
  { namer := Namer.New, name := "ConverterImpl", file := [], lookup := [] }

/-- A method context with a fresh namer. -/
def exampleCtx : MethodContext :=
  { Namer := Namer.New, MappingBaseID := "", Mapping := [], IgnoredFields := [] }

/-- The rank of the example types: the nesting depth of unnamed list types. -/
def exampleRank (s : TypeRef) (_ : TypeRef) : Nat :=
  match s with
  | 2 => 1
  | 3 => 1
  | 4 => 1
  | 9 => 2
  | 10 => 2
  | _ => 0

/-- The identity strings of the example types. -/
def exampleNames : List String :=
  ["int", "string", "[]int", "[]string", "[4]int", "p.A", "p.B", "p.Node", "p.TargetNode",
   "[][]int", "[][]string"]


/-! ## Occurrences of an expression in generated code -/

mutual
/-- The number of subterms of a piece of code that `p` recognises. -/
def Code.countIf (p : Code → Bool) : Code → Nat
  | c@(Code.id _) => if p c then 1 else 0
  | c@(Code.qual _ _) => if p c then 1 else 0
  | c@(Code.lit _) => if p c then 1 else 0
  | c@Code.nil => if p c then 1 else 0
  | c@(Code.ptr e) => (if p c then 1 else 0) + Code.countIf p e
  | c@(Code.param _ t) => (if p c then 1 else 0) + Code.countIf p t
  | c@(Code.index x i) => (if p c then 1 else 0) + Code.countIf p x + Code.countIf p i
  | c@(Code.dot x _) => (if p c then 1 else 0) + Code.countIf p x
  | c@(Code.call f args) => (if p c then 1 else 0) + Code.countIf p f + Code.countIfList p args
  | c@(Code.len x) => (if p c then 1 else 0) + Code.countIf p x
  | c@(Code.make t n k) =>
    (if p c then 1 else 0) + Code.countIf p t + Code.countIf p n + Code.countIf p k
  | c@(Code.binop _ l r) => (if p c then 1 else 0) + Code.countIf p l + Code.countIf p r
  | c@(Code.incr x) => (if p c then 1 else 0) + Code.countIf p x
  | c@(Code.assign l r) => (if p c then 1 else 0) + Code.countIf p l + Code.countIf p r
  | c@(Code.define l r) => (if p c then 1 else 0) + Code.countIf p l + Code.countIf p r
  | c@(Code.varDecl x t) => (if p c then 1 else 0) + Code.countIf p x + Code.countIf p t
  | c@(Code.ifStmt cnd b) =>
    (if p c then 1 else 0) + Code.countIf p cnd + Code.countIfList p b
  | c@(Code.forStmt i cnd post b) =>
    (if p c then 1 else 0) + Code.countIf p i + Code.countIf p cnd + Code.countIf p post
      + Code.countIfList p b
  | c@(Code.ret x) => (if p c then 1 else 0) + Code.countIf p x
  | c@(Code.funcDecl r _ ps rs b) =>
    (if p c then 1 else 0) + Code.countIf p r + Code.countIfList p ps + Code.countIfList p rs
      + Code.countIfList p b
/-- The number of subterms of a list of statements that `p` recognises. -/
def Code.countIfList (p : Code → Bool) : List Code → Nat
  | [] => 0
  | c :: rest => Code.countIf p c + Code.countIfList p rest
end

/-- An example source expression classified "other": the call `load()`. -/
def exampleCall : JenID := OtherID (Code.call (Code.id "load") [])

/-- Recognises the example call `load()`. -/
def isExampleCall : Code → Bool
  | Code.call (Code.id "load") [] => true
  | _ => false



/-- The name of a method declaration of the output file. -/
def Code.declName : Code → Option String
  | Code.funcDecl _ name _ _ _ => some name
  | _ => none



/-- A rule succeeds only through successful dispatcher calls: every property of
the generator that successful dispatcher calls keep is kept by a successful build
of the rule. -/
def Builder.Strict (R : Builder) : Prop :=
  ∀ (Q : Generator → Prop) (gen : GenBuild),
    (∀ c i s t w g r c1 g1, Q g → gen c i s t w g = some (.ok r, c1, g1) → Q g1) →
    ∀ c i s t g r c1 g1, Q g → R.Build gen c i s t g = some (.ok r, c1, g1) → Q g1

/-- The output file accounts for the registry up to the pending Methods: the file
is, declaration by declaration, the list of declarations of some Methods `built`,
and `built` together with `pending` are exactly the Methods of the registry. -/
def Generator.Accounts (g : Generator) (E : Env) (g0 : Generator) (pending : List Method) :
    Prop :=
  g.name = g0.name
  ∧ ∃ built : List Method,
      List.Forall₂ (fun d m => ∃ body, d = methodDecl E g0 m body) g.file built
      ∧ (built ++ pending).Perm (g.lookup.map Prod.snd)



/-- A run of `addMethod` over a list of Methods without error: the calls are made
one after the other in the order of the list, each one on the generator that the
call before it left, every one returns no error, and the last one leaves the
generator `g2`. -/
inductive Generator.BuildsAll (E : Env) (gen : GenBuild) :
    List Method → Generator → Generator → Prop where
  | nil (g : Generator) : Generator.BuildsAll E gen [] g g
  | cons (m : Method) (rest : List Method) (g g1 g2 : Generator) :
      Generator.addMethod E gen m g = some (none, g1) →
      Generator.BuildsAll E gen rest g1 g2 →
      Generator.BuildsAll E gen (m :: rest) g g2

/-- The text of the error that `createMethods` returns for a failed Method
(line 99). -/
def createError (E : Env) (method : Method) (err : Error) : String :=
  "Error while creating converter method: " ++ method.ID ++ "\n\n"
    ++ E.ToString (err.Lift
        { SourceID := "source", TargetID := "target"
          SourceType := (E.types method.Source).T
          TargetType := (E.types method.Target).T })


/-- An example Method declared as `name` on the interface `p.Converter`, without
directives. -/
def exampleMethod (name : String) (source target : TypeRef) : Method :=
  ⟨"(p.Converter)." ++ name, name, source, target, [], [], none⟩

/-- The generator that `addMethod` leaves with the example rules (the generator
itself when the call does not return). -/
def exampleStep (m : Method) (g : Generator) : Generator :=
  (Generator.addMethod exampleEnv (Generator.asGen exampleEnv 2) m g).elim g (fun o => o.2)


/-- The code `d` is the declaration of the Method `m` on the converter struct
`name`, as `addMethod` appends it: `func (c *<name>) <m.Name>(source <S>) <T>` with
a body that ends in a return statement. -/
def Code.DeclOf (E : Env) (name : String) (d : Code) (m : Method) : Prop :=
  ∃ (stmts : List Code) (e : Code),
    d = Code.funcDecl (Code.param "c" (Code.ptr (Code.id name))) m.Name
      [Code.param "source" (E.types m.Source).TypeAsJen]
      [(E.types m.Target).TypeAsJen] (stmts ++ [Code.ret e])

/-- The generator `g` has grown out of `base`: the name is the same, the registry
is the registry of `base` followed by added entries, the file is the file of `base`
followed by added declarations, the added declarations are, one by one, the
declarations of Methods `built`, and `built` together with the `pending` Methods
are exactly the Methods of the added entries. -/
def Generator.Grows (g : Generator) (E : Env) (base : Generator) (pending : List Method) :
    Prop :=
  g.name = base.name
  ∧ ∃ (added : Lookup) (nested : List Code) (built : List Method),
      g.lookup = base.lookup ++ added
      ∧ g.file = base.file ++ nested
      ∧ List.Forall₂ (Code.DeclOf E base.name) nested built
      ∧ (built ++ pending).Perm (added.map Prod.snd)

/-- An example registry of two requested conversions, registered in this order:
`Convert(A) B` with `type A []B`, `type B []A`, and `Apply([]int) []int`. -/
def exampleTwo : Generator :=
  (Generator.registerMethod exampleEnv (fun _ => none)
    ⟨"p", "Apply", "(p.Converter).Apply", FuncType.signature [2] [2]⟩ ⟨[], [], ""⟩
    (Generator.registerMethod exampleEnv (fun _ => none)
      ⟨"p", "Convert", "(p.Converter).Convert", FuncType.signature [5] [6]⟩ ⟨[], [], ""⟩
      exampleGenerator).2).2


/-! ## Run-time semantics of the emitted statements

An interpreter for the statement and expression forms that the list rule emits,
used to state what the generated loop does when it runs.  Expressions and
statements of other forms are left to an oracle (`Oracle`), so that the theorems
hold for every meaning they may have. -/

/-- A Go value at run time: an integer, a boolean, an allocated slice (or an
array) with its elements, the zero value of a type (which is `nil` for a slice
type), or a value of another kind. -/
inductive Val where
  | int (n : Nat)
  | bool (b : Bool)
  | slice (elems : List Val)
  | zero
  | other (tag : String)

/-- The variables of a running function with their values, latest first. -/
abbrev Vars := List (String × Val)

/-- The value of a variable, `none` when it is not declared. -/
def Vars.get : Vars → String → Option Val
  | [], _ => none
  | (y, v) :: rest, x => if y = x then some v else Vars.get rest x

/-- The state of a run: the variables, and the element assignments `x[k] = v`
executed so far as pairs `(x, k)`, in the order of execution. -/
structure RunState where
  vars : Vars
  log : List (String × Nat)

/-- The state after `x` is declared or assigned the value `v`. -/
def RunState.set (σ : RunState) (x : String) (v : Val) : RunState :=
  { σ with vars := (x, v) :: σ.vars }

/-- The indices at which elements of the slice variable `x` were assigned so far,
in the order of execution. -/
def RunState.assigned (σ : RunState) (x : String) : List Nat :=
  (σ.log.filter (fun p => decide (p.1 = x))).map Prod.snd

/-- The meaning of the expressions and statements that the interpreter does not
know (calls, selectors, statements of sibling rules). -/
structure Oracle where
  expr : Code → Vars → Option Val
  stmt : Code → RunState → Option RunState

/-- The value of an expression; `none` when the evaluation panics or is not
defined.  `nil` is the zero value; `len` of the nil slice is 0; `x[i]` needs an
allocated `x` and an index below its length; `make(T, n, c)` needs `n ≤ c` and
gives `n` zero values; `a < b` compares integers; `a != nil` tells an allocated
slice from the nil slice. -/
def eval (o : Oracle) (vars : Vars) : Code → Option Val
  | Code.id x => vars.get x
  | Code.lit n => some (Val.int n)
  | Code.nil => some Val.zero
  | Code.len e =>
    match eval o vars e with
    | some Val.zero => some (Val.int 0)
    | some (Val.slice l) => some (Val.int l.length)
    | _ => none
  | Code.index e i =>
    match eval o vars e, eval o vars i with
    | some (Val.slice l), some (Val.int k) => l[k]?
    | _, _ => none
  | Code.make _ n c =>
    match eval o vars n, eval o vars c with
    | some (Val.int k), some (Val.int m) =>
      if k ≤ m then some (Val.slice (List.replicate k Val.zero)) else none
    | _, _ => none
  | Code.binop op a b =>
    if op = "<" then
      match eval o vars a, eval o vars b with
      | some (Val.int x), some (Val.int y) => some (Val.bool (decide (x < y)))
      | _, _ => none
    else if op = "!=" then
      match eval o vars a, eval o vars b with
      | some Val.zero, some Val.zero => some (Val.bool false)
      | some (Val.slice _), some Val.zero => some (Val.bool true)
      | _, _ => none
    else o.expr (Code.binop op a b) vars
  | c => o.expr c vars

/-- A loop `for ; cond; { body }` run for at most `n` tests of the condition;
`none` when the condition has no boolean value, the body does not complete, or the
tests are used up. -/
def whileLoop (cond : RunState → Option Val) (body : RunState → Option RunState) :
    Nat → RunState → Option RunState
  | 0, _ => none
  | n + 1, σ =>
    match cond σ with
    | some (Val.bool true) => (body σ).bind (whileLoop cond body n)
    | some (Val.bool false) => some σ
    | _ => none

/-- One statement, with `run` for the blocks inside it and `n` bounding the
iterations of a loop.  `var x T` gives `x` the zero value of its type;
`x := e` and `x = e` set `x`; `x[i] = e` needs an allocated `x` and an index below
its length, replaces the element and is logged; `x++` increments an integer;
`if c { body }` and `for init; c; post { body }` are as in Go. -/
def execStmt (o : Oracle) (run : List Code → RunState → Option RunState) (n : Nat)
    (s : Code) (σ : RunState) : Option RunState :=
  match s with
  | Code.varDecl (Code.id x) _ => some (σ.set x Val.zero)
  | Code.define (Code.id x) e => (eval o σ.vars e).map (σ.set x)
  | Code.assign (Code.id x) e => (eval o σ.vars e).map (σ.set x)
  | Code.assign (Code.index (Code.id x) i) e =>
    match σ.vars.get x, eval o σ.vars i, eval o σ.vars e with
    | some (Val.slice l), some (Val.int k), some v =>
      if k < l.length then
        some { vars := (x, Val.slice (l.set k v)) :: σ.vars, log := σ.log ++ [(x, k)] }
      else none
    | _, _, _ => none
  | Code.incr (Code.id x) =>
    match σ.vars.get x with
    | some (Val.int k) => some (σ.set x (Val.int (k + 1)))
    | _ => none
  | Code.ifStmt c body =>
    match eval o σ.vars c with
    | some (Val.bool true) => run body σ
    | some (Val.bool false) => some σ
    | _ => none
  | Code.forStmt init c post body =>
    (run [init] σ).bind
      (whileLoop (fun τ => eval o τ.vars c) (fun τ => (run body τ).bind (run [post])) n)
  | s => o.stmt s σ

/-- A block of statements, run one after the other; the first argument bounds the
nesting of blocks and the iterations of every loop, and `none` means that the run
panics, is not defined, or that the bound is used up. -/
def exec (o : Oracle) : Nat → List Code → RunState → Option RunState
  | 0, _, _ => none
  | _ + 1, [], σ => some σ
  | fuel + 1, s :: rest, σ =>
    (execStmt o (exec o fuel) fuel s σ).bind (exec o fuel rest)

/-- The state of a run of the emitted loop before the iteration of index `k`: the
index variable holds `k`, the target variable holds an allocated slice as long as
the source, the source expression has the value `elems` it had at the start, and
the element assignments to the target are those recorded before the run (`before`)
followed by those of the indices `0..k-1`, each once. -/
def LoopState (o : Oracle) (targetSlice index : String) (source : Code) (elems : List Val)
    (before : List Nat) (k : Nat) (σ : RunState) : Prop :=
  σ.vars.get index = some (Val.int k)
  ∧ (∃ l, σ.vars.get targetSlice = some (Val.slice l) ∧ l.length = elems.length)
  ∧ eval o σ.vars source = some (Val.slice elems)
  ∧ σ.assigned targetSlice = before ++ List.range k

/-- An oracle that knows nothing: every other expression and statement is
undefined. -/
def exampleOracle : Oracle := ⟨fun _ _ => none, fun _ _ => none⟩

/-- An example of a dispatcher whose nested statements change the loop index: it
returns the increment of the index it is told in the error wrapper, and the
source expression as the result. -/
def exampleSkip : GenBuild :=
  fun ctx sourceID _ _ errWrapper g => some (.ok (errWrapper.args.map Code.incr, sourceID), ctx, g)

/-- A block runs from `σ` to `τ`: some bound suffices for `exec` to return `τ`. -/
def Runs (o : Oracle) (l : List Code) (σ τ : RunState) : Prop :=
  ∃ fuel, exec o fuel l σ = some τ

/-- The number that a list of decimal digit characters writes, most significant
digit first. -/
def decodeDigits (l : List Char) : Nat :=
  l.foldl (fun acc c => 10 * acc + (c.toNat - 48)) 0

/-! # Theorems -/

/-! ## The three outcomes of `(*List).Build` -/

theorem List.Build_of_ok (ty : TypeRef → XType) (gen : GenBuild) (ctx : MethodContext)
    (sourceID : JenID) (source target : TypeRef) (g : Generator)
    (newStmt : List Code) (newID : JenID) (ctx3 : MethodContext) (g1 : Generator)
    (hgen : List.elemBuild ty gen ctx sourceID source target g
      = some (.ok (newStmt, newID), ctx3, g1)) :
    List.Build ty gen ctx sourceID source target g
      = some (.ok (List.initializeStmt ty (List.targetSlice ty ctx target) sourceID source target
          ++ [List.loopAssignStmt (List.index ty ctx target) sourceID
            (newStmt ++ [Code.assign (Code.index (Code.id (List.targetSlice ty ctx target))
              (Code.id (List.index ty ctx target))) newID.Code])],
          VariableID (Code.id (List.targetSlice ty ctx target))), ctx3, g1) := by
  unfold List.elemBuild List.elemCtx List.indexedSource List.index at hgen
  unfold List.Build
  simp only [hgen]
  rfl

theorem List.Build_of_error (ty : TypeRef → XType) (gen : GenBuild) (ctx : MethodContext)
    (sourceID : JenID) (source target : TypeRef) (g : Generator)
    (err : Error) (ctx3 : MethodContext) (g1 : Generator)
    (hgen : List.elemBuild ty gen ctx sourceID source target g = some (.error err, ctx3, g1)) :
    List.Build ty gen ctx sourceID source target g
      = some (.error (err.Lift (List.frame ty source target)), ctx3, g1) := by
  unfold List.elemBuild List.elemCtx List.indexedSource List.index at hgen
  unfold List.Build
  simp only [hgen]
  rfl

theorem List.Build_of_none (ty : TypeRef → XType) (gen : GenBuild) (ctx : MethodContext)
    (sourceID : JenID) (source target : TypeRef) (g : Generator)
    (hgen : List.elemBuild ty gen ctx sourceID source target g = none) :
    List.Build ty gen ctx sourceID source target g = none := by
  unfold List.elemBuild List.elemCtx List.indexedSource List.index at hgen
  unfold List.Build
  simp only [hgen]

/-! ## The list rule -/

/-- C1: for a source list that is not fixed-length and a successful element build,
the initialization statements of `List.Build` are exactly
`var <target> <TargetType>` (no initializer) followed by
`if <source> != nil { <target> = make(<TargetType>, len(<source>), len(<source>)) }`
with that single assignment in the block, and the loop follows them.  Run on a
source value, they leave the target nil when the source is nil and allocated at the
source's length when it is not, and the loop that follows runs once per source
element, so not at all for a nil source. -/
theorem List_Build_init_nil_preserving (ty : TypeRef → XType) (gen : GenBuild)
    (ctx : MethodContext) (sourceID : JenID) (source target : TypeRef) (g : Generator)
    (newStmt : List Code) (newID : JenID) (ctx3 : MethodContext) (g1 : Generator)
    (hfixed : (ty source).ListFixed = false)
    (hgen : List.elemBuild ty gen ctx sourceID source target g
      = some (.ok (newStmt, newID), ctx3, g1)) :
    (List.Build ty gen ctx sourceID source target g
        = some (.ok ([Code.varDecl (Code.id (List.targetSlice ty ctx target)) (ty target).TypeAsJen,
                      Code.ifStmt (Code.binop "!=" sourceID.Code Code.nil)
                        [Code.assign (Code.id (List.targetSlice ty ctx target))
                          (Code.make (ty target).TypeAsJen (Code.len sourceID.Code)
                            (Code.len sourceID.Code))],
                      List.loopAssignStmt (List.index ty ctx target) sourceID
                        (newStmt ++ [Code.assign (Code.index
                          (Code.id (List.targetSlice ty ctx target))
                          (Code.id (List.index ty ctx target))) newID.Code])],
                     VariableID (Code.id (List.targetSlice ty ctx target))), ctx3, g1))
    ∧ List.initializeStmt ty (List.targetSlice ty ctx target) sourceID source target
        = [Code.varDecl (Code.id (List.targetSlice ty ctx target)) (ty target).TypeAsJen,
           Code.ifStmt (Code.binop "!=" sourceID.Code Code.nil)
            [Code.assign (Code.id (List.targetSlice ty ctx target))
              (Code.make (ty target).TypeAsJen (Code.len sourceID.Code)
                (Code.len sourceID.Code))]]
    ∧ (∀ val : Code → SliceVal,
        (execInit val
          (List.initializeStmt ty (List.targetSlice ty ctx target) sourceID source target) []).bind
            (fun st => st.lookup (List.targetSlice ty ctx target))
          = some (val sourceID.Code))
    ∧ ∀ val : Code → SliceVal,
        loopIndices val (List.loopAssignStmt (List.index ty ctx target) sourceID
          (newStmt ++ [Code.assign (Code.index (Code.id (List.targetSlice ty ctx target))
            (Code.id (List.index ty ctx target))) newID.Code]))
          = some (List.range (val sourceID.Code).len) := by
  have hinit : List.initializeStmt ty (List.targetSlice ty ctx target) sourceID source target
        = [Code.varDecl (Code.id (List.targetSlice ty ctx target)) (ty target).TypeAsJen,
           Code.ifStmt (Code.binop "!=" sourceID.Code Code.nil)
            [Code.assign (Code.id (List.targetSlice ty ctx target))
              (Code.make (ty target).TypeAsJen (Code.len sourceID.Code)
                (Code.len sourceID.Code))]] := by
    simp [List.initializeStmt, hfixed]
  refine ⟨?_, hinit, ?_, ?_⟩
  · rw [List.Build_of_ok ty gen ctx sourceID source target g newStmt newID ctx3 g1 hgen, hinit]
    rfl
  · intro val
    rw [hinit]
    cases hv : val sourceID.Code <;>
      simp [execInit, execSliceStmt, execSliceBlock, hv, SliceVal.len, List.lookup]
  · intro val
    simp [List.loopAssignStmt, loopIndices, List.range_eq_range']

/-- C1, at `[]int` to `[]int` with the example rules: the hypotheses hold and the
statements are the declaration, the nil check and the loop. -/
theorem List_Build_init_nil_preserving_witness :
    List.Build exampleTypes (Generator.asGen exampleEnv 1) exampleCtx
        (VariableID (Code.id "source")) 2 2 exampleGenerator
      = some (.ok ([Code.varDecl (Code.id "intList") (Code.id "[]int"),
                    Code.ifStmt (Code.binop "!=" (Code.id "source") Code.nil)
                      [Code.assign (Code.id "intList")
                        (Code.make (Code.id "[]int")
                          (Code.len (Code.id "source")) (Code.len (Code.id "source")))],
                    Code.forStmt (Code.define (Code.id "i") (Code.lit 0))
                      (Code.binop "<" (Code.id "i") (Code.len (Code.id "source")))
                      (Code.incr (Code.id "i"))
                      [Code.assign (Code.index (Code.id "intList") (Code.id "i"))
                        (Code.index (Code.id "source") (Code.id "i"))]],
                   VariableID (Code.id "intList")),
                { exampleCtx with Namer := ⟨["i", "intList"]⟩ }, exampleGenerator) :=
  (List_Build_init_nil_preserving exampleTypes (Generator.asGen exampleEnv 1) exampleCtx
    (VariableID (Code.id "source")) 2 2 exampleGenerator
    [] (VariableID (Code.index (Code.id "source") (Code.id "i")))
    { exampleCtx with Namer := ⟨["i", "intList"]⟩ } exampleGenerator rfl rfl).1

/-- C3: `List.Matches` is true exactly when the source is a list, the target is a
list and the target is not fixed-length; it is false for every fixed-length target
and true for a fixed-length source array with a slice target.  It is a function of
the two descriptors alone and changes no state. -/
theorem List_Matches_iff (ty : TypeRef → XType) (source target : TypeRef) :
    (List.Matches ty source target = true
      ↔ (ty source).List = true ∧ (ty target).List = true ∧ (ty target).ListFixed = false)
    ∧ ((ty target).ListFixed = true → List.Matches ty source target = false)
    ∧ ((ty source).List = true → (ty source).ListFixed = true → (ty target).List = true →
        (ty target).ListFixed = false → List.Matches ty source target = true) := by
  refine ⟨?_, ?_, ?_⟩
  · simp [List.Matches, and_assoc]
  · intro h; simp [List.Matches, h]
  · intro h1 _ h3 h4; simp [List.Matches, h1, h3, h4]

/-- C3, at the example types: a `[4]int` target never matches, a `[4]int` source
with a `[]int` target does. -/
theorem List_Matches_iff_witness :
    List.Matches exampleTypes 2 4 = false ∧ List.Matches exampleTypes 4 2 = true :=
  ⟨(List_Matches_iff exampleTypes 2 4).2.1 rfl,
   (List_Matches_iff exampleTypes 4 2).2.2 rfl rfl rfl rfl⟩

/-- C4: for a fixed-length source array and a successful element build, the
initialization of `List.Build` is the single statement
`<target> := make(<TargetType>, len(<source>), len(<source>))`, which allocates the
target at the source's length; the returned statements are this one and the loop,
none of them is a nil check, and the loop body adds to the nested element
statements only the assignment, which is no nil check either. -/
theorem List_Build_init_fixed (ty : TypeRef → XType) (gen : GenBuild)
    (ctx : MethodContext) (sourceID : JenID) (source target : TypeRef) (g : Generator)
    (newStmt : List Code) (newID : JenID) (ctx3 : MethodContext) (g1 : Generator)
    (hfixed : (ty source).ListFixed = true)
    (hgen : List.elemBuild ty gen ctx sourceID source target g
      = some (.ok (newStmt, newID), ctx3, g1)) :
    ∃ stmt : List Code,
      List.Build ty gen ctx sourceID source target g
        = some (.ok (stmt, VariableID (Code.id (List.targetSlice ty ctx target))), ctx3, g1)
      ∧ stmt = [Code.define (Code.id (List.targetSlice ty ctx target))
                  (Code.make (ty target).TypeAsJen (Code.len sourceID.Code)
                    (Code.len sourceID.Code)),
                Code.forStmt (Code.define (Code.id (List.index ty ctx target)) (Code.lit 0))
                  (Code.binop "<" (Code.id (List.index ty ctx target)) (Code.len sourceID.Code))
                  (Code.incr (Code.id (List.index ty ctx target)))
                  (newStmt ++ [Code.assign
                    (Code.index (Code.id (List.targetSlice ty ctx target))
                      (Code.id (List.index ty ctx target))) newID.Code])]
      ∧ List.initializeStmt ty (List.targetSlice ty ctx target) sourceID source target
        = [Code.define (Code.id (List.targetSlice ty ctx target))
            (Code.make (ty target).TypeAsJen (Code.len sourceID.Code) (Code.len sourceID.Code))]
      ∧ (∀ s ∈ stmt, s.isNilCheck = false)
      ∧ (Code.assign (Code.index (Code.id (List.targetSlice ty ctx target))
          (Code.id (List.index ty ctx target))) newID.Code).isNilCheck = false
      ∧ ∀ val : Code → SliceVal,
          (execInit val
            (List.initializeStmt ty (List.targetSlice ty ctx target) sourceID source target) []).bind
              (fun st => st.lookup (List.targetSlice ty ctx target))
            = some (some (val sourceID.Code).len) := by
  have hinit : List.initializeStmt ty (List.targetSlice ty ctx target) sourceID source target
        = [Code.define (Code.id (List.targetSlice ty ctx target))
            (Code.make (ty target).TypeAsJen (Code.len sourceID.Code)
              (Code.len sourceID.Code))] := by
    simp [List.initializeStmt, hfixed]
  refine ⟨_, ?_, rfl, hinit, ?_, rfl, ?_⟩
  · rw [List.Build_of_ok ty gen ctx sourceID source target g newStmt newID ctx3 g1 hgen, hinit]
    rfl
  · intro s hs
    simp only [List.mem_cons, List.mem_singleton, List.not_mem_nil, or_false] at hs
    rcases hs with h | h <;> subst h <;> rfl
  · intro val
    rw [hinit]
    simp [execInit, execSliceStmt, execSliceBlock, List.lookup]

/-- C4, at `[4]int` to `[]int` with the example rules: the statements are the
allocation and the loop. -/
theorem List_Build_init_fixed_witness :
    List.Build exampleTypes (Generator.asGen exampleEnv 1) exampleCtx
        (VariableID (Code.id "source")) 4 2 exampleGenerator
      = some (.ok ([Code.define (Code.id "intList")
                      (Code.make (Code.id "[]int")
                        (Code.len (Code.id "source")) (Code.len (Code.id "source"))),
                    Code.forStmt (Code.define (Code.id "i") (Code.lit 0))
                      (Code.binop "<" (Code.id "i") (Code.len (Code.id "source")))
                      (Code.incr (Code.id "i"))
                      [Code.assign (Code.index (Code.id "intList") (Code.id "i"))
                        (Code.index (Code.id "source") (Code.id "i"))]],
                   VariableID (Code.id "intList")),
                { exampleCtx with Namer := ⟨["i", "intList"]⟩ }, exampleGenerator) := by
  obtain ⟨stmt, hbuild, hstmt, -⟩ :=
    List_Build_init_fixed exampleTypes (Generator.asGen exampleEnv 1) exampleCtx
      (VariableID (Code.id "source")) 4 2 exampleGenerator
      [] (VariableID (Code.index (Code.id "source") (Code.id "i")))
      { exampleCtx with Namer := ⟨["i", "intList"]⟩ } exampleGenerator rfl rfl
  rw [hbuild, hstmt]
  rfl

/-- C5: when the nested dispatcher build returns, `List.Build` returns with the
same context and generator, and it fails exactly when the nested build failed;
then it returns no statements and no result expression, and its error is the
nested error lifted once, by the frame with SourceID "[]", TargetID "[]" and the
names of the source and target element types: that frame is put in front of the
frames of the nested error and the cause is the nested cause. -/
theorem List_Build_error_lift (ty : TypeRef → XType) (gen : GenBuild)
    (ctx : MethodContext) (sourceID : JenID) (source target : TypeRef) (g : Generator)
    (r : BuildResult) (ctx3 : MethodContext) (g1 : Generator)
    (hgen : List.elemBuild ty gen ctx sourceID source target g = some (r, ctx3, g1)) :
    ∃ r1 : BuildResult,
      List.Build ty gen ctx sourceID source target g = some (r1, ctx3, g1)
      ∧ (r1.err.isSome = true ↔ r.err.isSome = true)
      ∧ ∀ e : Error, r.err = some e →
          r1.stmt = [] ∧ r1.id = none
          ∧ r1.err = some (e.Lift
              { SourceID := "[]", TargetID := "[]"
                SourceType := (ty (ty source).ListInner).T
                TargetType := (ty (ty target).ListInner).T })
          ∧ r1.err = some
              { Path := { SourceID := "[]", TargetID := "[]"
                          SourceType := (ty (ty source).ListInner).T
                          TargetType := (ty (ty target).ListInner).T } :: e.Path
                Cause := e.Cause } := by
  cases r with
  | error e =>
    refine ⟨_, List.Build_of_error ty gen ctx sourceID source target g e ctx3 g1 hgen, ?_, ?_⟩
    · simp [BuildResult.err]
    · intro e1 he
      simp only [BuildResult.err, Option.some.injEq] at he
      subst he
      exact ⟨rfl, rfl, rfl, rfl⟩
  | ok p =>
    obtain ⟨newStmt, newID⟩ := p
    refine ⟨_, List.Build_of_ok ty gen ctx sourceID source target g newStmt newID ctx3 g1 hgen,
      ?_, ?_⟩
    · simp [BuildResult.err]
    · intro e1 he
      simp [BuildResult.err] at he

/-- C5, at `[]int` to `[]string` with the example rules: the nested build fails
with the type mismatch and the list rule returns it under one "[]" frame. -/
theorem List_Build_error_lift_witness :
    List.Build exampleTypes (Generator.asGen exampleEnv 1) exampleCtx
        (VariableID (Code.id "source")) 2 3 exampleGenerator
      = some (.error { Path := [{ SourceID := "[]", TargetID := "[]"
                                  SourceType := "int", TargetType := "string" }]
                       Cause := "TypeMismatch: Cannot convert int to string" },
                { exampleCtx with Namer := ⟨["i", "stringList"]⟩ }, exampleGenerator) := by
  obtain ⟨r1, hbuild, -, herr⟩ :=
    List_Build_error_lift exampleTypes (Generator.asGen exampleEnv 1) exampleCtx
      (VariableID (Code.id "source")) 2 3 exampleGenerator
      (.error (NewError "TypeMismatch: Cannot convert int to string"))
      { exampleCtx with Namer := ⟨["i", "stringList"]⟩ } exampleGenerator rfl
  obtain ⟨-, -, -, h3⟩ := herr _ rfl
  rw [hbuild]
  cases r1 with
  | ok p => simp [BuildResult.err] at h3
  | error e =>
    simp only [BuildResult.err, Option.some.injEq] at h3
    rw [h3]
    rfl

/-! ## The registry as a map -/

theorem Lookup.get_set_self (l : Lookup) (k : Signature) (v : Method) :
    (l.set k v).get k = some v := by
  induction l with
  | nil => simp [Lookup.set, Lookup.get]
  | cons p rest ih =>
    obtain ⟨k1, v1⟩ := p
    by_cases h : k1 = k
    · simp [Lookup.set, Lookup.get, h]
    · simp [Lookup.set, Lookup.get, h, ih]

theorem Lookup.get_set_ne (l : Lookup) (k k1 : Signature) (v : Method) (h : k1 ≠ k) :
    (l.set k v).get k1 = l.get k1 := by
  induction l with
  | nil => simp [Lookup.set, Lookup.get, Ne.symm h]
  | cons p rest ih =>
    obtain ⟨k2, v2⟩ := p
    by_cases h2 : k2 = k
    · subst h2
      simp [Lookup.set, Lookup.get, Ne.symm h]
    · by_cases h3 : k2 = k1
      · subst h3
        simp [Lookup.set, Lookup.get, h2]
      · simp [Lookup.set, Lookup.get, h2, h3, ih]

/-! ## The dispatcher, branch by branch -/

theorem Generator.Build_hit (E : Env) (fuel : Nat) (ctx : MethodContext) (sourceID : JenID)
    (source target : TypeRef) (g : Generator) (method : Method)
    (hhit : g.lookup.get (signatureOf E.types source target) = some method) :
    Generator.Build E (fuel + 1) ctx sourceID source target g
      = some (.ok ([], methodCall method.Name sourceID), ctx, g) := by
  simp [Generator.Build, hhit, methodCall]

theorem Generator.Build_extract (E : Env) (fuel : Nat) (ctx : MethodContext) (sourceID : JenID)
    (source target : TypeRef) (g : Generator)
    (hmiss : g.lookup.get (signatureOf E.types source target) = none)
    (hex : extracts E.types source target = true) :
    Generator.Build E (fuel + 1) ctx sourceID source target g
      = match Generator.addMethod E (Generator.asGen E fuel)
            (Generator.reserve E source target g).1 (Generator.reserve E source target g).2 with
        | none => none
        | some (some err, g1) => some (.error err, ctx, g1)
        | some (none, g1) => Generator.Build E fuel ctx sourceID source target g1 := by
  simp only [Generator.Build, hmiss, hex, if_true]
  rfl

theorem Generator.Build_inline (E : Env) (fuel : Nat) (ctx : MethodContext) (sourceID : JenID)
    (source target : TypeRef) (g : Generator)
    (hmiss : g.lookup.get (signatureOf E.types source target) = none)
    (hex : extracts E.types source target = false) :
    Generator.Build E (fuel + 1) ctx sourceID source target g
      = Generator.BuildNoLookup E (Generator.asGen E fuel) ctx sourceID source target g := by
  simp only [Generator.Build, hmiss, hex]
  rfl

theorem Generator.addMethod_no_delegate (E : Env) (gen : GenBuild) (method : Method)
    (g : Generator) (hd : method.Delegate = none) :
    Generator.addMethod E gen method g
      = match Generator.BuildNoLookup E gen (bodyCtx E method) (VariableID (Code.id "source"))
            method.Source method.Target g with
        | none => none
        | some (.error err, _, g1) => some (some err, g1)
        | some (.ok (stmt, newID), _, g1) =>
          some (none, { g1 with file := g1.file ++
            [methodDecl E g1 method (stmt ++ [Code.ret newID.Code])] }) := by
  simp only [Generator.addMethod, hd, bodyCtx]

/-! ## What every build keeps -/

theorem Generator.BuildNoLookup_preserves (E : Env) (Q : Generator → Prop)
    (hrules : ∀ R ∈ E.BuildSteps, R.Faithful) (gen : GenBuild)
    (hgen : ∀ c i s t w g out, Q g → gen c i s t w g = some out → Q out.2.2)
    (c : MethodContext) (i : JenID) (s t : TypeRef) (g : Generator)
    (out : BuildResult × MethodContext × Generator) (hQ : Q g)
    (h : Generator.BuildNoLookup E gen c i s t g = some out) : Q out.2.2 := by
  unfold Generator.BuildNoLookup at h
  cases hfm : firstMatch E.BuildSteps s t with
  | none =>
    rw [hfm] at h
    simp only [Option.some.injEq] at h
    subst h
    exact hQ
  | some rule =>
    rw [hfm] at h
    have hmem : rule ∈ E.BuildSteps := List.mem_of_find?_eq_some hfm
    exact hrules rule hmem Q gen hgen c i s t g out hQ h

theorem Generator.addMethod_preserves (E : Env) (Q : Generator → Prop)
    (hrules : ∀ R ∈ E.BuildSteps, R.Faithful)
    (hfile : ∀ g f, Q g → Q { g with file := f }) (gen : GenBuild)
    (hgen : ∀ c i s t w g out, Q g → gen c i s t w g = some out → Q out.2.2)
    (method : Method) (g : Generator) (out : Option Error × Generator) (hQ : Q g)
    (h : Generator.addMethod E gen method g = some out) : Q out.2 := by
  unfold Generator.addMethod at h
  cases hd : method.Delegate with
  | some d =>
    simp only [hd, Option.some.injEq] at h
    subst h
    exact hfile _ _ hQ
  | none =>
    simp only [hd] at h
    split at h
    · cases h
    · rename_i err c1 g1 hb
      simp only [Option.some.injEq] at h
      subst h
      exact Generator.BuildNoLookup_preserves E Q hrules gen hgen _ _ _ _ _ _ hQ hb
    · rename_i stmt newID c1 g1 hb
      simp only [Option.some.injEq] at h
      subst h
      exact hfile _ _ (Generator.BuildNoLookup_preserves E Q hrules gen hgen _ _ _ _ _ _ hQ hb)

theorem Generator.Build_preserves (E : Env) (Q : Generator → Prop)
    (hrules : ∀ R ∈ E.BuildSteps, R.Faithful)
    (hreserve : ∀ s t g, Q g → g.lookup.get (signatureOf E.types s t) = none →
      extracts E.types s t = true → Q (Generator.reserve E s t g).2)
    (hfile : ∀ g f, Q g → Q { g with file := f }) :
    ∀ (fuel : Nat) (c : MethodContext) (i : JenID) (s t : TypeRef) (g : Generator)
      (out : BuildResult × MethodContext × Generator),
      Q g → Generator.Build E fuel c i s t g = some out → Q out.2.2 := by
  intro fuel
  induction fuel with
  | zero => intro c i s t g out _ h; simp [Generator.Build] at h
  | succ fuel ih =>
    intro c i s t g out hQ h
    have hgen : ∀ c i s t (w : ErrorWrapper) g out, Q g →
        Generator.asGen E fuel c i s t w g = some out → Q out.2.2 :=
      fun c i s t _ g out hQ h => ih c i s t g out hQ h
    cases hget : g.lookup.get (signatureOf E.types s t) with
    | some m =>
      rw [Generator.Build_hit E fuel c i s t g m hget] at h
      simp only [Option.some.injEq] at h
      subst h
      exact hQ
    | none =>
      cases hex : extracts E.types s t with
      | false =>
        rw [Generator.Build_inline E fuel c i s t g hget hex] at h
        exact Generator.BuildNoLookup_preserves E Q hrules _ hgen _ _ _ _ _ _ hQ h
      | true =>
        rw [Generator.Build_extract E fuel c i s t g hget hex] at h
        have hQ0 := hreserve s t g hQ hget hex
        split at h
        · cases h
        · rename_i err g1 ha
          simp only [Option.some.injEq] at h
          subst h
          exact Generator.addMethod_preserves E Q hrules hfile _ hgen _ _ _ hQ0 ha
        · rename_i g1 ha
          exact ih c i s t g1 out
            (Generator.addMethod_preserves E Q hrules hfile _ hgen _ _ _ hQ0 ha) h

theorem List.builder_faithful (ty : TypeRef → XType) : (List.builder ty).Faithful := by
  intro Q gen hgen c i s t g out hQ h
  change List.Build ty gen c i s t g = some out at h
  cases hr : List.elemBuild ty gen c i s t g with
  | none =>
    rw [List.Build_of_none ty gen c i s t g hr] at h
    cases h
  | some o =>
    obtain ⟨r, c3, g1⟩ := o
    have hQ1 : Q g1 := hgen _ _ _ _ _ g _ hQ hr
    cases r with
    | error e =>
      rw [List.Build_of_error ty gen c i s t g e c3 g1 hr] at h
      simp only [Option.some.injEq] at h
      subst h
      exact hQ1
    | ok p =>
      rw [List.Build_of_ok ty gen c i s t g p.1 p.2 c3 g1 hr] at h
      simp only [Option.some.injEq] at h
      subst h
      exact hQ1

theorem exampleBasic_faithful (ty : TypeRef → XType) : (exampleBasic ty).Faithful := by
  intro Q gen _ c i s t g out hQ h
  simp only [exampleBasic, Option.some.injEq] at h
  subst h
  exact hQ

theorem exampleEnv_faithful : ∀ R ∈ exampleEnv.BuildSteps, R.Faithful := by
  intro R hR
  simp only [exampleEnv, List.mem_cons, List.mem_singleton, List.not_mem_nil, or_false] at hR
  rcases hR with h | h
  · subst h; exact exampleBasic_faithful _
  · subst h; exact List.builder_faithful _

/-- An entry of the registry stays through every build. -/
theorem Generator.Build_keeps_entry (E : Env) (hrules : ∀ R ∈ E.BuildSteps, R.Faithful)
    (k : Signature) (m : Method) (fuel : Nat) (c : MethodContext) (i : JenID) (s t : TypeRef)
    (g : Generator) (out : BuildResult × MethodContext × Generator)
    (hk : g.lookup.get k = some m) (h : Generator.Build E fuel c i s t g = some out) :
    out.2.2.lookup.get k = some m := by
  refine Generator.Build_preserves E (fun g => g.lookup.get k = some m) hrules ?_ ?_
    fuel c i s t g out hk h
  · intro s t g hQ hmiss _
    have hne : k ≠ signatureOf E.types s t := by
      intro heq
      rw [heq, hmiss] at hQ
      cases hQ
    simp only [Generator.reserve]
    rw [Lookup.get_set_ne _ _ _ _ hne]
    exact hQ
  · intro g f hQ
    exact hQ

/-- C7: when the pair's Signature is in the registry, `Generator.Build` returns
no statements, no error and the call `c.<Method.Name>(<source expression>)`
classified "other", whatever the types are (named or not) and whatever the rule
table holds, and it hands back the method context and the generator (registry,
namer, output file) unchanged. -/
theorem Generator_Build_cache_hit (E : Env) (fuel : Nat) (ctx : MethodContext)
    (sourceID : JenID) (source target : TypeRef) (g : Generator) (method : Method)
    (hhit : g.lookup.get { Source := (E.types source).T, Target := (E.types target).T }
      = some method) :
    ∃ r : BuildResult,
      Generator.Build E (fuel + 1) ctx sourceID source target g = some (r, ctx, g)
      ∧ r.stmt = [] ∧ r.err = none
      ∧ r.id = some { Code := Code.call (Code.dot (Code.id "c") method.Name) [sourceID.Code]
                      Variable := false } :=
  ⟨_, Generator.Build_hit E fuel ctx sourceID source target g method hhit, rfl, rfl, rfl⟩

/-- C7, at the named pair (A, B) with a registered Method `Convert`: the result is
the call `c.Convert(source)` and nothing is added to the generator, although the
pair is named and the list rule matches it. -/
theorem Generator_Build_cache_hit_witness :
    extracts exampleTypes 5 6 = true ∧ List.Matches exampleTypes 5 6 = true
    ∧ ∃ r : BuildResult,
      Generator.Build exampleEnv 1 exampleCtx (VariableID (Code.id "source")) 5 6
          { exampleGenerator with lookup := [(⟨"p.A", "p.B"⟩, ⟨"Convert", "Convert", 5, 6, [], [], none⟩)] }
        = some (r, exampleCtx,
            { exampleGenerator with lookup := [(⟨"p.A", "p.B"⟩, ⟨"Convert", "Convert", 5, 6, [], [], none⟩)] })
      ∧ r.stmt = [] ∧ r.err = none
      ∧ r.id = some { Code := Code.call (Code.dot (Code.id "c") "Convert") [Code.id "source"]
                      Variable := false } :=
  ⟨rfl, rfl, Generator_Build_cache_hit exampleEnv 0 exampleCtx (VariableID (Code.id "source")) 5 6
    { exampleGenerator with lookup := [(⟨"p.A", "p.B"⟩, ⟨"Convert", "Convert", 5, 6, [], [], none⟩)] }
    ⟨"Convert", "Convert", 5, 6, [], [], none⟩ rfl⟩

/-- C8: for a pair that is not in the registry and of which one side is named and
not basic, `Generator.Build` creates a Method named by the run-wide namer from the
base `source.UnescapedID() + "To" + Title(target.UnescapedID())`, with empty
mapping, empty ignored-field set and no delegate, and stores it under the pair's
Signature; the body is then built by `BuildNoLookup` on the generator that already
holds this Method; a failure of the body build is returned; and when the body build
succeeds (with rules that reach the generator only through the dispatcher), `Build`
returns no statements and the call of the new Method classified "other". -/
theorem Generator_Build_extracts_method (E : Env) (fuel : Nat) (ctx : MethodContext)
    (sourceID : JenID) (source target : TypeRef) (g : Generator)
    (hmiss : g.lookup.get { Source := (E.types source).T, Target := (E.types target).T } = none)
    (hex : ((E.types source).Named = true ∧ (E.types source).Basic = false)
      ∨ ((E.types target).Named = true ∧ (E.types target).Basic = false)) :
    (Generator.reserve E source target g).1
        = { ID := (g.namer.Name ((E.types source).UnescapedID ++ "To"
                  ++ E.Title (E.types target).UnescapedID)).1
            Name := (g.namer.Name ((E.types source).UnescapedID ++ "To"
                  ++ E.Title (E.types target).UnescapedID)).1
            Source := source
            Target := target
            Mapping := []
            IgnoredFields := []
            Delegate := none }
    ∧ (Generator.reserve E source target g).2.lookup.get
          { Source := (E.types source).T, Target := (E.types target).T }
        = some (Generator.reserve E source target g).1
    ∧ (Generator.reserve E source target g).1.Name
        ∈ (Generator.reserve E source target g).2.namer.lookup
    ∧ (Generator.reserve E source target g).2.file = g.file
    ∧ Generator.Build E (fuel + 2) ctx sourceID source target g
        = (match Generator.BuildNoLookup E (Generator.asGen E (fuel + 1))
              { Namer := Namer.New
                MappingBaseID := (E.types target).T
                Mapping := []
                IgnoredFields := [] }
              (VariableID (Code.id "source")) source target
              (Generator.reserve E source target g).2 with
          | none => none
          | some (.error err, _, g1) => some (.error err, ctx, g1)
          | some (.ok (stmt, newID), _, g1) =>
            Generator.Build E (fuel + 1) ctx sourceID source target
              { g1 with file := g1.file ++ [methodDecl E g1 (Generator.reserve E source target g).1
                (stmt ++ [Code.ret newID.Code])] })
    ∧ ((∀ R ∈ E.BuildSteps, R.Faithful) →
        ∀ (stmt : List Code) (newID : JenID) (c1 : MethodContext) (g1 : Generator),
          Generator.BuildNoLookup E (Generator.asGen E (fuel + 1))
              { Namer := Namer.New
                MappingBaseID := (E.types target).T
                Mapping := []
                IgnoredFields := [] }
              (VariableID (Code.id "source")) source target
              (Generator.reserve E source target g).2 = some (.ok (stmt, newID), c1, g1) →
          Generator.Build E (fuel + 2) ctx sourceID source target g
            = some (.ok ([], OtherID (Code.call
                  (Code.dot (Code.id "c") (Generator.reserve E source target g).1.Name)
                  [sourceID.Code])), ctx,
                { g1 with file := g1.file ++ [methodDecl E g1
                  (Generator.reserve E source target g).1 (stmt ++ [Code.ret newID.Code])] })) := by
  have hex1 : extracts E.types source target = true := by
    rcases hex with ⟨h1, h2⟩ | ⟨h1, h2⟩ <;> simp [extracts, h1, h2]
  have hstored : (Generator.reserve E source target g).2.lookup.get
      (signatureOf E.types source target) = some (Generator.reserve E source target g).1 := by
    simp only [Generator.reserve]
    exact Lookup.get_set_self _ _ _
  have hbuild := Generator.Build_extract E (fuel + 1) ctx sourceID source target g hmiss hex1
  rw [Generator.addMethod_no_delegate E _ _ _ rfl] at hbuild
  refine ⟨rfl, hstored, ?_, rfl, ?_, ?_⟩
  · simp only [Generator.reserve, Namer.Register]
    split <;> simp_all
  · rw [hbuild]
    change _ = (match Generator.BuildNoLookup E (Generator.asGen E (fuel + 1))
        (bodyCtx E (Generator.reserve E source target g).1) (VariableID (Code.id "source"))
        (Generator.reserve E source target g).1.Source
        (Generator.reserve E source target g).1.Target
        (Generator.reserve E source target g).2 with
      | none => none
      | some (.error err, _, g1) => some (.error err, ctx, g1)
      | some (.ok (stmt, newID), _, g1) =>
        Generator.Build E (fuel + 1) ctx sourceID source target
          { g1 with file := g1.file ++ [methodDecl E g1 (Generator.reserve E source target g).1
            (stmt ++ [Code.ret newID.Code])] })
    generalize Generator.BuildNoLookup E (Generator.asGen E (fuel + 1))
        (bodyCtx E (Generator.reserve E source target g).1) (VariableID (Code.id "source"))
        (Generator.reserve E source target g).1.Source
        (Generator.reserve E source target g).1.Target
        (Generator.reserve E source target g).2 = x
    rcases x with _ | ⟨r, c1, g1⟩
    · rfl
    · cases r <;> rfl
  · intro hrules stmt newID c1 g1 hbody
    have hbody1 : Generator.BuildNoLookup E (Generator.asGen E (fuel + 1))
        (bodyCtx E (Generator.reserve E source target g).1) (VariableID (Code.id "source"))
        (Generator.reserve E source target g).1.Source
        (Generator.reserve E source target g).1.Target
        (Generator.reserve E source target g).2 = some (.ok (stmt, newID), c1, g1) := hbody
    rw [hbuild, hbody1]
    have hkeep : g1.lookup.get (signatureOf E.types source target)
        = some (Generator.reserve E source target g).1 :=
      Generator.BuildNoLookup_preserves E
        (fun g2 => g2.lookup.get (signatureOf E.types source target)
          = some (Generator.reserve E source target g).1)
        hrules (Generator.asGen E (fuel + 1))
        (fun c i s t _ g2 out hQ h =>
          Generator.Build_keeps_entry E hrules _ _ (fuel + 1) c i s t g2 out hQ h)
        _ _ _ _ _ _ hstored hbody1
    exact Generator.Build_hit E fuel ctx sourceID source target _ _ hkeep

/-- C8, at `type Node []Node` to `type TargetNode []TargetNode` from an empty
registry: the Method `pNodeToPTargetNode` is created and stored, its body is built,
and `Build` returns the call of it without statements. -/
theorem Generator_Build_extracts_method_witness :
    (Generator.Build exampleEnv 2 exampleCtx (VariableID (Code.id "source")) 7 8
        exampleGenerator).map (fun out => (out.1, out.2.2.lookup, out.2.2.file.length))
      = some (.ok ([], OtherID (Code.call (Code.dot (Code.id "c") "pNodeToPTargetNode")
                [Code.id "source"])),
              [(⟨"p.Node", "p.TargetNode"⟩,
                ⟨"pNodeToPTargetNode", "pNodeToPTargetNode", 7, 8, [], [], none⟩)], 1) := by
  have h := (Generator_Build_extracts_method exampleEnv 0 exampleCtx
    (VariableID (Code.id "source")) 7 8 exampleGenerator rfl (Or.inl ⟨rfl, rfl⟩)).2.2.2.2.2
    exampleEnv_faithful _ _ _ _ rfl
  rw [h]
  rfl

theorem firstMatch_append (pre post : List Builder) (rule : Builder) (source target : TypeRef)
    (hpre : ∀ r ∈ pre, r.Matches source target = false)
    (hrule : rule.Matches source target = true) :
    firstMatch (pre ++ rule :: post) source target = some rule := by
  induction pre with
  | nil => simp [firstMatch, List.find?, hrule]
  | cons r rest ih =>
    have hr : r.Matches source target = false := hpre r (List.mem_cons_self _ _)
    have hrest : ∀ r ∈ rest, r.Matches source target = false :=
      fun r1 h1 => hpre r1 (List.mem_cons_of_mem _ h1)
    have := ih hrest
    simp only [firstMatch] at this ⊢
    simp [List.find?, hr, this]

theorem firstMatch_none (rules : List Builder) (source target : TypeRef)
    (h : ∀ r ∈ rules, r.Matches source target = false) :
    firstMatch rules source target = none := by
  simp only [firstMatch, List.find?_eq_none]
  intro r hr
  simp [h r hr]

/-- A Signature that no extractable pair has is never added by a build. -/
theorem Generator.Build_adds_no_entry (E : Env) (hrules : ∀ R ∈ E.BuildSteps, R.Faithful)
    (k : Signature)
    (hk : ∀ s t, signatureOf E.types s t = k → extracts E.types s t = false)
    (fuel : Nat) (c : MethodContext) (i : JenID) (s t : TypeRef)
    (g : Generator) (out : BuildResult × MethodContext × Generator)
    (hnone : g.lookup.get k = none) (h : Generator.Build E fuel c i s t g = some out) :
    out.2.2.lookup.get k = none := by
  refine Generator.Build_preserves E (fun g => g.lookup.get k = none) hrules ?_ ?_
    fuel c i s t g out hnone h
  · intro s t g hQ _ hex
    have hne : k ≠ signatureOf E.types s t := by
      intro heq
      rw [hk s t heq.symm] at hex
      cases hex
    simp only [Generator.reserve]
    rw [Lookup.get_set_ne _ _ _ _ hne]
    exact hQ
  · intro g f hQ
    exact hQ

/-- C9: for a pair that is not in the registry and of which neither side is named
and not basic, `Generator.Build` returns exactly what the first matching rule of
`BuildSteps` returns from its `Build` on the unchanged generator, whatever rules
come later in the table; when no rule matches it returns no statements, no result
and the error "TypeMismatch: Cannot convert <source type> to <target type>"
without frames, and hands back the generator unchanged; and no entry keyed by the
pair's Signature is in the registry afterwards (for rules that reach the generator
only through the dispatcher, when pairs of this Signature are never extracted). -/
theorem Generator_Build_first_rule (E : Env) (fuel : Nat) (ctx : MethodContext)
    (sourceID : JenID) (source target : TypeRef) (g : Generator)
    (hmiss : g.lookup.get { Source := (E.types source).T, Target := (E.types target).T } = none)
    (hs : ¬ ((E.types source).Named = true ∧ (E.types source).Basic = false))
    (ht : ¬ ((E.types target).Named = true ∧ (E.types target).Basic = false)) :
    (∀ (pre post : List Builder) (rule : Builder),
        E.BuildSteps = pre ++ rule :: post →
        (∀ r ∈ pre, r.Matches source target = false) →
        rule.Matches source target = true →
        Generator.Build E (fuel + 1) ctx sourceID source target g
          = rule.Build (Generator.asGen E fuel) ctx sourceID source target g)
    ∧ ((∀ r ∈ E.BuildSteps, r.Matches source target = false) →
        ∃ r : BuildResult,
          Generator.Build E (fuel + 1) ctx sourceID source target g = some (r, ctx, g)
          ∧ r.stmt = [] ∧ r.id = none
          ∧ r.err = some { Path := []
                           Cause := "TypeMismatch: Cannot convert " ++ (E.types source).T
                             ++ " to " ++ (E.types target).T })
    ∧ ((∀ R ∈ E.BuildSteps, R.Faithful) →
        (∀ s t, signatureOf E.types s t = signatureOf E.types source target →
          extracts E.types s t = false) →
        ∀ out, Generator.Build E (fuel + 1) ctx sourceID source target g = some out →
          out.2.2.lookup.get { Source := (E.types source).T, Target := (E.types target).T }
            = none) := by
  have hex : extracts E.types source target = false := by
    simp only [extracts]
    cases h1 : (E.types source).Named <;> cases h2 : (E.types source).Basic <;>
      cases h3 : (E.types target).Named <;> cases h4 : (E.types target).Basic <;>
      simp_all
  have hbuild := Generator.Build_inline E fuel ctx sourceID source target g hmiss hex
  refine ⟨?_, ?_, ?_⟩
  · intro pre post rule hsteps hpre hrule
    rw [hbuild, Generator.BuildNoLookup, hsteps,
      firstMatch_append pre post rule source target hpre hrule]
  · intro hnone
    refine ⟨.error (NewError ("TypeMismatch: Cannot convert " ++ (E.types source).T
      ++ " to " ++ (E.types target).T)), ?_, rfl, rfl, rfl⟩
    rw [hbuild, Generator.BuildNoLookup, firstMatch_none _ _ _ hnone]
  · intro hrules hk out hout
    exact Generator.Build_adds_no_entry E hrules _ hk (fuel + 1) ctx sourceID source target g out
      hmiss hout

theorem exampleTypes_default (r : TypeRef) (h : 10 < r) : exampleTypes r = basicType "int" := by
  unfold exampleTypes
  split <;> first | rfl | (exfalso; revert h; decide)

theorem exampleTypes_intList (s : TypeRef) (h : (exampleTypes s).T = "[]int") : s = 2 := by
  by_cases h10 : 10 < s
  · rw [exampleTypes_default s h10] at h
    exact absurd h (by decide)
  · have h1 : s ≤ 10 := Nat.le_of_not_lt h10
    interval_cases s <;> first | rfl | exact absurd h (by decide)

/-- C9, at `[]int` to `[]int` with the example table `[basic, list]`: the basic
rule does not match, the list rule does, and `Build` returns what the list rule
builds, leaving no entry for the pair in the registry; at `int` to `string` no rule
matches and the mismatch error results. -/
theorem Generator_Build_first_rule_witness :
    Generator.Build exampleEnv 2 exampleCtx (VariableID (Code.id "source")) 2 2 exampleGenerator
      = List.Build exampleTypes (Generator.asGen exampleEnv 1) exampleCtx
          (VariableID (Code.id "source")) 2 2 exampleGenerator
    ∧ (∃ r : BuildResult,
        Generator.Build exampleEnv 2 exampleCtx (VariableID (Code.id "source")) 0 1
            exampleGenerator = some (r, exampleCtx, exampleGenerator)
        ∧ r.stmt = [] ∧ r.id = none
        ∧ r.err = some { Path := [], Cause := "TypeMismatch: Cannot convert int to string" })
    ∧ (Generator.Build exampleEnv 2 exampleCtx (VariableID (Code.id "source")) 2 2
        exampleGenerator).map (fun out => out.2.2.lookup.get ⟨"[]int", "[]int"⟩) = some none :=
  ⟨(Generator_Build_first_rule exampleEnv 1 exampleCtx (VariableID (Code.id "source")) 2 2
      exampleGenerator rfl (by decide) (by decide)).1
      [exampleBasic exampleTypes] [] (List.builder exampleTypes) rfl
      (by intro r hr; simp only [List.mem_singleton] at hr; subst hr; rfl) rfl,
   (Generator_Build_first_rule exampleEnv 1 exampleCtx (VariableID (Code.id "source")) 0 1
      exampleGenerator rfl (by decide) (by decide)).2.1
      (by
        intro r hr
        simp only [exampleEnv, List.mem_cons, List.mem_singleton, List.not_mem_nil,
          or_false] at hr
        rcases hr with h | h <;> subst h <;> rfl),
   by
    have hk : ∀ s t, signatureOf exampleTypes s t = signatureOf exampleTypes 2 2 →
        extracts exampleTypes s t = false := by
      intro s t h
      simp only [signatureOf, Signature.mk.injEq] at h
      rw [exampleTypes_intList s h.1, exampleTypes_intList t h.2]
      rfl
    have h3 := (Generator_Build_first_rule exampleEnv 1 exampleCtx
      (VariableID (Code.id "source")) 2 2 exampleGenerator rfl (by decide) (by decide)).2.2
      exampleEnv_faithful hk
    cases hb : Generator.Build exampleEnv 2 exampleCtx (VariableID (Code.id "source")) 2 2
        exampleGenerator with
    | none =>
      have hsome : (Generator.Build exampleEnv 2 exampleCtx (VariableID (Code.id "source")) 2 2
          exampleGenerator).isSome = true := rfl
      rw [hb] at hsome
      cases hsome
    | some out => simpa using h3 out hb⟩

/-! ## Termination of the dispatcher -/

theorem Generator.Extends.refl (g : Generator) : g.Extends g := fun _ h => h

theorem Generator.Extends.trans {g g1 g2 : Generator} (h1 : g.Extends g1) (h2 : g1.Extends g2) :
    g.Extends g2 := fun k h => h2 k (h1 k h)

theorem Generator.Extends.file (g : Generator) (f : List Code) :
    g.Extends { g with file := f } := fun _ h => h

theorem Generator.Covers.mono {names : List String} {L : List Signature} {g g1 : Generator}
    (h : g.Covers names L) (he : g.Extends g1) : g1.Covers names L := by
  intro a ha b hb hnone
  by_cases hg : g.lookup.get ⟨a, b⟩ = none
  · exact h a ha b hb hg
  · exact absurd hnone (he _ hg)

theorem Generator.reserve_extends (E : Env) (s t : TypeRef) (g : Generator) :
    g.Extends (Generator.reserve E s t g).2 := by
  intro k hk
  simp only [Generator.reserve]
  by_cases h : k = signatureOf E.types s t
  · subst h
    rw [Lookup.get_set_self]
    simp
  · rw [Lookup.get_set_ne _ _ _ _ h]
    exact hk

theorem Generator.reserve_covers (E : Env) (names : List String) (L : List Signature)
    (s t : TypeRef) (g : Generator) (h : g.Covers names L) :
    (Generator.reserve E s t g).2.Covers names (L.erase (signatureOf E.types s t)) := by
  intro a ha b hb hnone
  have hne : (⟨a, b⟩ : Signature) ≠ signatureOf E.types s t := by
    intro heq
    rw [heq] at hnone
    simp only [Generator.reserve] at hnone
    rw [Lookup.get_set_self] at hnone
    cases hnone
  have hnone1 : g.lookup.get ⟨a, b⟩ = none := by
    simp only [Generator.reserve] at hnone
    rw [Lookup.get_set_ne _ _ _ _ hne] at hnone
    exact hnone
  exact (List.mem_erase_of_ne hne).mpr (h a ha b hb hnone1)

theorem Generator.BuildNoLookup_total (E : Env)
    (Sub : TypeRef → TypeRef → TypeRef → TypeRef → Prop)
    (hstruct : ∀ R ∈ E.BuildSteps, R.Structural Sub)
    (Q : Generator → Prop) (gen : GenBuild) (s t : TypeRef)
    (hgen : ∀ s1 t1, Sub s t s1 t1 → ∀ c i w g, Q g →
      ∃ out, gen c i s1 t1 w g = some out ∧ Q out.2.2)
    (c : MethodContext) (i : JenID) (g : Generator) (hQ : Q g) :
    ∃ out, Generator.BuildNoLookup E gen c i s t g = some out ∧ Q out.2.2 := by
  unfold Generator.BuildNoLookup
  cases hfm : firstMatch E.BuildSteps s t with
  | none => exact ⟨_, rfl, hQ⟩
  | some rule =>
    have hmem : rule ∈ E.BuildSteps := List.mem_of_find?_eq_some hfm
    have hmatch : rule.Matches s t = true := by
      have := List.find?_some hfm
      simpa using this
    exact hstruct rule hmem Q gen s t hmatch hgen c i g hQ

theorem Generator.addMethod_total (E : Env)
    (Sub : TypeRef → TypeRef → TypeRef → TypeRef → Prop)
    (hstruct : ∀ R ∈ E.BuildSteps, R.Structural Sub)
    (Q : Generator → Prop) (hfile : ∀ g f, Q g → Q { g with file := f })
    (gen : GenBuild) (method : Method)
    (hgen : ∀ s1 t1, Sub method.Source method.Target s1 t1 → ∀ c i w g, Q g →
      ∃ out, gen c i s1 t1 w g = some out ∧ Q out.2.2)
    (g : Generator) (hQ : Q g) :
    ∃ out, Generator.addMethod E gen method g = some out ∧ Q out.2 := by
  unfold Generator.addMethod
  cases hd : method.Delegate with
  | some d => exact ⟨_, rfl, hfile _ _ hQ⟩
  | none =>
    obtain ⟨⟨r, c1, g1⟩, hb, hQ1⟩ := Generator.BuildNoLookup_total E Sub hstruct Q gen
      method.Source method.Target hgen
      { Namer := Namer.New
        MappingBaseID := (E.types method.Target).T
        Mapping := method.Mapping
        IgnoredFields := method.IgnoredFields }
      (VariableID (Code.id "source")) g hQ
    simp only [hb]
    cases r with
    | error e => exact ⟨_, rfl, hQ1⟩
    | ok p => exact ⟨_, rfl, hfile _ _ hQ1⟩

/-- The branches of `Build` that do not extract a Method return, given that the
extracting branch does. -/
theorem Generator.Build_total_rank (E : Env) (names : List String)
    (Sub : TypeRef → TypeRef → TypeRef → TypeRef → Prop) (rank : TypeRef → TypeRef → Nat)
    (rmax : Nat)
    (hstruct : ∀ R ∈ E.BuildSteps, R.Structural Sub)
    (hwf : ∀ s t s1 t1, extracts E.types s t = false → Sub s t s1 t1 → rank s1 t1 < rank s t)
    (m : Nat)
    (hext : ∀ fuel L g c i s t, fuelBound rmax m 0 ≤ fuel + 1 → L.length ≤ m →
      g.Covers names L → g.lookup.get (signatureOf E.types s t) = none →
      extracts E.types s t = true →
      ∃ out, Generator.Build E (fuel + 1) c i s t g = some out ∧ g.Extends out.2.2) :
    ∀ r fuel, fuelBound rmax m r ≤ fuel → ∀ (L : List Signature) (g : Generator)
      (c : MethodContext) (i : JenID) (s t : TypeRef),
      L.length ≤ m → g.Covers names L → rank s t ≤ r →
      ∃ out, Generator.Build E fuel c i s t g = some out ∧ g.Extends out.2.2 := by
  intro r
  induction r with
  | zero =>
    intro fuel hfuel L g c i s t hL hcov hr
    obtain ⟨f, rfl⟩ : ∃ f, fuel = f + 1 := ⟨fuel - 1, by unfold fuelBound at hfuel; omega⟩
    cases hget : g.lookup.get (signatureOf E.types s t) with
    | some method =>
      exact ⟨_, Generator.Build_hit E f c i s t g method hget, Generator.Extends.refl g⟩
    | none =>
      cases hex : extracts E.types s t with
      | true => exact hext f L g c i s t hfuel hL hcov hget hex
      | false =>
        rw [Generator.Build_inline E f c i s t g hget hex]
        refine Generator.BuildNoLookup_total E Sub hstruct (fun g1 => g.Extends g1)
          (Generator.asGen E f) s t ?_ c i g (Generator.Extends.refl g)
        intro s1 t1 hsub
        have := hwf s t s1 t1 hex hsub
        omega
  | succ r ih =>
    intro fuel hfuel L g c i s t hL hcov hr
    obtain ⟨f, rfl⟩ : ∃ f, fuel = f + 1 := ⟨fuel - 1, by unfold fuelBound at hfuel; omega⟩
    have hf : fuelBound rmax m r ≤ f := by unfold fuelBound at hfuel ⊢; omega
    cases hget : g.lookup.get (signatureOf E.types s t) with
    | some method =>
      exact ⟨_, Generator.Build_hit E f c i s t g method hget, Generator.Extends.refl g⟩
    | none =>
      cases hex : extracts E.types s t with
      | true =>
        exact hext f L g c i s t (by unfold fuelBound at hfuel ⊢; omega) hL hcov hget hex
      | false =>
        rw [Generator.Build_inline E f c i s t g hget hex]
        refine Generator.BuildNoLookup_total E Sub hstruct (fun g1 => g.Extends g1)
          (Generator.asGen E f) s t ?_ c i g (Generator.Extends.refl g)
        intro s1 t1 hsub c1 i1 _ g1 hg1
        have hlt := hwf s t s1 t1 hex hsub
        obtain ⟨out, hout, hext1⟩ := ih f hf L g1 c1 i1 s1 t1 hL (hcov.mono hg1) (by omega)
        exact ⟨out, hout, hg1.trans hext1⟩

/-- With enough call depth `Build` returns, and the registry only grows. -/
theorem Generator.Build_total_aux (E : Env) (names : List String)
    (Sub : TypeRef → TypeRef → TypeRef → TypeRef → Prop) (rank : TypeRef → TypeRef → Nat)
    (rmax : Nat)
    (hnames : ∀ r, (E.types r).T ∈ names)
    (hrank : ∀ s t, rank s t ≤ rmax)
    (hstruct : ∀ R ∈ E.BuildSteps, R.Structural Sub)
    (hwf : ∀ s t s1 t1, extracts E.types s t = false → Sub s t s1 t1 → rank s1 t1 < rank s t) :
    ∀ m r fuel, fuelBound rmax m r ≤ fuel → ∀ (L : List Signature) (g : Generator)
      (c : MethodContext) (i : JenID) (s t : TypeRef),
      L.length ≤ m → g.Covers names L → rank s t ≤ r →
      ∃ out, Generator.Build E fuel c i s t g = some out ∧ g.Extends out.2.2 := by
  intro m
  induction m with
  | zero =>
    refine Generator.Build_total_rank E names Sub rank rmax hstruct hwf 0 ?_
    intro fuel L g c i s t _ hL hcov hget _
    have hmem := hcov _ (hnames s) _ (hnames t) hget
    have : L = [] := List.length_eq_zero.mp (Nat.le_zero.mp hL)
    rw [this] at hmem
    cases hmem
  | succ m ih =>
    refine Generator.Build_total_rank E names Sub rank rmax hstruct hwf (m + 1) ?_
    intro fuel L g c i s t hfuel hL hcov hget hex
    have hf : fuelBound rmax m rmax ≤ fuel := by
      unfold fuelBound at hfuel ⊢
      have : (m + 1) * (rmax + 2) = m * (rmax + 2) + (rmax + 2) := by ring
      omega
    have hmem : signatureOf E.types s t ∈ L := hcov _ (hnames s) _ (hnames t) hget
    have hL1 : (L.erase (signatureOf E.types s t)).length ≤ m := by
      rw [List.length_erase_of_mem hmem]
      omega
    have hcov0 := Generator.reserve_covers E names L s t g hcov
    have hext0 := Generator.reserve_extends E s t g
    have hgen : ∀ s1 t1, Sub (Generator.reserve E s t g).1.Source
        (Generator.reserve E s t g).1.Target s1 t1 → ∀ c i (w : ErrorWrapper) g1,
        (Generator.reserve E s t g).2.Extends g1 →
        ∃ out, Generator.asGen E fuel c i s1 t1 w g1 = some out
          ∧ (Generator.reserve E s t g).2.Extends out.2.2 := by
      intro s1 t1 _ c1 i1 _ g1 hg1
      obtain ⟨out, hout, hext1⟩ := ih rmax fuel hf _ g1 c1 i1 s1 t1 hL1 (hcov0.mono hg1)
        (hrank s1 t1)
      exact ⟨out, hout, hg1.trans hext1⟩
    obtain ⟨⟨e, g1⟩, ha, hg1⟩ := Generator.addMethod_total E Sub hstruct
      (fun g1 => (Generator.reserve E s t g).2.Extends g1)
      (fun g2 f h => h.trans (Generator.Extends.file g2 f))
      (Generator.asGen E fuel) (Generator.reserve E s t g).1 hgen
      (Generator.reserve E s t g).2 (Generator.Extends.refl _)
    rw [Generator.Build_extract E fuel c i s t g hget hex, ha]
    cases e with
    | some err => exact ⟨_, rfl, hext0.trans hg1⟩
    | none =>
      obtain ⟨out, hout, hext1⟩ := ih rmax fuel hf _ g1 c i s t hL1 (hcov0.mono hg1) (hrank s t)
      exact ⟨out, hout, (hext0.trans hg1).trans hext1⟩

theorem allSignatures_length (names : List String) :
    (allSignatures names).length = names.length * names.length := by
  unfold allSignatures
  generalize names = l at *
  suffices h : ∀ (l1 l2 : List String),
      (l1.flatMap (fun a => l2.map (fun b => (⟨a, b⟩ : Signature)))).length
        = l1.length * l2.length from h l l
  intro l1 l2
  induction l1 with
  | nil => simp
  | cons a rest ih =>
    simp only [List.flatMap_cons, List.length_append, List.length_map, ih, List.length_cons]
    ring

theorem allSignatures_covers (names : List String) (g : Generator) :
    g.Covers names (allSignatures names) := by
  intro a ha b hb _
  simp only [allSignatures, List.mem_flatMap, List.mem_map]
  exact ⟨a, ha, b, hb, rfl⟩

theorem Generator.Build_total (E : Env) (names : List String)
    (Sub : TypeRef → TypeRef → TypeRef → TypeRef → Prop) (rank : TypeRef → TypeRef → Nat)
    (rmax : Nat)
    (hnames : ∀ r, (E.types r).T ∈ names)
    (hrank : ∀ s t, rank s t ≤ rmax)
    (hstruct : ∀ R ∈ E.BuildSteps, R.Structural Sub)
    (hwf : ∀ s t s1 t1, extracts E.types s t = false → Sub s t s1 t1 → rank s1 t1 < rank s t)
    (fuel : Nat) (hfuel : fuelBound rmax (names.length * names.length) rmax ≤ fuel)
    (c : MethodContext) (i : JenID) (s t : TypeRef) (g : Generator) :
    ∃ out, Generator.Build E fuel c i s t g = some out ∧ g.Extends out.2.2 :=
  Generator.Build_total_aux E names Sub rank rmax hnames hrank hstruct hwf
    (names.length * names.length) rmax fuel hfuel (allSignatures names) g c i s t
    (le_of_eq (allSignatures_length names)) (allSignatures_covers names g) (hrank s t)

theorem List.builder_structural (ty : TypeRef → XType) :
    (List.builder ty).Structural (listSub ty) := by
  intro Q gen s t hmatch hgen c i g hQ
  change ∃ out, List.Build ty gen c i s t g = some out ∧ Q out.2.2
  obtain ⟨⟨r, c3, g1⟩, hr, hQ1⟩ := hgen (ty s).ListInner (ty t).ListInner ⟨hmatch, rfl, rfl⟩
    (List.elemCtx ty c t) (List.indexedSource ty c i t)
    (Wrap "error setting index %d" [Code.id (List.index ty c t)]) g hQ
  have hr1 : List.elemBuild ty gen c i s t g = some (r, c3, g1) := hr
  cases r with
  | error e => exact ⟨_, List.Build_of_error ty gen c i s t g e c3 g1 hr1, hQ1⟩
  | ok p => exact ⟨_, List.Build_of_ok ty gen c i s t g p.1 p.2 c3 g1 hr1, hQ1⟩

theorem exampleBasic_structural (ty : TypeRef → XType)
    (Sub : TypeRef → TypeRef → TypeRef → TypeRef → Prop) : (exampleBasic ty).Structural Sub := by
  intro Q gen s t _ _ c i g hQ
  exact ⟨_, rfl, hQ⟩

theorem exampleTypes_names (r : TypeRef) : (exampleTypes r).T ∈ exampleNames := by
  by_cases h : 10 < r
  · rw [exampleTypes_default r h]
    decide
  · have h1 : r ≤ 10 := Nat.le_of_not_lt h
    interval_cases r <;> decide

theorem exampleRank_le (s t : TypeRef) : exampleRank s t ≤ 2 := by
  unfold exampleRank
  split <;> omega

theorem exampleEnv_structural :
    ∀ R ∈ exampleEnv.BuildSteps, R.Structural (listSub exampleTypes) := by
  intro R hR
  simp only [exampleEnv, List.mem_cons, List.mem_singleton, List.not_mem_nil, or_false] at hR
  rcases hR with h | h
  · subst h; exact exampleBasic_structural _ _
  · subst h; exact List.builder_structural _

theorem exampleRank_decreases (s t s1 t1 : TypeRef)
    (hex : extracts exampleTypes s t = false) (hsub : listSub exampleTypes s t s1 t1) :
    exampleRank s1 t1 < exampleRank s t := by
  obtain ⟨hm, rfl, rfl⟩ := hsub
  by_cases h : 10 < s
  · rw [List.Matches, exampleTypes_default s h] at hm
    simp [basicType] at hm
  · have h1 : s ≤ 10 := Nat.le_of_not_lt h
    interval_cases s <;>
      first
      | (simp [List.Matches, exampleTypes, basicType] at hm; done)
      | (simp [extracts, exampleTypes, namedSliceType] at hex; done)
      | simp [exampleRank, exampleTypes, sliceType]

/-- C6: on a finite type graph (finitely many identity strings `names`) in which
the rules descend to component pairs (`Sub`) and every chain of component pairs
that passes through no named, non-basic type is finite (a rank bounded by `rmax`
drops along it), cycles through named types being allowed, `Generator.Build` and
`Generator.addMethod` return for every input and every generator once the call
depth reaches `fuelBound`; and as soon as the Method of a named pair is stored,
which happens before its body is built, `Build` on the same pair is a cache hit
that returns the call of that Method and leaves the generator as it is. -/
theorem Generator_Build_terminates (E : Env) (names : List String)
    (Sub : TypeRef → TypeRef → TypeRef → TypeRef → Prop) (rank : TypeRef → TypeRef → Nat)
    (rmax : Nat)
    (hnames : ∀ r, (E.types r).T ∈ names)
    (hrank : ∀ s t, rank s t ≤ rmax)
    (hstruct : ∀ R ∈ E.BuildSteps, R.Structural Sub)
    (hwf : ∀ s t s1 t1, extracts E.types s t = false → Sub s t s1 t1 → rank s1 t1 < rank s t)
    (fuel : Nat) (hfuel : fuelBound rmax (names.length * names.length) rmax ≤ fuel) :
    (∀ (c : MethodContext) (i : JenID) (s t : TypeRef) (g : Generator),
        ∃ out, Generator.Build E fuel c i s t g = some out)
    ∧ (∀ (method : Method) (g : Generator),
        ∃ out, Generator.addMethod E (Generator.asGen E fuel) method g = some out)
    ∧ (∀ (c : MethodContext) (i : JenID) (s t : TypeRef) (g : Generator),
        Generator.Build E fuel c i s t (Generator.reserve E s t g).2
          = some (.ok ([], OtherID (Code.call
              (Code.dot (Code.id "c") (Generator.reserve E s t g).1.Name) [i.Code])),
            c, (Generator.reserve E s t g).2)) := by
  have htotal : ∀ (c : MethodContext) (i : JenID) (s t : TypeRef) (g : Generator),
      ∃ out, Generator.Build E fuel c i s t g = some out ∧ g.Extends out.2.2 :=
    Generator.Build_total E names Sub rank rmax hnames hrank hstruct hwf fuel hfuel
  refine ⟨?_, ?_, ?_⟩
  · intro c i s t g
    obtain ⟨out, hout, -⟩ := htotal c i s t g
    exact ⟨out, hout⟩
  · intro method g
    obtain ⟨out, hout, -⟩ := Generator.addMethod_total E Sub hstruct (fun _ => True)
      (fun _ _ _ => trivial) (Generator.asGen E fuel) method
      (fun s1 t1 _ c i _ g1 _ => by
        obtain ⟨out, hout, -⟩ := htotal c i s1 t1 g1
        exact ⟨out, hout, trivial⟩)
      g trivial
    exact ⟨out, hout⟩
  · intro c i s t g
    obtain ⟨f, rfl⟩ : ∃ f, fuel = f + 1 := ⟨fuel - 1, by unfold fuelBound at hfuel; omega⟩
    have hstored : (Generator.reserve E s t g).2.lookup.get (signatureOf E.types s t)
        = some (Generator.reserve E s t g).1 := by
      simp only [Generator.reserve]
      exact Lookup.get_set_self _ _ _
    exact Generator.Build_hit E f c i s t _ _ hstored

/-- C6, at the example types, which hold the self-referential `type Node []Node`
and the mutually recursive `type A []B`, `type B []A`: with call depth 487 the
conversions `Node` to `TargetNode` and `A` to `B` return, and so does `addMethod`
for a Method converting `Node` to `TargetNode`. -/
theorem Generator_Build_terminates_witness :
    (∃ out, Generator.Build exampleEnv 487 exampleCtx (VariableID (Code.id "source")) 7 8
        exampleGenerator = some out)
    ∧ (∃ out, Generator.Build exampleEnv 487 exampleCtx (VariableID (Code.id "source")) 5 6
        exampleGenerator = some out)
    ∧ (∃ out, Generator.addMethod exampleEnv (Generator.asGen exampleEnv 487)
        ⟨"Convert", "Convert", 7, 8, [], [], none⟩ exampleGenerator = some out) :=
  have h := Generator_Build_terminates exampleEnv exampleNames (listSub exampleTypes)
    exampleRank 2 exampleTypes_names exampleRank_le exampleEnv_structural
    exampleRank_decreases 487 (by decide)
  ⟨h.1 _ _ 7 8 _, h.1 _ _ 5 6 _, h.2.1 _ _⟩

/-! ## Mutually recursive types -/

/-- Building the body of a Method without delegate through the list rule: when the
element build succeeds, a declaration is appended to the file and nothing else of
the element build's generator changes. -/
theorem Generator.addMethod_list (E : Env) (gen : GenBuild) (method : Method)
    (g g1 : Generator) (hd : method.Delegate = none)
    (hfm : firstMatch E.BuildSteps method.Source method.Target = some (List.builder E.types))
    (helem : ∀ c i w, ∃ r c3,
      gen c i (E.types method.Source).ListInner (E.types method.Target).ListInner w g
        = some (.ok r, c3, g1)) :
    ∃ decl, Generator.addMethod E gen method g
      = some (none, { g1 with file := g1.file ++ [decl] }) := by
  obtain ⟨r, c3, hr⟩ := helem (List.elemCtx E.types (bodyCtx E method) method.Target)
    (List.indexedSource E.types (bodyCtx E method) (VariableID (Code.id "source")) method.Target)
    (Wrap "error setting index %d"
      [Code.id (List.index E.types (bodyCtx E method) method.Target)])
  have hr1 : List.elemBuild E.types gen (bodyCtx E method) (VariableID (Code.id "source"))
      method.Source method.Target g = some (.ok (r.1, r.2), c3, g1) := hr
  have hb : Generator.BuildNoLookup E gen (bodyCtx E method) (VariableID (Code.id "source"))
      method.Source method.Target g
      = List.Build E.types gen (bodyCtx E method) (VariableID (Code.id "source"))
          method.Source method.Target g := by
    simp only [Generator.BuildNoLookup, hfm]
    rfl
  rw [Generator.addMethod_no_delegate E gen method g hd, hb,
    List.Build_of_ok _ _ _ _ _ _ _ _ _ _ _ hr1]
  exact ⟨_, rfl⟩

/-- C10: for two distinct named non-basic types A and B with A's element type B
and B's element type A, both converted by the list rule, starting from an empty
registry: registering the requested conversion A→B succeeds, `createMethods`
succeeds, and the registry then holds exactly two Methods, the requested one under
the key (A, B) and a second one, from B to A, under the key (B, A). -/
theorem createMethods_mutual_types (E : Env) (A B : TypeRef) (g : Generator)
    (sources : Package) (method : Func) (methodComments : CommentsMethod) (fuel : Nat)
    (hempty : g.lookup = [])
    (hA : (E.types A).Named = true ∧ (E.types A).Basic = false ∧ (E.types A).ListInner = B)
    (hB : (E.types B).Named = true ∧ (E.types B).Basic = false ∧ (E.types B).ListInner = A)
    (hdist : (E.types A).T ≠ (E.types B).T)
    (hAB : firstMatch E.BuildSteps A B = some (List.builder E.types))
    (hBA : firstMatch E.BuildSteps B A = some (List.builder E.types))
    (hsig : method.Typ = FuncType.signature [A] [B])
    (hdel : methodComments.Delegate = "") :
    ∃ (g1 g2 : Generator) (m1 m2 : Method),
      Generator.registerMethod E sources method methodComments g = (none, g1)
      ∧ Generator.createMethods E (fuel + 2) g1 = some (none, g2)
      ∧ g2.lookup = [({ Source := (E.types A).T, Target := (E.types B).T }, m1),
                     ({ Source := (E.types B).T, Target := (E.types A).T }, m2)]
      ∧ m1.Name = method.Name ∧ m1.Source = A ∧ m1.Target = B
      ∧ m2.Source = B ∧ m2.Target = A := by
  obtain ⟨-, -, hAin⟩ := hA
  obtain ⟨hBn, hBb, hBin⟩ := hB
  have hne : signatureOf E.types A B ≠ signatureOf E.types B A := by
    intro h
    simp only [signatureOf, Signature.mk.injEq] at h
    exact hdist h.1
  -- the requested Method and the generator after registration
  let m1 : Method :=
    { ID := method.FullName, Name := method.Name, Source := A, Target := B
      Mapping := methodComments.NameMapping, IgnoredFields := methodComments.IgnoredFields
      Delegate := none }
  let g1 : Generator :=
    { g with lookup := [(signatureOf E.types A B, m1)], namer := (g.namer.Register m1.Name).2 }
  have hreg : Generator.registerMethod E sources method methodComments g = (none, g1) := by
    simp only [Generator.registerMethod, hsig, hdel, hempty]
    rfl
  -- the Method created for (B, A) while the body of the first one is built
  have hmissBA : g1.lookup.get (signatureOf E.types B A) = none := by
    simp [g1, Lookup.get, hne]
  have hexBA : extracts E.types B A = true := by simp [extracts, hBn, hBb]
  let m2 : Method := (Generator.reserve E B A g1).1
  let gR : Generator := (Generator.reserve E B A g1).2
  have hlookR : gR.lookup = [(signatureOf E.types A B, m1), (signatureOf E.types B A, m2)] := by
    simp [gR, m2, g1, Generator.reserve, Lookup.set, hne]
  have hgetAB : gR.lookup.get (signatureOf E.types A B) = some m1 := by
    rw [hlookR]; simp [Lookup.get]
  have hgetBA : gR.lookup.get (signatureOf E.types B A) = some m2 := by
    rw [hlookR]; simp [Lookup.get, hne]
  -- the body of the second Method: its elements are converted by a call of the first
  obtain ⟨decl2, hadd2⟩ := Generator.addMethod_list E (Generator.asGen E (fuel + 1)) m2 gR gR rfl
    (by simpa [m2, Generator.reserve] using hBA)
    (by
      intro c i w
      refine ⟨([], methodCall m1.Name i), c, ?_⟩
      show Generator.Build E (fuel + 1) c i (E.types B).ListInner (E.types A).ListInner gR = _
      rw [hBin, hAin]
      exact Generator.Build_hit E fuel c i A B gR m1 hgetAB)
  -- the element build of the first Method extracts the second Method and calls it
  have hbuildBA : ∀ c i, Generator.Build E (fuel + 2) c i B A g1
      = some (.ok ([], methodCall m2.Name i), c, { gR with file := gR.file ++ [decl2] }) := by
    intro c i
    rw [Generator.Build_extract E (fuel + 1) c i B A g1 hmissBA hexBA]
    simp only [m2, gR] at hadd2
    simp only [hadd2]
    exact Generator.Build_hit E fuel c i B A _ m2 hgetBA
  obtain ⟨decl1, hadd1⟩ := Generator.addMethod_list E (Generator.asGen E (fuel + 2)) m1 g1
    { gR with file := gR.file ++ [decl2] } rfl hAB
    (by
      intro c i w
      refine ⟨([], methodCall m2.Name i), c, ?_⟩
      show Generator.Build E (fuel + 2) c i (E.types A).ListInner (E.types B).ListInner g1 = _
      rw [hAin, hBin]
      exact hbuildBA c i)
  refine ⟨g1, { gR with file := gR.file ++ [decl2] ++ [decl1] }, m1, m2, hreg, ?_, hlookR,
    rfl, rfl, rfl, rfl, rfl⟩
  have hsorted : sortByName (g1.lookup.map Prod.snd) = [m1] := rfl
  simp only [Generator.createMethods, hsorted, Generator.createLoop, hadd1]

/-- C10, at the example types `type A []B` and `type B []A` with the requested
conversion `Convert(A) B`: registration and `createMethods` succeed and the
registry holds the two Methods keyed (A, B) and (B, A). -/
theorem createMethods_mutual_types_witness :
    ∃ (g1 g2 : Generator) (m1 m2 : Method),
      Generator.registerMethod exampleEnv (fun _ => none)
          ⟨"p", "Convert", "(p.Converter).Convert", FuncType.signature [5] [6]⟩ ⟨[], [], ""⟩
          exampleGenerator = (none, g1)
      ∧ Generator.createMethods exampleEnv 2 g1 = some (none, g2)
      ∧ g2.lookup = [(⟨"p.A", "p.B"⟩, m1), (⟨"p.B", "p.A"⟩, m2)]
      ∧ g2.lookup.length = 2 := by
  obtain ⟨g1, g2, m1, m2, h1, h2, h3, -⟩ :=
    createMethods_mutual_types exampleEnv 5 6 exampleGenerator (fun _ => none)
      ⟨"p", "Convert", "(p.Converter).Convert", FuncType.signature [5] [6]⟩ ⟨[], [], ""⟩ 0
      rfl ⟨rfl, rfl, rfl⟩ ⟨rfl, rfl, rfl⟩ (by decide) rfl rfl rfl rfl
  exact ⟨g1, g2, m1, m2, h1, h2, h3, by rw [h3]; rfl⟩


/-! ## Registration -/

theorem Lookup.set_set (l : Lookup) (k : Signature) (m1 m2 : Method) :
    (l.set k m1).set k m2 = l.set k m2 := by
  induction l with
  | nil => simp [Lookup.set]
  | cons p rest ih =>
    obtain ⟨k1, v1⟩ := p
    by_cases h : k1 = k
    · simp [Lookup.set, h]
    · simp [Lookup.set, h, ih]

theorem Lookup.keys_set (l : Lookup) (k : Signature) (m : Method) :
    (l.set k m).map Prod.fst
      = if k ∈ l.map Prod.fst then l.map Prod.fst else l.map Prod.fst ++ [k] := by
  induction l with
  | nil => simp [Lookup.set]
  | cons p rest ih =>
    obtain ⟨k1, v1⟩ := p
    by_cases h : k1 = k
    · subst h
      simp [Lookup.set]
    · have h1 : ¬ k = k1 := fun e => h e.symm
      simp only [Lookup.set, h, if_false, List.map_cons, ih, List.mem_cons, h1, false_or]
      split <;> simp

theorem Lookup.get_eq_none_iff (l : Lookup) (k : Signature) :
    l.get k = none ↔ k ∉ l.map Prod.fst := by
  induction l with
  | nil => simp [Lookup.get]
  | cons p rest ih =>
    obtain ⟨k1, v1⟩ := p
    by_cases h : k1 = k
    · subst h
      simp [Lookup.get]
    · have h1 : ¬ k = k1 := fun e => h e.symm
      simp [Lookup.get, h, h1, ih]

theorem Lookup.set_of_get_none (l : Lookup) (k : Signature) (m : Method)
    (h : l.get k = none) : l.set k m = l ++ [(k, m)] := by
  induction l with
  | nil => simp [Lookup.set]
  | cons p rest ih =>
    obtain ⟨k1, v1⟩ := p
    by_cases h1 : k1 = k
    · subst h1
      simp [Lookup.get] at h
    · simp only [Lookup.get, h1, if_false] at h
      simp [Lookup.set, h1, ih h]

theorem Lookup.nodup_set (l : Lookup) (k : Signature) (m : Method)
    (h : (l.map Prod.fst).Nodup) : ((l.set k m).map Prod.fst).Nodup := by
  rw [Lookup.keys_set]
  split
  · exact h
  · rename_i hk
    exact List.Nodup.append h (List.nodup_singleton k) (by simpa using hk)

/-- What a successful `registerMethod` does: the declaration is a signature with
one parameter and one result, and the Method is stored under their Signature. -/
theorem Generator.registerMethod_ok (E : Env) (sources : Package) (method : Func)
    (methodComments : CommentsMethod) (g g1 : Generator)
    (h : Generator.registerMethod E sources method methodComments g = (none, g1)) :
    ∃ (source target : TypeRef) (delegate : Option Func),
      method.Typ = FuncType.signature [source] [target]
      ∧ (methodComments.Delegate = "" ∧ delegate = none
          ∨ methodComments.Delegate ≠ "" ∧ ∃ f, delegate = some f
              ∧ sources methodComments.Delegate = some (Object.func f))
      ∧ g1 = { g with
          lookup := g.lookup.set (signatureOf E.types source target)
            { ID := method.FullName, Name := method.Name, Source := source, Target := target
              Mapping := methodComments.NameMapping
              IgnoredFields := methodComments.IgnoredFields, Delegate := delegate }
          namer := (g.namer.Register method.Name).2 } := by
  unfold Generator.registerMethod at h
  cases hT : method.Typ with
  | other s => simp [hT] at h
  | signature params result =>
    simp only [hT] at h
    match params, result, hT, h with
    | [], _, _, h => simp at h
    | _ :: _ :: _, _, _, h => simp at h
    | [source], [], _, h => simp at h
    | [source], _ :: _ :: _, _, h => simp at h
    | [source], [target], hT, h =>
      refine ⟨source, target, ?_⟩
      by_cases hd : methodComments.Delegate = ""
      · simp only [hd, ne_eq, not_true_eq_false, if_false, Prod.mk.injEq, true_and] at h
        exact ⟨none, rfl, Or.inl ⟨hd, rfl⟩, h.symm⟩
      · simp only [ne_eq, hd, not_false_eq_true, if_true] at h
        cases hs : sources methodComments.Delegate with
        | none => simp [hs] at h
        | some o =>
          cases o with
          | other => simp [hs] at h
          | func f =>
            simp only [hs, Prod.mk.injEq, true_and] at h
            exact ⟨some f, rfl, Or.inr ⟨hd, f, rfl, rfl⟩, h.symm⟩



/-- When `registerMethod` returns an error it hands back the generator unchanged,
and it returns an error exactly in the four cases. -/
theorem Generator.registerMethod_error (E : Env) (sources : Package) (method : Func)
    (methodComments : CommentsMethod) (g : Generator) :
    ((Generator.registerMethod E sources method methodComments g).1.isSome = true
      ↔ (∃ s, method.Typ = FuncType.other s)
        ∨ (∃ p r, method.Typ = FuncType.signature p r ∧ p.length ≠ 1)
        ∨ (∃ p r, method.Typ = FuncType.signature p r ∧ r.length ≠ 1)
        ∨ (methodComments.Delegate ≠ ""
            ∧ ∀ f, sources methodComments.Delegate ≠ some (Object.func f)))
    ∧ ((Generator.registerMethod E sources method methodComments g).1.isSome = true →
        (Generator.registerMethod E sources method methodComments g).2 = g) := by
  unfold Generator.registerMethod
  cases hT : method.Typ with
  | other s => simp
  | signature params result =>
    match params, result, hT with
    | [], _, _ => simp
    | _ :: _ :: _, _, _ => simp
    | [source], [], _ => simpa using Or.inl ⟨[source], [], ⟨rfl, rfl⟩, by simp⟩
    | [source], a :: b :: rest, _ =>
      simpa using Or.inl ⟨[source], a :: b :: rest, ⟨rfl, rfl⟩, by simp⟩
    | [source], [target], hT =>
      by_cases hd : methodComments.Delegate = ""
      · simp [hd]
      · cases hs : sources methodComments.Delegate with
        | none => simp [hd, hs]
        | some o =>
          cases o with
          | other => simp [hd, hs]
          | func f => simp [hd, hs]



/-- C14: after two successful `registerMethod` calls whose source types have the
same identity string and whose target types have the same identity string, the
registry holds exactly one entry for that Signature and it is the Method of the
later call; the registry is the one that the later call alone would have left, so
nothing of the earlier Method remains, and every entry under another Signature is
as before the two calls. -/
theorem registerMethod_overwrites (E : Env) (g g1 g2 : Generator)
    (sources1 sources2 : Package) (method1 method2 : Func)
    (comments1 comments2 : CommentsMethod) (s1 t1 s2 t2 : TypeRef)
    (hkeys : (g.lookup.map Prod.fst).Nodup)
    (h1 : Generator.registerMethod E sources1 method1 comments1 g = (none, g1))
    (h2 : Generator.registerMethod E sources2 method2 comments2 g1 = (none, g2))
    (hsig1 : method1.Typ = FuncType.signature [s1] [t1])
    (hsig2 : method2.Typ = FuncType.signature [s2] [t2])
    (hs : (E.types s1).T = (E.types s2).T) (ht : (E.types t1).T = (E.types t2).T) :
    ∃ m2 : Method,
      g2.lookup.get { Source := (E.types s2).T, Target := (E.types t2).T } = some m2
      ∧ m2.ID = method2.FullName ∧ m2.Name = method2.Name
      ∧ m2.Source = s2 ∧ m2.Target = t2
      ∧ m2.Mapping = comments2.NameMapping ∧ m2.IgnoredFields = comments2.IgnoredFields
      ∧ (g2.lookup.map Prod.fst).count { Source := (E.types s2).T, Target := (E.types t2).T } = 1
      ∧ g2.lookup = g.lookup.set { Source := (E.types s2).T, Target := (E.types t2).T } m2
      ∧ ∀ k, k ≠ { Source := (E.types s2).T, Target := (E.types t2).T } →
          g2.lookup.get k = g.lookup.get k := by
  obtain ⟨a1, b1, d1, hT1, -, hg1⟩ := Generator.registerMethod_ok E sources1 method1 comments1 g g1 h1
  obtain ⟨a2, b2, d2, hT2, -, hg2⟩ := Generator.registerMethod_ok E sources2 method2 comments2 g1 g2 h2
  rw [hsig1] at hT1
  rw [hsig2] at hT2
  simp only [FuncType.signature.injEq, List.cons.injEq, and_true] at hT1 hT2
  obtain ⟨rfl, rfl⟩ := hT1
  obtain ⟨rfl, rfl⟩ := hT2
  have hk : signatureOf E.types s1 t1 = signatureOf E.types s2 t2 := by
    simp [signatureOf, hs, ht]
  have hlook : g2.lookup = g.lookup.set (signatureOf E.types s2 t2)
      { ID := method2.FullName, Name := method2.Name, Source := s2, Target := t2
        Mapping := comments2.NameMapping, IgnoredFields := comments2.IgnoredFields
        Delegate := d2 } := by
    rw [hg2, hg1]
    simp only [hk]
    exact Lookup.set_set _ _ _ _
  refine ⟨_, ?_, rfl, rfl, rfl, rfl, rfl, rfl, ?_, hlook, ?_⟩
  · rw [hlook]
    exact Lookup.get_set_self _ _ _
  · rw [hlook]
    refine List.count_eq_one_of_mem (Lookup.nodup_set _ _ _ hkeys) ?_
    have := Lookup.get_set_self g.lookup (signatureOf E.types s2 t2)
      { ID := method2.FullName, Name := method2.Name, Source := s2, Target := t2
        Mapping := comments2.NameMapping, IgnoredFields := comments2.IgnoredFields
        Delegate := d2 }
    by_contra hmem
    have hnone := (Lookup.get_eq_none_iff _ (signatureOf E.types s2 t2)).mpr hmem
    rw [hnone] at this
    cases this
  · intro k hk1
    rw [hlook]
    exact Lookup.get_set_ne _ _ _ _ hk1

/-- C14, at two declarations `First(A) B` and `Second(A) B` registered one after
the other from an empty registry: the registry holds the single Method `Second`. -/
theorem registerMethod_overwrites_witness :
    ∃ (g1 g2 : Generator) (m2 : Method),
      Generator.registerMethod exampleEnv (fun _ => none)
          ⟨"p", "First", "(p.Converter).First", FuncType.signature [5] [6]⟩ ⟨[], [], ""⟩
          exampleGenerator = (none, g1)
      ∧ Generator.registerMethod exampleEnv (fun _ => none)
          ⟨"p", "Second", "(p.Converter).Second", FuncType.signature [5] [6]⟩ ⟨[], [], ""⟩
          g1 = (none, g2)
      ∧ g2.lookup.get ⟨"p.A", "p.B"⟩ = some m2 ∧ m2.Name = "Second"
      ∧ (g2.lookup.map Prod.fst).count ⟨"p.A", "p.B"⟩ = 1 := by
  obtain ⟨m2, hget, -, hname, -, -, -, -, hcount, -, -⟩ :=
    registerMethod_overwrites exampleEnv exampleGenerator _ _ (fun _ => none) (fun _ => none)
      ⟨"p", "First", "(p.Converter).First", FuncType.signature [5] [6]⟩
      ⟨"p", "Second", "(p.Converter).Second", FuncType.signature [5] [6]⟩
      ⟨[], [], ""⟩ ⟨[], [], ""⟩ 5 6 5 6 (by decide) rfl rfl rfl rfl rfl rfl
  exact ⟨_, _, m2, rfl, rfl, hget, hname, hcount⟩

/-- C15 fails as stated: with `type A []B` and `type B []A` the Signature of (A, B)
differs from the Signature of (B, A), and a registry that holds a Method for A→B
has no entry for B→A. -/
theorem signature_unordered_counterexample :
    signatureOf exampleTypes 5 6 ≠ signatureOf exampleTypes 6 5
    ∧ (Lookup.set [] (signatureOf exampleTypes 5 6)
        ⟨"Convert", "Convert", 5, 6, [], [], none⟩).get (signatureOf exampleTypes 6 5) = none := by
  constructor
  · decide
  · decide

/-- C15, amended: the registry key is the ordered pair of the two identity
strings.  The Signature of (A, B) equals the Signature of (B, A) exactly when A and
B have the same identity string; a Method stored for A→B is found by the lookup
for A→B, and when the identity strings differ the lookup for B→A does not see it
(it finds what was stored for B→A before, if anything). -/
theorem signature_ordered (ty : TypeRef → XType) (A B : TypeRef) (l : Lookup) (m : Method) :
    (signatureOf ty A B = signatureOf ty B A ↔ (ty A).T = (ty B).T)
    ∧ signatureOf ty A B = { Source := (ty A).T, Target := (ty B).T }
    ∧ (l.set (signatureOf ty A B) m).get (signatureOf ty A B) = some m
    ∧ ((ty A).T ≠ (ty B).T →
        (l.set (signatureOf ty A B) m).get (signatureOf ty B A) = l.get (signatureOf ty B A)) := by
  have hiff : signatureOf ty A B = signatureOf ty B A ↔ (ty A).T = (ty B).T := by
    simp only [signatureOf, Signature.mk.injEq]
    constructor
    · exact fun h => h.1
    · exact fun h => ⟨h, h.symm⟩
  refine ⟨hiff, rfl, Lookup.get_set_self _ _ _, ?_⟩
  intro hne
  refine Lookup.get_set_ne _ _ _ _ ?_
  intro h
  exact hne (hiff.mp h.symm)

/-- C15 amended, at `type A []B` and `type B []A`: the identity strings differ and
the lookup for B→A in a registry holding only A→B finds nothing. -/
theorem signature_ordered_witness :
    (Lookup.set [] (signatureOf exampleTypes 5 6)
      ⟨"Convert", "Convert", 5, 6, [], [], none⟩).get (signatureOf exampleTypes 6 5) = none :=
  (signature_ordered exampleTypes 5 6 [] ⟨"Convert", "Convert", 5, 6, [], [], none⟩).2.2.2
    (by decide)

/-- C16: for a Method that carries a delegate, `addMethod` appends to the output
file one declaration named `Method.Name` with receiver `c *<generator name>`, the
parameter `source` of the source type and one result of the target type, whose body
is the single statement `return <delegate>(c, source)`; this holds for every
dispatcher and every rule table (neither is consulted), the registry and the namer
stay as they are, and no error is returned. -/
theorem addMethod_delegate (E : Env) (gen : GenBuild) (method : Method) (g : Generator)
    (delegate : Func) (hd : method.Delegate = some delegate) :
    Generator.addMethod E gen method g
      = some (none,
          { g with file := g.file ++
              [Code.funcDecl (Code.param "c" (Code.ptr (Code.id g.name))) method.Name
                [Code.param "source" (E.types method.Source).TypeAsJen]
                [(E.types method.Target).TypeAsJen]
                [Code.ret (Code.call (Code.qual delegate.PkgPath delegate.Name)
                  [Code.id "c", Code.id "source"])]] })
    ∧ (∀ out, Generator.addMethod E gen method g = some out →
        out.1 = none ∧ out.2.lookup = g.lookup ∧ out.2.namer = g.namer
        ∧ out.2.file.length = g.file.length + 1)
    ∧ Generator.addMethod E gen method g
        = Generator.addMethod { E with BuildSteps := [] } (fun _ _ _ _ _ _ => none) method g := by
  have h : ∀ (E1 : Env) (gen1 : GenBuild), E1.types = E.types →
      Generator.addMethod E1 gen1 method g
      = some (none,
          { g with file := g.file ++
              [Code.funcDecl (Code.param "c" (Code.ptr (Code.id g.name))) method.Name
                [Code.param "source" (E.types method.Source).TypeAsJen]
                [(E.types method.Target).TypeAsJen]
                [Code.ret (Code.call (Code.qual delegate.PkgPath delegate.Name)
                  [Code.id "c", Code.id "source"])]] }) := by
    intro E1 gen1 hty
    simp only [Generator.addMethod, hd, methodDecl, hty]
  refine ⟨h E gen rfl, ?_, ?_⟩
  · intro out hout
    rw [h E gen rfl] at hout
    simp only [Option.some.injEq] at hout
    subst hout
    simp
  · rw [h E gen rfl, h { E with BuildSteps := [] } _ rfl]

/-- C16, at a Method `Convert` from A to B with the delegate `p.Custom`: the
declaration forwards to the delegate. -/
theorem addMethod_delegate_witness :
    Generator.addMethod exampleEnv (Generator.asGen exampleEnv 0)
        ⟨"Convert", "Convert", 5, 6, [], [],
          some ⟨"p", "Custom", "p.Custom", FuncType.signature [5] [6]⟩⟩ exampleGenerator
      = some (none,
          { exampleGenerator with file :=
              [Code.funcDecl (Code.param "c" (Code.ptr (Code.id "ConverterImpl"))) "Convert"
                [Code.param "source" (Code.qual "p" "A")] [Code.qual "p" "B"]
                [Code.ret (Code.call (Code.qual "p" "Custom")
                  [Code.id "c", Code.id "source"])]] }) :=
  (addMethod_delegate exampleEnv (Generator.asGen exampleEnv 0)
    ⟨"Convert", "Convert", 5, 6, [], [],
      some ⟨"p", "Custom", "p.Custom", FuncType.signature [5] [6]⟩⟩ exampleGenerator
    ⟨"p", "Custom", "p.Custom", FuncType.signature [5] [6]⟩ rfl).1



theorem Namer.mem_register (m : Namer) (name : String) :
    name ∈ (m.Register name).2.lookup := by
  unfold Namer.Register
  split
  · assumption
  · simp

/-- C17: `registerMethod` returns an error exactly when the declaration is not a
function signature, or has not exactly one parameter, or has not exactly one
result, or names a delegate that the package scope does not hold as a function;
with an error the generator (registry, namer) is handed back unchanged; without
one, the Method with the declared name, source, target, mapping, ignored fields and
resolved delegate is stored under (source type string, target type string), no
other Signature changes, and the Method's name is registered with the namer. -/
theorem registerMethod_error_iff (E : Env) (sources : Package) (method : Func)
    (methodComments : CommentsMethod) (g : Generator) :
    ((Generator.registerMethod E sources method methodComments g).1.isSome = true
      ↔ (∃ s, method.Typ = FuncType.other s)
        ∨ (∃ p r, method.Typ = FuncType.signature p r ∧ p.length ≠ 1)
        ∨ (∃ p r, method.Typ = FuncType.signature p r ∧ r.length ≠ 1)
        ∨ (methodComments.Delegate ≠ ""
            ∧ ∀ f, sources methodComments.Delegate ≠ some (Object.func f)))
    ∧ ((Generator.registerMethod E sources method methodComments g).1.isSome = true →
        (Generator.registerMethod E sources method methodComments g).2 = g)
    ∧ ((Generator.registerMethod E sources method methodComments g).1 = none →
        ∃ (source target : TypeRef) (delegate : Option Func),
          method.Typ = FuncType.signature [source] [target]
          ∧ (methodComments.Delegate = "" ∧ delegate = none
              ∨ methodComments.Delegate ≠ "" ∧ ∃ f, delegate = some f
                  ∧ sources methodComments.Delegate = some (Object.func f))
          ∧ (Generator.registerMethod E sources method methodComments g).2.lookup.get
                { Source := (E.types source).T, Target := (E.types target).T }
              = some { ID := method.FullName, Name := method.Name, Source := source
                       Target := target, Mapping := methodComments.NameMapping
                       IgnoredFields := methodComments.IgnoredFields, Delegate := delegate }
          ∧ (∀ k, k ≠ { Source := (E.types source).T, Target := (E.types target).T } →
              (Generator.registerMethod E sources method methodComments g).2.lookup.get k
                = g.lookup.get k)
          ∧ (Generator.registerMethod E sources method methodComments g).2.namer
              = (g.namer.Register method.Name).2
          ∧ method.Name
              ∈ (Generator.registerMethod E sources method methodComments g).2.namer.lookup
          ∧ (Generator.registerMethod E sources method methodComments g).2.file = g.file
          ∧ (Generator.registerMethod E sources method methodComments g).2.name = g.name) := by
  refine ⟨(Generator.registerMethod_error E sources method methodComments g).1,
    (Generator.registerMethod_error E sources method methodComments g).2, ?_⟩
  intro hnone
  have hpair : Generator.registerMethod E sources method methodComments g
      = (none, (Generator.registerMethod E sources method methodComments g).2) := by
    rw [← hnone]
  obtain ⟨source, target, delegate, hT, hdel, hg1⟩ :=
    Generator.registerMethod_ok E sources method methodComments g _ hpair
  refine ⟨source, target, delegate, hT, hdel, ?_, ?_, ?_, ?_, ?_, ?_⟩
  · rw [hg1]
    exact Lookup.get_set_self _ _ _
  · intro k hk
    rw [hg1]
    exact Lookup.get_set_ne _ _ _ _ hk
  · rw [hg1]
  · rw [hg1]
    exact Namer.mem_register _ _
  · rw [hg1]
  · rw [hg1]

/-- C17, at three declarations: `func(A, B) B` is rejected for its two parameters
and leaves the generator unchanged, a declaration naming the missing delegate
`Custom` is rejected, and `Convert(A) B` is stored under ("p.A", "p.B"). -/
theorem registerMethod_error_iff_witness :
    (Generator.registerMethod exampleEnv (fun _ => none)
        ⟨"p", "Bad", "(p.Converter).Bad", FuncType.signature [5, 6] [6]⟩ ⟨[], [], ""⟩
        exampleGenerator).2 = exampleGenerator
    ∧ (Generator.registerMethod exampleEnv (fun _ => none)
        ⟨"p", "Convert", "(p.Converter).Convert", FuncType.signature [5] [6]⟩
        ⟨[], [], "Custom"⟩ exampleGenerator).1.isSome = true
    ∧ ∃ (source target : TypeRef),
        FuncType.signature [5] [6] = FuncType.signature [source] [target]
        ∧ (Generator.registerMethod exampleEnv (fun _ => none)
            ⟨"p", "Convert", "(p.Converter).Convert", FuncType.signature [5] [6]⟩ ⟨[], [], ""⟩
            exampleGenerator).2.lookup.get
              { Source := (exampleTypes source).T, Target := (exampleTypes target).T }
            = some ⟨"(p.Converter).Convert", "Convert", source, target, [], [], none⟩ := by
  refine ⟨?_, ?_, ?_⟩
  · exact (registerMethod_error_iff exampleEnv (fun _ => none)
      ⟨"p", "Bad", "(p.Converter).Bad", FuncType.signature [5, 6] [6]⟩ ⟨[], [], ""⟩
      exampleGenerator).2.1 rfl
  · exact (registerMethod_error_iff exampleEnv (fun _ => none)
      ⟨"p", "Convert", "(p.Converter).Convert", FuncType.signature [5] [6]⟩
      ⟨[], [], "Custom"⟩ exampleGenerator).1.mpr
      (Or.inr (Or.inr (Or.inr ⟨by decide, fun f h => by cases h⟩)))
  · obtain ⟨source, target, delegate, hT, hdel, hget, -⟩ :=
      (registerMethod_error_iff exampleEnv (fun _ => none)
        ⟨"p", "Convert", "(p.Converter).Convert", FuncType.signature [5] [6]⟩ ⟨[], [], ""⟩
        exampleGenerator).2.2 rfl
    rcases hdel with ⟨-, rfl⟩ | ⟨hne, -⟩
    · exact ⟨source, target, hT, hget⟩
    · exact absurd rfl hne




/-! ## The build order of `createMethods` -/

theorem insertByName_perm (m : Method) (l : List Method) :
    (insertByName m l).Perm (m :: l) := by
  induction l with
  | nil => simp [insertByName]
  | cons x rest ih =>
    simp only [insertByName]
    split
    · exact List.Perm.refl _
    · exact (List.Perm.cons x ih).trans (List.Perm.swap m x rest)

theorem sortByName_perm (l : List Method) : (sortByName l).Perm l := by
  induction l with
  | nil => simp [sortByName]
  | cons m rest ih =>
    simp only [sortByName]
    exact (insertByName_perm m _).trans (List.Perm.cons m ih)

theorem insertByName_sorted (m : Method) (l : List Method)
    (h : l.Pairwise (fun a b => a.Name ≤ b.Name)) :
    (insertByName m l).Pairwise (fun a b => a.Name ≤ b.Name) := by
  induction l with
  | nil => simp [insertByName]
  | cons x rest ih =>
    simp only [insertByName]
    rw [List.pairwise_cons] at h
    split
    · rename_i hlt
      refine List.pairwise_cons.mpr ⟨?_, List.pairwise_cons.mpr h⟩
      intro b hb
      rcases List.mem_cons.mp hb with rfl | hb
      · exact le_of_lt hlt
      · exact le_trans (le_of_lt hlt) (h.1 b hb)
    · rename_i hnlt
      refine List.pairwise_cons.mpr ⟨?_, ih h.2⟩
      intro b hb
      rcases List.mem_cons.mp ((insertByName_perm m rest).subset hb) with rfl | hb
      · exact not_lt.mp hnlt
      · exact h.1 b hb

theorem sortByName_sorted (l : List Method) :
    (sortByName l).Pairwise (fun a b => a.Name ≤ b.Name) := by
  induction l with
  | nil => simp [sortByName]
  | cons m rest ih => exact insertByName_sorted m _ ih

/-- Two lists of Methods with pairwise distinct names that hold the same Methods
and are both in ascending order of name are equal. -/
theorem sorted_unique (l1 l2 : List Method) (hperm : l1.Perm l2)
    (hnodup : (l1.map (fun m => m.Name)).Nodup)
    (h1 : l1.Pairwise (fun a b => a.Name ≤ b.Name))
    (h2 : l2.Pairwise (fun a b => a.Name ≤ b.Name)) : l1 = l2 := by
  have strict : ∀ l : List Method, (l.map (fun m => m.Name)).Nodup →
      l.Pairwise (fun a b => a.Name ≤ b.Name) → l.Pairwise (fun a b => a.Name < b.Name) := by
    intro l hn hs
    have hne : l.Pairwise (fun a b => a.Name ≠ b.Name) := List.pairwise_map.mp hn
    exact (hs.and hne).imp (fun h => lt_of_le_of_ne h.1 h.2)
  have hnodup2 : (l2.map (fun m => m.Name)).Nodup := (hperm.map _).nodup_iff.mp hnodup
  haveI : IsAntisymm Method (fun a b => a.Name < b.Name) :=
    ⟨fun a b hab hba => absurd hab (lt_asymm hba)⟩
  exact List.eq_of_perm_of_sorted hperm (strict l1 hnodup h1) (strict l2 hnodup2 h2)

theorem sortByName_of_perm (l1 l2 : List Method) (hperm : l1.Perm l2)
    (hnodup : (l1.map (fun m => m.Name)).Nodup) : sortByName l1 = sortByName l2 := by
  refine sorted_unique _ _ (((sortByName_perm l1).trans hperm).trans (sortByName_perm l2).symm)
    ?_ (sortByName_sorted l1) (sortByName_sorted l2)
  exact ((sortByName_perm l1).map _).nodup_iff.mpr hnodup

theorem Generator.createLoop_append (E : Env) (gen : GenBuild) (pre rest : List Method)
    (g gk : Generator) (h : Generator.createLoop E gen pre g = some (none, gk)) :
    Generator.createLoop E gen (pre ++ rest) g = Generator.createLoop E gen rest gk := by
  induction pre generalizing g with
  | nil =>
    simp only [Generator.createLoop, Option.some.injEq, Prod.mk.injEq, true_and] at h
    subst h
    rfl
  | cons m pre ih =>
    simp only [Generator.createLoop, List.cons_append] at h ⊢
    cases ha : Generator.addMethod E gen m g with
    | none => simp [ha] at h
    | some out =>
      obtain ⟨e, g1⟩ := out
      cases e with
      | some err => simp [ha] at h
      | none =>
        simp only [ha] at h ⊢
        exact ih g1 h



/-! ## Error paths -/

theorem Generator.BuildNoLookup_list (E : Env) (gen : GenBuild) (c : MethodContext) (i : JenID)
    (s t : TypeRef) (g : Generator)
    (hfm : firstMatch E.BuildSteps s t = some (List.builder E.types)) :
    Generator.BuildNoLookup E gen c i s t g = List.Build E.types gen c i s t g := by
  simp only [Generator.BuildNoLookup, hfm]
  rfl

theorem Generator.BuildNoLookup_mismatch (E : Env) (gen : GenBuild) (c : MethodContext)
    (i : JenID) (s t : TypeRef) (g : Generator) (hfm : firstMatch E.BuildSteps s t = none) :
    Generator.BuildNoLookup E gen c i s t g
      = some (.error (NewError ("TypeMismatch: Cannot convert " ++ (E.types s).T ++ " to "
          ++ (E.types t).T)), c, g) := by
  simp only [Generator.BuildNoLookup, hfm]

/-- The list rule on a pair whose element pair is inlined and matched by no rule:
the mismatch of the element types under one "[]" frame. -/
theorem List.Build_mismatch (E : Env) (fuel : Nat) (c : MethodContext) (i : JenID)
    (s t : TypeRef) (g : Generator)
    (hmiss : g.lookup.get (signatureOf E.types (E.types s).ListInner (E.types t).ListInner)
      = none)
    (hex : extracts E.types (E.types s).ListInner (E.types t).ListInner = false)
    (hfm : firstMatch E.BuildSteps (E.types s).ListInner (E.types t).ListInner = none) :
    List.Build E.types (Generator.asGen E (fuel + 1)) c i s t g
      = some (.error ((NewError ("TypeMismatch: Cannot convert "
            ++ (E.types (E.types s).ListInner).T ++ " to "
            ++ (E.types (E.types t).ListInner).T)).Lift (List.frame E.types s t)),
          List.elemCtx E.types c t, g) := by
  refine List.Build_of_error E.types _ c i s t g _ _ g ?_
  show Generator.Build E (fuel + 1) _ _ _ _ g = _
  rw [Generator.Build_inline E fuel _ _ _ _ g hmiss hex,
    Generator.BuildNoLookup_mismatch E _ _ _ _ _ g hfm]



/-- C13: for a requested conversion between lists of lists whose innermost element
types are matched by no rule, the body build fails with the TypeMismatch error
naming the innermost types and carrying exactly two "[]" frames: the frame with
the innermost element types is attached first and the frame with the middle
element types next, in front of it; `createMethods` then attaches the root
"source"/"target" frame in front of both and renders the error.  For a single
level the error carries the one "[]" frame with the element types. -/
theorem list_error_frames (E : Env) (fuel : Nat) :
    (∀ (g : Generator) (m : Method) (s t s1 t1 s2 t2 : TypeRef),
        (E.types s).ListInner = s1 → (E.types t).ListInner = t1 →
        (E.types s1).ListInner = s2 → (E.types t1).ListInner = t2 →
        m.Source = s → m.Target = t → m.Delegate = none →
        g.lookup = [(signatureOf E.types s t, m)] →
        signatureOf E.types s1 t1 ≠ signatureOf E.types s t →
        signatureOf E.types s2 t2 ≠ signatureOf E.types s t →
        extracts E.types s1 t1 = false → extracts E.types s2 t2 = false →
        firstMatch E.BuildSteps s t = some (List.builder E.types) →
        firstMatch E.BuildSteps s1 t1 = some (List.builder E.types) →
        firstMatch E.BuildSteps s2 t2 = none →
        (∀ (c : MethodContext) (i : JenID), ∃ c1,
          Generator.BuildNoLookup E (Generator.asGen E (fuel + 2)) c i s t g
            = some (.error
                { Path := [{ SourceID := "[]", TargetID := "[]"
                             SourceType := (E.types s1).T, TargetType := (E.types t1).T },
                           { SourceID := "[]", TargetID := "[]"
                             SourceType := (E.types s2).T, TargetType := (E.types t2).T }]
                  Cause := "TypeMismatch: Cannot convert " ++ (E.types s2).T ++ " to "
                    ++ (E.types t2).T }, c1, g))
        ∧ ({ Path := [{ SourceID := "[]", TargetID := "[]"
                        SourceType := (E.types s1).T, TargetType := (E.types t1).T },
                      { SourceID := "[]", TargetID := "[]"
                        SourceType := (E.types s2).T, TargetType := (E.types t2).T }]
             Cause := "TypeMismatch: Cannot convert " ++ (E.types s2).T ++ " to "
               ++ (E.types t2).T } : Error)
            = ((NewError ("TypeMismatch: Cannot convert " ++ (E.types s2).T ++ " to "
                  ++ (E.types t2).T)).Lift
                { SourceID := "[]", TargetID := "[]"
                  SourceType := (E.types s2).T, TargetType := (E.types t2).T }).Lift
                { SourceID := "[]", TargetID := "[]"
                  SourceType := (E.types s1).T, TargetType := (E.types t1).T }
        ∧ Generator.createMethods E (fuel + 2) g
            = some (some ("Error while creating converter method: " ++ m.ID ++ "\n\n"
                ++ E.ToString
                  { Path := [{ SourceID := "source", TargetID := "target"
                               SourceType := (E.types s).T, TargetType := (E.types t).T },
                             { SourceID := "[]", TargetID := "[]"
                               SourceType := (E.types s1).T, TargetType := (E.types t1).T },
                             { SourceID := "[]", TargetID := "[]"
                               SourceType := (E.types s2).T, TargetType := (E.types t2).T }]
                    Cause := "TypeMismatch: Cannot convert " ++ (E.types s2).T ++ " to "
                      ++ (E.types t2).T }), g))
    ∧ (∀ (g : Generator) (s t s1 t1 : TypeRef) (c : MethodContext) (i : JenID),
        (E.types s).ListInner = s1 → (E.types t).ListInner = t1 →
        g.lookup.get (signatureOf E.types s1 t1) = none →
        extracts E.types s1 t1 = false →
        firstMatch E.BuildSteps s t = some (List.builder E.types) →
        firstMatch E.BuildSteps s1 t1 = none →
        ∃ c1,
          Generator.BuildNoLookup E (Generator.asGen E (fuel + 1)) c i s t g
            = some (.error
                { Path := [{ SourceID := "[]", TargetID := "[]"
                             SourceType := (E.types s1).T, TargetType := (E.types t1).T }]
                  Cause := "TypeMismatch: Cannot convert " ++ (E.types s1).T ++ " to "
                    ++ (E.types t1).T }, c1, g)) := by
  have single : ∀ (fuel : Nat) (g : Generator) (s t s1 t1 : TypeRef) (c : MethodContext)
      (i : JenID), (E.types s).ListInner = s1 → (E.types t).ListInner = t1 →
      g.lookup.get (signatureOf E.types s1 t1) = none → extracts E.types s1 t1 = false →
      firstMatch E.BuildSteps s1 t1 = none →
      List.Build E.types (Generator.asGen E (fuel + 1)) c i s t g
        = some (.error
            { Path := [{ SourceID := "[]", TargetID := "[]"
                         SourceType := (E.types s1).T, TargetType := (E.types t1).T }]
              Cause := "TypeMismatch: Cannot convert " ++ (E.types s1).T ++ " to "
                ++ (E.types t1).T }, List.elemCtx E.types c t, g) := by
    intro fuel g s t s1 t1 c i hs ht hmiss hex hfm
    subst hs ht
    rw [List.Build_mismatch E fuel c i s t g hmiss hex hfm]
    rfl
  refine ⟨?_, ?_⟩
  · intro g m s t s1 t1 s2 t2 hs ht hs1 ht1 hsrc htgt hdel hg hne1 hne2 hex1 hex2 hfm hfm1 hfm2
    have hmiss1 : g.lookup.get (signatureOf E.types s1 t1) = none := by
      rw [hg]; simp [Lookup.get, Ne.symm hne1]
    have hmiss2 : g.lookup.get (signatureOf E.types s2 t2) = none := by
      rw [hg]; simp [Lookup.get, Ne.symm hne2]
    have hbody : ∀ (c : MethodContext) (i : JenID),
        Generator.BuildNoLookup E (Generator.asGen E (fuel + 2)) c i s t g
          = some (.error
              { Path := [{ SourceID := "[]", TargetID := "[]"
                           SourceType := (E.types s1).T, TargetType := (E.types t1).T },
                         { SourceID := "[]", TargetID := "[]"
                           SourceType := (E.types s2).T, TargetType := (E.types t2).T }]
                Cause := "TypeMismatch: Cannot convert " ++ (E.types s2).T ++ " to "
                  ++ (E.types t2).T }, List.elemCtx E.types (List.elemCtx E.types c t) t1, g) := by
      intro c i
      rw [Generator.BuildNoLookup_list E _ c i s t g hfm]
      have hel : List.elemBuild E.types (Generator.asGen E (fuel + 2)) c i s t g
          = some (.error
              { Path := [{ SourceID := "[]", TargetID := "[]"
                           SourceType := (E.types s2).T, TargetType := (E.types t2).T }]
                Cause := "TypeMismatch: Cannot convert " ++ (E.types s2).T ++ " to "
                  ++ (E.types t2).T }, List.elemCtx E.types (List.elemCtx E.types c t) t1, g) := by
        show Generator.Build E (fuel + 2) _ _ (E.types s).ListInner (E.types t).ListInner g = _
        rw [hs, ht, Generator.Build_inline E (fuel + 1) _ _ s1 t1 g hmiss1 hex1,
          Generator.BuildNoLookup_list E _ _ _ s1 t1 g hfm1]
        exact single fuel g s1 t1 s2 t2 _ _ hs1 ht1 hmiss2 hex2 hfm2
      rw [List.Build_of_error E.types _ c i s t g _ _ g hel]
      simp only [Error.Lift, List.frame, hs, ht]
    refine ⟨fun c i => ⟨_, hbody c i⟩, rfl, ?_⟩
    have hsorted : sortByName (g.lookup.map Prod.snd) = [m] := by rw [hg]; rfl
    simp only [Generator.createMethods, hsorted, Generator.createLoop]
    rw [Generator.addMethod_no_delegate E _ m g hdel, hsrc, htgt, hbody]
    simp only [rootFrame, Error.Lift, hsrc, htgt]
  · intro g s t s1 t1 c i hs ht hmiss hex hfm hfm1
    refine ⟨List.elemCtx E.types c t, ?_⟩
    rw [Generator.BuildNoLookup_list E _ c i s t g hfm]
    exact single fuel g s t s1 t1 c i hs ht hmiss hex hfm1



/-- C13, at the requested conversion `[][]int` to `[][]string` with the example
rules: `createMethods` reports the path root, "[]" ([]int -> []string),
"[]" (int -> string) and the mismatch of int and string; and `[]int` to `[]string`
fails under the single frame "[]" (int -> string). -/
theorem list_error_frames_witness :
    Generator.createMethods exampleEnv 2
        { exampleGenerator with lookup :=
            [(⟨"[][]int", "[][]string"⟩,
              ⟨"(p.Converter).Convert", "Convert", 9, 10, [], [], none⟩)] }
      = some (some ("Error while creating converter method: (p.Converter).Convert\n\n"
            ++ "source : [][]int -> [][]string | [] : []int -> []string | "
            ++ "[] : int -> string | TypeMismatch: Cannot convert int to string"),
          { exampleGenerator with lookup :=
            [(⟨"[][]int", "[][]string"⟩,
              ⟨"(p.Converter).Convert", "Convert", 9, 10, [], [], none⟩)] })
    ∧ ∃ c1,
        Generator.BuildNoLookup exampleEnv (Generator.asGen exampleEnv 1) exampleCtx
            (VariableID (Code.id "source")) 2 3 exampleGenerator
          = some (.error { Path := [⟨"[]", "[]", "int", "string"⟩]
                           Cause := "TypeMismatch: Cannot convert int to string" },
              c1, exampleGenerator) :=
  ⟨((list_error_frames exampleEnv 0).1
      { exampleGenerator with lookup :=
          [(⟨"[][]int", "[][]string"⟩,
            ⟨"(p.Converter).Convert", "Convert", 9, 10, [], [], none⟩)] }
      ⟨"(p.Converter).Convert", "Convert", 9, 10, [], [], none⟩ 9 10 2 3 0 1
      rfl rfl rfl rfl rfl rfl rfl rfl (by decide) (by decide) rfl rfl rfl rfl rfl).2.2.trans
      (by rfl),
   (list_error_frames exampleEnv 0).2 exampleGenerator 2 3 0 1 exampleCtx
      (VariableID (Code.id "source")) rfl rfl rfl rfl rfl rfl⟩



/-! ## Failure of an extracted body -/

theorem Namer.Register_subset (m : Namer) (name x : String) (h : x ∈ m.lookup) :
    x ∈ (m.Register name).2.lookup := by
  unfold Namer.Register
  split
  · exact h
  · exact List.mem_cons_of_mem _ h

theorem Namer.Name_subset (m : Namer) (name x : String) (h : x ∈ m.lookup) :
    x ∈ (m.Name name).2.lookup := by
  unfold Namer.Name
  split
  · exact List.mem_cons_of_mem _ h
  · exact h

/-- A name registered with the run-wide namer stays registered through every build. -/
theorem Generator.Build_keeps_name (E : Env) (hrules : ∀ R ∈ E.BuildSteps, R.Faithful)
    (x : String) (fuel : Nat) (c : MethodContext) (i : JenID) (s t : TypeRef)
    (g : Generator) (out : BuildResult × MethodContext × Generator)
    (hx : x ∈ g.namer.lookup) (h : Generator.Build E fuel c i s t g = some out) :
    x ∈ out.2.2.namer.lookup := by
  refine Generator.Build_preserves E (fun g => x ∈ g.namer.lookup) hrules ?_ ?_
    fuel c i s t g out hx h
  · intro s t g hQ _ _
    simp only [Generator.reserve]
    exact Namer.Register_subset _ _ _ (Namer.Name_subset _ _ _ hQ)
  · intro g f hQ
    exact hQ

/-- C20: for a pair that is not in the registry and of which one side is named and
not basic, when the body build fails `Generator.Build` returns that error, and the
generator it leaves is the one left by the failed body build: `addMethod` appended
no declaration; the Method stored before the body build is still in the registry
under the pair's Signature and its name is still registered with the namer; hence a
later `Build` for the same pair, from that generator, is a cache hit that returns
the call of this Method without statements and without error. -/
theorem Generator_Build_not_atomic (E : Env) (fuel : Nat) (ctx : MethodContext)
    (sourceID : JenID) (source target : TypeRef) (g g1 : Generator) (err : Error)
    (c1 : MethodContext)
    (hrules : ∀ R ∈ E.BuildSteps, R.Faithful)
    (hmiss : g.lookup.get { Source := (E.types source).T, Target := (E.types target).T } = none)
    (hex : ((E.types source).Named = true ∧ (E.types source).Basic = false)
      ∨ ((E.types target).Named = true ∧ (E.types target).Basic = false))
    (hfail : Generator.BuildNoLookup E (Generator.asGen E fuel)
        { Namer := Namer.New
          MappingBaseID := (E.types target).T
          Mapping := []
          IgnoredFields := [] }
        (VariableID (Code.id "source")) source target (Generator.reserve E source target g).2
      = some (.error err, c1, g1)) :
    Generator.addMethod E (Generator.asGen E fuel) (Generator.reserve E source target g).1
        (Generator.reserve E source target g).2 = some (some err, g1)
    ∧ Generator.Build E (fuel + 1) ctx sourceID source target g = some (.error err, ctx, g1)
    ∧ g1.lookup.get { Source := (E.types source).T, Target := (E.types target).T }
        = some (Generator.reserve E source target g).1
    ∧ (Generator.reserve E source target g).1.Name ∈ g1.namer.lookup
    ∧ ∀ (fuel2 : Nat) (ctx2 : MethodContext) (sourceID2 : JenID),
        Generator.Build E (fuel2 + 1) ctx2 sourceID2 source target g1
          = some (.ok ([], OtherID (Code.call
              (Code.dot (Code.id "c") (Generator.reserve E source target g).1.Name)
              [sourceID2.Code])), ctx2, g1) := by
  have hex1 : extracts E.types source target = true := by
    rcases hex with ⟨h1, h2⟩ | ⟨h1, h2⟩ <;> simp [extracts, h1, h2]
  have hfail1 : Generator.BuildNoLookup E (Generator.asGen E fuel)
      (bodyCtx E (Generator.reserve E source target g).1) (VariableID (Code.id "source"))
      (Generator.reserve E source target g).1.Source
      (Generator.reserve E source target g).1.Target
      (Generator.reserve E source target g).2 = some (.error err, c1, g1) := hfail
  have hadd : Generator.addMethod E (Generator.asGen E fuel)
      (Generator.reserve E source target g).1 (Generator.reserve E source target g).2
      = some (some err, g1) := by
    rw [Generator.addMethod_no_delegate E _ _ _ rfl, hfail1]
  have hstored : (Generator.reserve E source target g).2.lookup.get
      (signatureOf E.types source target) = some (Generator.reserve E source target g).1 := by
    simp only [Generator.reserve]
    exact Lookup.get_set_self _ _ _
  have hname : (Generator.reserve E source target g).1.Name
      ∈ (Generator.reserve E source target g).2.namer.lookup := by
    simp only [Generator.reserve]
    exact Namer.mem_register _ _
  have hgen : ∀ (Q : Generator → Prop),
      (∀ fuel c i s t g out, Q g → Generator.Build E fuel c i s t g = some out → Q out.2.2) →
      Q (Generator.reserve E source target g).2 → Q g1 := by
    intro Q hQ h0
    exact Generator.BuildNoLookup_preserves E Q hrules (Generator.asGen E fuel)
      (fun c i s t _ g2 out hq h => hQ fuel c i s t g2 out hq h) _ _ _ _ _ _ h0 hfail1
  have hkeep : g1.lookup.get (signatureOf E.types source target)
      = some (Generator.reserve E source target g).1 :=
    hgen (fun g2 => g2.lookup.get (signatureOf E.types source target)
        = some (Generator.reserve E source target g).1)
      (fun fuel c i s t g2 out hq h =>
        Generator.Build_keeps_entry E hrules _ _ fuel c i s t g2 out hq h) hstored
  have hkeepName : (Generator.reserve E source target g).1.Name ∈ g1.namer.lookup :=
    hgen (fun g2 => (Generator.reserve E source target g).1.Name ∈ g2.namer.lookup)
      (fun fuel c i s t g2 out hq h =>
        Generator.Build_keeps_name E hrules _ fuel c i s t g2 out hq h) hname
  refine ⟨hadd, ?_, hkeep, hkeepName, ?_⟩
  · rw [Generator.Build_extract E fuel ctx sourceID source target g hmiss hex1, hadd]
  · intro fuel2 ctx2 sourceID2
    exact Generator.Build_hit E fuel2 ctx2 sourceID2 source target g1 _ hkeep



/-- C20, at `type Node []Node` to `[]int` from an empty registry: the body build
fails (no rule converts `Node` to `int`), `Build` returns the error, nothing is
written to the output file, and a second `Build` of the same pair returns the call
of the Method `pNodeToIntList`, which has no body. -/
theorem Generator_Build_not_atomic_witness :
    ∃ (err : Error) (g1 : Generator),
      Generator.Build exampleEnv 2 exampleCtx (VariableID (Code.id "source")) 7 2
          exampleGenerator = some (.error err, exampleCtx, g1)
      ∧ g1.file = []
      ∧ Generator.Build exampleEnv 1 exampleCtx (VariableID (Code.id "source")) 7 2 g1
          = some (.ok ([], OtherID (Code.call (Code.dot (Code.id "c") "pNodeToIntList")
              [Code.id "source"])), exampleCtx, g1) := by
  have h := Generator_Build_not_atomic exampleEnv 1 exampleCtx (VariableID (Code.id "source"))
    7 2 exampleGenerator _ _ _ exampleEnv_faithful rfl (Or.inl ⟨rfl, rfl⟩) rfl
  exact ⟨_, _, h.2.1, rfl, h.2.2.2.2 0 exampleCtx (VariableID (Code.id "source"))⟩



/-! ## The source expression in the generated statements -/

theorem Code.countIf_self (p : Code → Bool) (c : Code) (h : p c = true) :
    1 ≤ Code.countIf p c := by
  cases c <;> simp [Code.countIf, h] <;> omega

theorem Code.countIfList_append (p : Code → Bool) (l1 l2 : List Code) :
    Code.countIfList p (l1 ++ l2) = Code.countIfList p l1 + Code.countIfList p l2 := by
  induction l1 with
  | nil => simp [Code.countIfList]
  | cons c rest ih => simp [Code.countIfList, ih, Nat.add_assoc]

/-- C19 fails as stated: handed the call `load()` classified "other" as the source
of a `[]int` to `[]int` conversion, `List.Build` succeeds and the call occurs five
times in the returned statements (nil check, both arguments of `make`, loop bound,
element expression), and no statement binds it to a local. -/
theorem List_Build_other_source_counterexample :
    exampleCall.Variable = false
    ∧ (List.Build exampleTypes (Generator.asGen exampleEnv 1) exampleCtx exampleCall 2 2
        exampleGenerator).map (fun out => out.1.stmt)
      = some [Code.varDecl (Code.id "intList") (Code.id "[]int"),
              Code.ifStmt (Code.binop "!=" (Code.call (Code.id "load") []) Code.nil)
                [Code.assign (Code.id "intList")
                  (Code.make (Code.id "[]int") (Code.len (Code.call (Code.id "load") []))
                    (Code.len (Code.call (Code.id "load") [])))],
              Code.forStmt (Code.define (Code.id "i") (Code.lit 0))
                (Code.binop "<" (Code.id "i") (Code.len (Code.call (Code.id "load") [])))
                (Code.incr (Code.id "i"))
                [Code.assign (Code.index (Code.id "intList") (Code.id "i"))
                  (Code.index (Code.call (Code.id "load") []) (Code.id "i"))]]
    ∧ (List.Build exampleTypes (Generator.asGen exampleEnv 1) exampleCtx exampleCall 2 2
        exampleGenerator).map (fun out => Code.countIfList isExampleCall out.1.stmt)
      = some 5 := by
  refine ⟨rfl, rfl, rfl⟩



/-- C19, amended: `List.Build` does not consult the classification of its source
expression.  For the same expression it does the same whether the expression is
classified "variable" or "other"; the element source handed to the dispatcher is
the source expression indexed, and in every successful result the source
expression occurs at least four times in the returned statements when the source
is not fixed-length (nil check, both arguments of `make`, loop bound) and at least
three times when it is (both arguments of `make`, loop bound). -/
theorem List_Build_ignores_classification (ty : TypeRef → XType) (gen : GenBuild)
    (ctx : MethodContext) (code : Code) (source target : TypeRef) (g : Generator)
    (stmt : List Code) (id : JenID) (ctx3 : MethodContext) (g1 : Generator)
    (p : Code → Bool) (hp : p code = true)
    (hok : List.Build ty gen ctx { Code := code, Variable := false } source target g
      = some (.ok (stmt, id), ctx3, g1)) :
    List.Build ty gen ctx { Code := code, Variable := true } source target g
        = List.Build ty gen ctx { Code := code, Variable := false } source target g
    ∧ (∃ r, gen (List.elemCtx ty ctx target)
          { Code := Code.index code (Code.id (List.index ty ctx target)), Variable := true }
          (ty source).ListInner (ty target).ListInner
          (Wrap "error setting index %d" [Code.id (List.index ty ctx target)]) g
        = some (.ok r, ctx3, g1))
    ∧ ((ty source).ListFixed = false → 4 ≤ Code.countIfList p stmt)
    ∧ ((ty source).ListFixed = true → 3 ≤ Code.countIfList p stmt) := by
  have h1 := Code.countIf_self p code hp
  cases hgen : List.elemBuild ty gen ctx { Code := code, Variable := false } source target g with
  | none =>
    rw [List.Build_of_none ty gen ctx _ source target g hgen] at hok
    cases hok
  | some out =>
    obtain ⟨r, c, g2⟩ := out
    cases r with
    | error e =>
      rw [List.Build_of_error ty gen ctx _ source target g e c g2 hgen] at hok
      cases hok
    | ok q =>
      obtain ⟨newStmt, newID⟩ := q
      rw [List.Build_of_ok ty gen ctx _ source target g newStmt newID c g2 hgen] at hok
      simp only [Option.some.injEq, Prod.mk.injEq, Except.ok.injEq] at hok
      obtain ⟨⟨hstmt, -⟩, hc, hg⟩ := hok
      subst hc hg
      refine ⟨rfl, ⟨_, hgen⟩, ?_, ?_⟩
      · intro hfixed
        rw [← hstmt]
        simp only [List.initializeStmt, hfixed, List.loopAssignStmt, Code.countIfList_append,
          Code.countIfList, Code.countIf]
        omega
      · intro hfixed
        rw [← hstmt]
        simp only [List.initializeStmt, hfixed, List.loopAssignStmt, Code.countIfList_append,
          Code.countIfList, Code.countIf]
        omega

/-- C19 amended, at the call `load()` as the source of `[]int` to `[]int`: the
build succeeds for the classification "other" as for "variable", and the call
occurs at least four times in the statements. -/
theorem List_Build_ignores_classification_witness :
    List.Build exampleTypes (Generator.asGen exampleEnv 1) exampleCtx
        { Code := Code.call (Code.id "load") [], Variable := true } 2 2 exampleGenerator
      = List.Build exampleTypes (Generator.asGen exampleEnv 1) exampleCtx
        { Code := Code.call (Code.id "load") [], Variable := false } 2 2 exampleGenerator
    ∧ 4 ≤ Code.countIfList isExampleCall
        ((List.Build exampleTypes (Generator.asGen exampleEnv 1) exampleCtx
          { Code := Code.call (Code.id "load") [], Variable := false } 2 2
          exampleGenerator).elim [] (fun out => out.1.stmt)) := by
  have h := List_Build_ignores_classification exampleTypes (Generator.asGen exampleEnv 1)
    exampleCtx (Code.call (Code.id "load") []) 2 2 exampleGenerator _ _ _ _
    isExampleCall rfl rfl
  exact ⟨h.1, h.2.2.1 rfl⟩



/-! ## The output file -/

/-- C11 fails as stated: with `type A []B`, `type B []A` and the requested
conversion `Convert(A) B`, `createMethods` succeeds and the output file holds the
declaration of the implicitly discovered `pBToPA` before the declaration of
`Convert`, although "Convert" is smaller than "pBToPA". -/
theorem createMethods_file_order_counterexample :
    (Generator.createMethods exampleEnv 2
        (Generator.registerMethod exampleEnv (fun _ => none)
          ⟨"p", "Convert", "(p.Converter).Convert", FuncType.signature [5] [6]⟩ ⟨[], [], ""⟩
          exampleGenerator).2).map
        (fun out => (out.1, out.2.file.filterMap Code.declName,
          out.2.lookup.map (fun e => e.2.Name)))
      = some (none, ["pBToPA", "Convert"], ["Convert", "pBToPA"])
    ∧ "Convert" < "pBToPA" :=
  ⟨rfl, String.lt_iff_toList_lt.mpr (by decide)⟩

/-! ## One declaration per Method -/

theorem List.builder_strict (ty : TypeRef → XType) : (List.builder ty).Strict := by
  intro Q gen hgen c i s t g r c1 g1 hQ h
  change List.Build ty gen c i s t g = some (.ok r, c1, g1) at h
  cases hr : List.elemBuild ty gen c i s t g with
  | none =>
    rw [List.Build_of_none ty gen c i s t g hr] at h
    cases h
  | some o =>
    obtain ⟨r1, c3, g2⟩ := o
    cases r1 with
    | error e =>
      rw [List.Build_of_error ty gen c i s t g e c3 g2 hr] at h
      simp at h
    | ok p =>
      have hQ2 : Q g2 := hgen _ _ _ _ _ g p c3 g2 hQ hr
      rw [List.Build_of_ok ty gen c i s t g p.1 p.2 c3 g2 hr] at h
      simp only [Option.some.injEq, Prod.mk.injEq] at h
      obtain ⟨-, -, hg⟩ := h
      subst hg
      exact hQ2

theorem exampleBasic_strict (ty : TypeRef → XType) : (exampleBasic ty).Strict := by
  intro Q gen _ c i s t g r c1 g1 hQ h
  simp only [exampleBasic, Option.some.injEq, Prod.mk.injEq] at h
  obtain ⟨-, -, hg⟩ := h
  subst hg
  exact hQ

theorem exampleEnv_strict : ∀ R ∈ exampleEnv.BuildSteps, R.Strict := by
  intro R hR
  simp only [exampleEnv, List.mem_cons, List.mem_singleton, List.not_mem_nil, or_false] at hR
  rcases hR with h | h
  · subst h; exact exampleBasic_strict _
  · subst h; exact List.builder_strict _

theorem Generator.Accounts.reserve (E : Env) (g0 : Generator) (P : List Method) (s t : TypeRef)
    (g : Generator) (h : g.Accounts E g0 P)
    (hmiss : g.lookup.get (signatureOf E.types s t) = none) :
    (Generator.reserve E s t g).2.Accounts E g0 ((Generator.reserve E s t g).1 :: P) := by
  obtain ⟨hn, built, hfile, hperm⟩ := h
  refine ⟨hn, built, hfile, ?_⟩
  simp only [Generator.reserve]
  rw [Lookup.set_of_get_none _ _ _ hmiss, List.map_append]
  simp only [List.map_cons, List.map_nil]
  refine (List.perm_middle).trans ?_
  exact ((List.Perm.cons _ hperm).trans (List.perm_append_singleton _ _).symm)

theorem Generator.Accounts.append (E : Env) (g0 : Generator) (P : List Method) (m : Method)
    (g : Generator) (body : List Code) (h : g.Accounts E g0 (m :: P)) :
    Generator.Accounts { g with file := g.file ++ [methodDecl E g m body] } E g0 P := by
  obtain ⟨hn, built, hfile, hperm⟩ := h
  refine ⟨hn, built ++ [m], ?_, ?_⟩
  · refine List.rel_append hfile (List.Forall₂.cons ⟨body, ?_⟩ List.Forall₂.nil)
    simp only [methodDecl, hn]
  · simpa using hperm



theorem Generator.BuildNoLookup_ok_preserves (E : Env) (Q : Generator → Prop)
    (hrules : ∀ R ∈ E.BuildSteps, R.Strict) (gen : GenBuild)
    (hgen : ∀ c i s t w g r c1 g1, Q g → gen c i s t w g = some (.ok r, c1, g1) → Q g1)
    (c : MethodContext) (i : JenID) (s t : TypeRef) (g : Generator)
    (r : List Code × JenID) (c1 : MethodContext) (g1 : Generator) (hQ : Q g)
    (h : Generator.BuildNoLookup E gen c i s t g = some (.ok r, c1, g1)) : Q g1 := by
  unfold Generator.BuildNoLookup at h
  cases hfm : firstMatch E.BuildSteps s t with
  | none =>
    rw [hfm] at h
    simp at h
  | some rule =>
    rw [hfm] at h
    have hmem : rule ∈ E.BuildSteps := List.mem_of_find?_eq_some hfm
    exact hrules rule hmem Q gen hgen c i s t g r c1 g1 hQ h

/-- A successful `addMethod` moves its Method from the pending Methods to the
built ones, given that successful dispatcher calls keep the account. -/
theorem Generator.addMethod_ok_accounts (E : Env) (hrules : ∀ R ∈ E.BuildSteps, R.Strict)
    (g0 : Generator) (gen : GenBuild) (P : List Method) (m : Method) (g g1 : Generator)
    (hgen : ∀ c i s t w g r c1 g1, g.Accounts E g0 (m :: P) →
      gen c i s t w g = some (.ok r, c1, g1) → g1.Accounts E g0 (m :: P))
    (hacc : g.Accounts E g0 (m :: P))
    (h : Generator.addMethod E gen m g = some (none, g1)) : g1.Accounts E g0 P := by
  cases hd : m.Delegate with
  | some d =>
    simp only [Generator.addMethod, hd, Option.some.injEq, Prod.mk.injEq, true_and] at h
    subst h
    exact Generator.Accounts.append E g0 P m g _ hacc
  | none =>
    rw [Generator.addMethod_no_delegate E _ m g hd] at h
    split at h
    · cases h
    · cases h
    · rename_i stmt newID c1 g2 hb
      simp only [Option.some.injEq, Prod.mk.injEq, true_and] at h
      subst h
      have hacc2 : g2.Accounts E g0 (m :: P) :=
        Generator.BuildNoLookup_ok_preserves E (fun g3 => g3.Accounts E g0 (m :: P)) hrules gen
          hgen _ _ _ _ _ _ _ _ hacc hb
      exact Generator.Accounts.append E g0 P m g2 _ hacc2

/-- A successful `Build` keeps the account of the output file: every Method it
stores in the registry gets its declaration before `Build` returns. -/
theorem Generator.Build_ok_accounts (E : Env) (hrules : ∀ R ∈ E.BuildSteps, R.Strict)
    (g0 : Generator) :
    ∀ (fuel : Nat) (P : List Method) (c : MethodContext) (i : JenID) (s t : TypeRef)
      (g : Generator) (r : List Code × JenID) (c1 : MethodContext) (g1 : Generator),
      g.Accounts E g0 P → Generator.Build E fuel c i s t g = some (.ok r, c1, g1) →
      g1.Accounts E g0 P := by
  intro fuel
  induction fuel with
  | zero => intro P c i s t g r c1 g1 _ h; simp [Generator.Build] at h
  | succ fuel ih =>
    intro P c i s t g r c1 g1 hacc h
    cases hget : g.lookup.get (signatureOf E.types s t) with
    | some m =>
      rw [Generator.Build_hit E fuel c i s t g m hget] at h
      simp only [Option.some.injEq, Prod.mk.injEq] at h
      obtain ⟨-, -, hg⟩ := h
      subst hg
      exact hacc
    | none =>
      cases hex : extracts E.types s t with
      | false =>
        rw [Generator.Build_inline E fuel c i s t g hget hex] at h
        exact Generator.BuildNoLookup_ok_preserves E (fun g3 => g3.Accounts E g0 P) hrules _
          (fun c i s t _ g3 r c1 g4 hq hb => ih P c i s t g3 r c1 g4 hq hb)
          _ _ _ _ _ _ _ _ hacc h
      | true =>
        rw [Generator.Build_extract E fuel c i s t g hget hex] at h
        have hacc0 := Generator.Accounts.reserve E g0 P s t g hacc hget
        split at h
        · cases h
        · simp at h
        · rename_i g2 ha
          have hacc2 : g2.Accounts E g0 P :=
            Generator.addMethod_ok_accounts E hrules g0 _ P _ _ g2
              (fun c i s t _ g3 r c1 g4 hq hb => ih _ c i s t g3 r c1 g4 hq hb) hacc0 ha
          exact ih P c i s t g2 r c1 g1 hacc2 h

theorem Generator.createLoop_accounts (E : Env) (hrules : ∀ R ∈ E.BuildSteps, R.Strict)
    (g0 : Generator) (fuel : Nat) (l P : List Method) (g g2 : Generator)
    (hacc : g.Accounts E g0 (l ++ P))
    (h : Generator.createLoop E (Generator.asGen E fuel) l g = some (none, g2)) :
    g2.Accounts E g0 P := by
  induction l generalizing g with
  | nil =>
    simp only [Generator.createLoop, Option.some.injEq, Prod.mk.injEq, true_and] at h
    subst h
    exact hacc
  | cons m rest ih =>
    simp only [Generator.createLoop] at h
    cases ha : Generator.addMethod E (Generator.asGen E fuel) m g with
    | none => simp [ha] at h
    | some o =>
      obtain ⟨e, g1⟩ := o
      cases e with
      | some err => simp [ha] at h
      | none =>
        simp only [ha] at h
        refine ih g1 ?_ h
        exact Generator.addMethod_ok_accounts E hrules g0 _ (rest ++ P) m g g1
          (fun c i s t _ g3 r c1 g4 hq hb =>
            Generator.Build_ok_accounts E hrules g0 fuel _ c i s t g3 r c1 g4 hq hb)
          hacc ha



/-- C18: starting from an empty output file, after a successful `createMethods`
run (with rules that succeed only through successful dispatcher calls) the output
file is, declaration by declaration, the list of declarations of Methods `built`
that are exactly the Methods of the final registry, explicitly requested and
implicitly discovered alike: one declaration per registry Method and none for
anything else.  `createMethods` itself builds only the Methods that were in the
registry at its start; an implicitly discovered Method is built inside the `Build`
call that stored it. -/
theorem createMethods_one_declaration_each (E : Env) (fuel : Nat) (g g2 : Generator)
    (hrules : ∀ R ∈ E.BuildSteps, R.Strict)
    (hfile : g.file = [])
    (hok : Generator.createMethods E fuel g = some (none, g2)) :
    (∃ built : List Method,
      built.Perm (g2.lookup.map Prod.snd)
      ∧ List.Forall₂
          (fun d m => ∃ body,
            d = Code.funcDecl (Code.param "c" (Code.ptr (Code.id g.name))) m.Name
              [Code.param "source" (E.types m.Source).TypeAsJen]
              [(E.types m.Target).TypeAsJen] body)
          g2.file built)
    ∧ g2.file.length = g2.lookup.length
    ∧ Generator.createMethods E fuel g
        = Generator.createLoop E (Generator.asGen E fuel)
            (sortByName (g.lookup.map Prod.snd)) g
    ∧ ∀ (fuel1 : Nat) (c : MethodContext) (i : JenID) (s t : TypeRef) (g3 : Generator),
        g3.lookup.get (signatureOf E.types s t) = none → extracts E.types s t = true →
        Generator.Build E (fuel1 + 1) c i s t g3
          = match Generator.addMethod E (Generator.asGen E fuel1)
                (Generator.reserve E s t g3).1 (Generator.reserve E s t g3).2 with
            | none => none
            | some (some err, g4) => some (.error err, c, g4)
            | some (none, g4) => Generator.Build E fuel1 c i s t g4 := by
  have hinit : g.Accounts E g (sortByName (g.lookup.map Prod.snd) ++ []) := by
    refine ⟨rfl, [], ?_, ?_⟩
    · rw [hfile]; exact List.Forall₂.nil
    · simpa using sortByName_perm _
  obtain ⟨-, built, hall, hperm⟩ := Generator.createLoop_accounts E hrules g fuel _ [] g g2
    hinit hok
  have hperm1 : built.Perm (g2.lookup.map Prod.snd) := by simpa using hperm
  refine ⟨⟨built, hperm1, hall⟩, ?_, rfl, ?_⟩
  · rw [hall.length_eq, hperm1.length_eq, List.length_map]
  · intro fuel1 c i s t g3 hmiss hex
    exact Generator.Build_extract E fuel1 c i s t g3 hmiss hex

/-- C18, at the requested conversion `Convert(A) B` with `type A []B`,
`type B []A`: after `createMethods` the registry holds two Methods and the file two
declarations, `pBToPA` and `Convert`. -/
theorem createMethods_one_declaration_each_witness :
    ∃ g2 : Generator,
      Generator.createMethods exampleEnv 2
        (Generator.registerMethod exampleEnv (fun _ => none)
          ⟨"p", "Convert", "(p.Converter).Convert", FuncType.signature [5] [6]⟩ ⟨[], [], ""⟩
          exampleGenerator).2 = some (none, g2)
      ∧ g2.file.length = g2.lookup.length
      ∧ g2.lookup.map (fun e => e.2.Name) = ["Convert", "pBToPA"]
      ∧ g2.file.filterMap Code.declName = ["pBToPA", "Convert"] :=
  ⟨_, rfl,
    (createMethods_one_declaration_each exampleEnv 2
      (Generator.registerMethod exampleEnv (fun _ => none)
        ⟨"p", "Convert", "(p.Converter).Convert", FuncType.signature [5] [6]⟩ ⟨[], [], ""⟩
        exampleGenerator).2 _ exampleEnv_strict rfl rfl).2.1, rfl, rfl⟩



/-! ## The loop of `createMethods` as a run of `addMethod` calls -/

theorem Generator.createLoop_of_buildsAll (E : Env) (gen : GenBuild) (l : List Method)
    (g g2 : Generator) (h : Generator.BuildsAll E gen l g g2) :
    Generator.createLoop E gen l g = some (none, g2) := by
  induction h with
  | nil g => rfl
  | cons m rest g g1 g2 hadd _ ih =>
    simp only [Generator.createLoop, hadd]
    exact ih

theorem Generator.buildsAll_of_createLoop (E : Env) (gen : GenBuild) (l : List Method)
    (g g2 : Generator) (h : Generator.createLoop E gen l g = some (none, g2)) :
    Generator.BuildsAll E gen l g g2 := by
  induction l generalizing g with
  | nil =>
    simp only [Generator.createLoop, Option.some.injEq, Prod.mk.injEq, true_and] at h
    subst h
    exact Generator.BuildsAll.nil g
  | cons m rest ih =>
    simp only [Generator.createLoop] at h
    cases ha : Generator.addMethod E gen m g with
    | none => simp [ha] at h
    | some out =>
      obtain ⟨e, g1⟩ := out
      cases e with
      | some err => simp [ha] at h
      | none =>
        simp only [ha] at h
        exact Generator.BuildsAll.cons m rest g g1 g2 ha (ih g1 h)

/-- The loop of `createMethods` stops at the first Method whose `addMethod` fails,
after building the Methods before it in order. -/
theorem Generator.createLoop_first_failure (E : Env) (gen : GenBuild) (pre post : List Method)
    (m : Method) (g gk gf : Generator) (err : Error)
    (hpre : Generator.BuildsAll E gen pre g gk)
    (hadd : Generator.addMethod E gen m gk = some (some err, gf)) :
    Generator.createLoop E gen (pre ++ m :: post) g = some (some (createError E m err), gf) := by
  rw [Generator.createLoop_append E gen pre (m :: post) g gk
    (Generator.createLoop_of_buildsAll E gen pre g gk hpre)]
  simp only [Generator.createLoop, hadd, rootFrame, createError]

/-- An error returned by the loop of `createMethods` comes from a failed
`addMethod` that followed successful calls for all Methods before it. -/
theorem Generator.createLoop_error_inv (E : Env) (gen : GenBuild) (l : List Method)
    (g gf : Generator) (msg : String)
    (h : Generator.createLoop E gen l g = some (some msg, gf)) :
    ∃ (pre post : List Method) (m : Method) (gk : Generator) (err : Error),
      l = pre ++ m :: post ∧ Generator.BuildsAll E gen pre g gk
      ∧ Generator.addMethod E gen m gk = some (some err, gf)
      ∧ msg = createError E m err := by
  induction l generalizing g with
  | nil => simp [Generator.createLoop] at h
  | cons m rest ih =>
    simp only [Generator.createLoop] at h
    cases ha : Generator.addMethod E gen m g with
    | none => simp [ha] at h
    | some out =>
      obtain ⟨e, g1⟩ := out
      cases e with
      | some err =>
        simp only [ha, Option.some.injEq, Prod.mk.injEq] at h
        obtain ⟨hmsg, hg⟩ := h
        subst hg
        exact ⟨[], rest, m, g, err, rfl, Generator.BuildsAll.nil g, ha, by
          rw [← hmsg]; rfl⟩
      | none =>
        simp only [ha] at h
        obtain ⟨pre, post, m1, gk, err, hl, hpre, hadd, hmsg⟩ := ih g1 h
        exact ⟨m :: pre, post, m1, gk, err, by rw [hl]; rfl,
          Generator.BuildsAll.cons m pre g g1 gk ha hpre, hadd, hmsg⟩

/-- The loop of `createMethods` returns unless an `addMethod` call it makes does
not return. -/
theorem Generator.createLoop_none_inv (E : Env) (gen : GenBuild) (l : List Method)
    (g : Generator) (h : Generator.createLoop E gen l g = none) :
    ∃ (pre post : List Method) (m : Method) (gk : Generator),
      l = pre ++ m :: post ∧ Generator.BuildsAll E gen pre g gk
      ∧ Generator.addMethod E gen m gk = none := by
  induction l generalizing g with
  | nil => simp [Generator.createLoop] at h
  | cons m rest ih =>
    simp only [Generator.createLoop] at h
    cases ha : Generator.addMethod E gen m g with
    | none => exact ⟨[], rest, m, g, rfl, Generator.BuildsAll.nil g, ha⟩
    | some out =>
      obtain ⟨e, g1⟩ := out
      cases e with
      | some err => simp [ha] at h
      | none =>
        simp only [ha] at h
        obtain ⟨pre, post, m1, gk, hl, hpre, hadd⟩ := ih g1 h
        exact ⟨m :: pre, post, m1, gk, by rw [hl]; rfl,
          Generator.BuildsAll.cons m pre g g1 gk ha hpre, hadd⟩


/-- C12: `createMethods` runs `addMethod` over the Methods that are in the registry
at its start, in ascending order of `Name`: the list it goes through holds exactly
these Methods, is ascending, and with pairwise distinct names it is the same list
for every order of the registry entries.  If the calls, made in this order, each
on the generator left by the call before, all succeed, `createMethods` returns no
error and the generator left by the last call.  If a call fails after the calls
for all Methods before it succeeded, `createMethods` returns the generator left by
the failing call, whatever the Methods after it are, and the error text
"Error while creating converter method: <ID>", a blank line, and the rendering of
the build error lifted by the frame (SourceID "source", TargetID "target", the
names of the Method's source and target types).  These are the only results: a
result without error comes from a run in which every call succeeded, an error from
a first failing call, and `createMethods` returns whenever the calls it makes
return. -/
theorem createMethods_sorted_first_failure (E : Env) (fuel : Nat) (g : Generator) :
    (sortByName (g.lookup.map Prod.snd)).Perm (g.lookup.map Prod.snd)
    ∧ (sortByName (g.lookup.map Prod.snd)).Pairwise (fun a b => a.Name ≤ b.Name)
    ∧ (∀ l : Lookup, l.Perm g.lookup →
        (sortByName (l.map Prod.snd)).Perm (g.lookup.map Prod.snd)
        ∧ (sortByName (l.map Prod.snd)).Pairwise (fun a b => a.Name ≤ b.Name)
        ∧ (((g.lookup.map Prod.snd).map (fun m => m.Name)).Nodup →
            sortByName (l.map Prod.snd) = sortByName (g.lookup.map Prod.snd)))
    ∧ (∀ g2 : Generator,
        Generator.BuildsAll E (Generator.asGen E fuel) (sortByName (g.lookup.map Prod.snd)) g g2 →
        Generator.createMethods E fuel g = some (none, g2))
    ∧ (∀ (pre post : List Method) (m : Method) (gk gf : Generator) (err : Error),
        sortByName (g.lookup.map Prod.snd) = pre ++ m :: post →
        Generator.BuildsAll E (Generator.asGen E fuel) pre g gk →
        Generator.addMethod E (Generator.asGen E fuel) m gk = some (some err, gf) →
        Generator.createMethods E fuel g
          = some (some ("Error while creating converter method: " ++ m.ID ++ "\n\n"
              ++ E.ToString (err.Lift
                  { SourceID := "source", TargetID := "target"
                    SourceType := (E.types m.Source).T
                    TargetType := (E.types m.Target).T })), gf))
    ∧ (∀ g2 : Generator, Generator.createMethods E fuel g = some (none, g2) →
        Generator.BuildsAll E (Generator.asGen E fuel) (sortByName (g.lookup.map Prod.snd)) g g2)
    ∧ (∀ (msg : String) (gf : Generator),
        Generator.createMethods E fuel g = some (some msg, gf) →
        ∃ (pre post : List Method) (m : Method) (gk : Generator) (err : Error),
          sortByName (g.lookup.map Prod.snd) = pre ++ m :: post
          ∧ Generator.BuildsAll E (Generator.asGen E fuel) pre g gk
          ∧ Generator.addMethod E (Generator.asGen E fuel) m gk = some (some err, gf)
          ∧ msg = "Error while creating converter method: " ++ m.ID ++ "\n\n"
              ++ E.ToString (err.Lift
                  { SourceID := "source", TargetID := "target"
                    SourceType := (E.types m.Source).T
                    TargetType := (E.types m.Target).T }))
    ∧ (Generator.createMethods E fuel g = none →
        ∃ (pre post : List Method) (m : Method) (gk : Generator),
          sortByName (g.lookup.map Prod.snd) = pre ++ m :: post
          ∧ Generator.BuildsAll E (Generator.asGen E fuel) pre g gk
          ∧ Generator.addMethod E (Generator.asGen E fuel) m gk = none) := by
  refine ⟨sortByName_perm _, sortByName_sorted _, ?_, ?_, ?_, ?_, ?_, ?_⟩
  · intro l hperm
    refine ⟨(sortByName_perm _).trans (hperm.map _), sortByName_sorted _, ?_⟩
    intro hnodup
    refine sortByName_of_perm _ _ (hperm.map _) ?_
    exact ((hperm.map Prod.snd).map _).nodup_iff.mpr hnodup
  · intro g2 hall
    exact Generator.createLoop_of_buildsAll E _ _ g g2 hall
  · intro pre post m gk gf err hsorted hpre hadd
    simp only [Generator.createMethods]
    rw [hsorted]
    exact Generator.createLoop_first_failure E _ pre post m g gk gf err hpre hadd
  · intro g2 h
    exact Generator.buildsAll_of_createLoop E _ _ g g2 h
  · intro msg gf h
    exact Generator.createLoop_error_inv E _ _ g gf msg h
  · intro h
    exact Generator.createLoop_none_inv E _ _ g h

theorem exampleMethod_sorted (n1 n2 : String) (s1 t1 s2 t2 : TypeRef) (h : n1 < n2) :
    sortByName [exampleMethod n2 s2 t2, exampleMethod n1 s1 t1]
        = [exampleMethod n1 s1 t1, exampleMethod n2 s2 t2]
    ∧ sortByName [exampleMethod n1 s1 t1, exampleMethod n2 s2 t2]
        = [exampleMethod n1 s1 t1, exampleMethod n2 s2 t2] := by
  have h1 : (exampleMethod n1 s1 t1).Name < (exampleMethod n2 s2 t2).Name := h
  have h2 : ¬ (exampleMethod n2 s2 t2).Name < (exampleMethod n1 s1 t1).Name := lt_asymm h1
  simp [sortByName, insertByName, h1, h2]

theorem alpha_lt_beta : "Alpha" < "Beta" := String.lt_iff_toList_lt.mpr (by decide)

/-- C12, at three registries of two Methods each, with the example rules.
(1) `Beta` from `[]int` to `[]string` is registered before `Alpha` from `[]int` to
`[]int`: `Alpha` is built first and declared in the file, then `Beta` fails in the
element conversion, and the error names `Beta`.
(2) `Alpha` from `[]int` to `[]string` and `Beta` from `[]int` to `[]int`: `Alpha`
fails and `Beta` is not built, the file stays empty.
(3) `Beta` from `[4]int` to `[]int` registered before `Alpha` from `[]int` to
`[]int`: both are built, `Alpha` first, and no error is returned. -/
theorem createMethods_sorted_first_failure_witness :
    (Generator.createMethods exampleEnv 2
        { exampleGenerator with lookup :=
            [(⟨"[]int", "[]string"⟩, exampleMethod "Beta" 2 3),
             (⟨"[]int", "[]int"⟩, exampleMethod "Alpha" 2 2)] }).map
        (fun out => (out.1, out.2.file.map Code.declName))
      = some (some ("Error while creating converter method: (p.Converter).Beta\n\n"
            ++ "source : []int -> []string | [] : int -> string | "
            ++ "TypeMismatch: Cannot convert int to string"),
          [some "Alpha"])
    ∧ (Generator.createMethods exampleEnv 2
        { exampleGenerator with lookup :=
            [(⟨"[]int", "[]string"⟩, exampleMethod "Alpha" 2 3),
             (⟨"[]int", "[]int"⟩, exampleMethod "Beta" 2 2)] }).map
        (fun out => (out.1, out.2.file.map Code.declName))
      = some (some ("Error while creating converter method: (p.Converter).Alpha\n\n"
            ++ "source : []int -> []string | [] : int -> string | "
            ++ "TypeMismatch: Cannot convert int to string"),
          [])
    ∧ (Generator.createMethods exampleEnv 2
        { exampleGenerator with lookup :=
            [(⟨"[4]int", "[]int"⟩, exampleMethod "Beta" 4 2),
             (⟨"[]int", "[]int"⟩, exampleMethod "Alpha" 2 2)] }).map
        (fun out => (out.1, out.2.file.map Code.declName))
      = some (none, [some "Alpha", some "Beta"]) := by
  refine ⟨?_, ?_, ?_⟩
  · have h := (createMethods_sorted_first_failure exampleEnv 2
        { exampleGenerator with lookup :=
            [(⟨"[]int", "[]string"⟩, exampleMethod "Beta" 2 3),
             (⟨"[]int", "[]int"⟩, exampleMethod "Alpha" 2 2)] }).2.2.2.2.1
      [exampleMethod "Alpha" 2 2] [] (exampleMethod "Beta" 2 3) _ _
      ⟨[⟨"[]", "[]", "int", "string"⟩], "TypeMismatch: Cannot convert int to string"⟩
      (exampleMethod_sorted "Alpha" "Beta" 2 2 2 3 alpha_lt_beta).1
      (Generator.BuildsAll.cons _ _ _ _ _ rfl (Generator.BuildsAll.nil _)) rfl
    rw [h]
    rfl
  · have h := (createMethods_sorted_first_failure exampleEnv 2
        { exampleGenerator with lookup :=
            [(⟨"[]int", "[]string"⟩, exampleMethod "Alpha" 2 3),
             (⟨"[]int", "[]int"⟩, exampleMethod "Beta" 2 2)] }).2.2.2.2.1
      [] [exampleMethod "Beta" 2 2] (exampleMethod "Alpha" 2 3) _ _
      ⟨[⟨"[]", "[]", "int", "string"⟩], "TypeMismatch: Cannot convert int to string"⟩
      (exampleMethod_sorted "Alpha" "Beta" 2 3 2 2 alpha_lt_beta).2
      (Generator.BuildsAll.nil _) rfl
    rw [h]
    rfl
  · have hall : Generator.BuildsAll exampleEnv (Generator.asGen exampleEnv 2)
        [exampleMethod "Alpha" 2 2, exampleMethod "Beta" 4 2]
        { exampleGenerator with lookup :=
            [(⟨"[4]int", "[]int"⟩, exampleMethod "Beta" 4 2),
             (⟨"[]int", "[]int"⟩, exampleMethod "Alpha" 2 2)] }
        (exampleStep (exampleMethod "Beta" 4 2) (exampleStep (exampleMethod "Alpha" 2 2)
          { exampleGenerator with lookup :=
            [(⟨"[4]int", "[]int"⟩, exampleMethod "Beta" 4 2),
             (⟨"[]int", "[]int"⟩, exampleMethod "Alpha" 2 2)] })) :=
      Generator.BuildsAll.cons _ _ _ _ _ (by rfl)
        (Generator.BuildsAll.cons _ _ _ _ _ (by rfl) (Generator.BuildsAll.nil _))
    rw [← (exampleMethod_sorted "Alpha" "Beta" 2 2 4 2 alpha_lt_beta).1] at hall
    have h := (createMethods_sorted_first_failure exampleEnv 2
        { exampleGenerator with lookup :=
            [(⟨"[4]int", "[]int"⟩, exampleMethod "Beta" 4 2),
             (⟨"[]int", "[]int"⟩, exampleMethod "Alpha" 2 2)] }).2.2.2.1 _ hall
    rw [h]
    rfl

/-! ## The blocks of the output file -/

theorem Generator.grows_refl (E : Env) (g : Generator) : g.Grows E g [] :=
  ⟨rfl, [], [], [], by simp, by simp, List.Forall₂.nil, by simp⟩

theorem Generator.grows_reserve (E : Env) (base : Generator) (P : List Method) (s t : TypeRef)
    (g : Generator) (h : g.Grows E base P)
    (hmiss : g.lookup.get (signatureOf E.types s t) = none) :
    (Generator.reserve E s t g).2.Grows E base ((Generator.reserve E s t g).1 :: P) := by
  obtain ⟨hn, added, nested, built, hl, hf, hall, hperm⟩ := h
  refine ⟨hn, added ++ [(signatureOf E.types s t, (Generator.reserve E s t g).1)], nested, built,
    ?_, hf, hall, ?_⟩
  · simp only [Generator.reserve]
    rw [Lookup.set_of_get_none _ _ _ hmiss, hl, List.append_assoc]
  · rw [List.map_append]
    simp only [List.map_cons, List.map_nil]
    refine (List.perm_middle).trans ?_
    exact ((List.Perm.cons _ hperm).trans (List.perm_append_singleton _ _).symm)

theorem Generator.grows_append (E : Env) (base : Generator) (P : List Method) (m : Method)
    (g : Generator) (stmts : List Code) (e : Code) (h : g.Grows E base (m :: P)) :
    Generator.Grows { g with file := g.file ++ [methodDecl E g m (stmts ++ [Code.ret e])] }
      E base P := by
  obtain ⟨hn, added, nested, built, hl, hf, hall, hperm⟩ := h
  refine ⟨hn, added, nested ++ [methodDecl E g m (stmts ++ [Code.ret e])], built ++ [m],
    hl, ?_, ?_, ?_⟩
  · show g.file ++ _ = _
    rw [hf, List.append_assoc]
  · refine List.rel_append hall (List.Forall₂.cons ⟨stmts, e, ?_⟩ List.Forall₂.nil)
    simp only [methodDecl, hn]
  · simpa using hperm

/-- A successful `addMethod` for a pending Method moves it to the built ones,
given that successful dispatcher calls keep the growth account. -/
theorem Generator.addMethod_ok_grows (E : Env) (hrules : ∀ R ∈ E.BuildSteps, R.Strict)
    (base : Generator) (gen : GenBuild) (P : List Method) (m : Method) (g g1 : Generator)
    (hgen : ∀ c i s t w g r c1 g1, g.Grows E base (m :: P) →
      gen c i s t w g = some (.ok r, c1, g1) → g1.Grows E base (m :: P))
    (hacc : g.Grows E base (m :: P))
    (h : Generator.addMethod E gen m g = some (none, g1)) : g1.Grows E base P := by
  cases hd : m.Delegate with
  | some d =>
    simp only [Generator.addMethod, hd, Option.some.injEq, Prod.mk.injEq, true_and] at h
    subst h
    exact Generator.grows_append E base P m g [] _ hacc
  | none =>
    rw [Generator.addMethod_no_delegate E _ m g hd] at h
    split at h
    · cases h
    · cases h
    · rename_i stmt newID c1 g2 hb
      simp only [Option.some.injEq, Prod.mk.injEq, true_and] at h
      subst h
      have hacc2 : g2.Grows E base (m :: P) :=
        Generator.BuildNoLookup_ok_preserves E (fun g3 => g3.Grows E base (m :: P)) hrules gen
          hgen _ _ _ _ _ _ _ _ hacc hb
      exact Generator.grows_append E base P m g2 stmt newID.Code hacc2

/-- A successful `Build` keeps the growth account: every Method it stores in the
registry gets its declaration before `Build` returns. -/
theorem Generator.Build_ok_grows (E : Env) (hrules : ∀ R ∈ E.BuildSteps, R.Strict)
    (base : Generator) :
    ∀ (fuel : Nat) (P : List Method) (c : MethodContext) (i : JenID) (s t : TypeRef)
      (g : Generator) (r : List Code × JenID) (c1 : MethodContext) (g1 : Generator),
      g.Grows E base P → Generator.Build E fuel c i s t g = some (.ok r, c1, g1) →
      g1.Grows E base P := by
  intro fuel
  induction fuel with
  | zero => intro P c i s t g r c1 g1 _ h; simp [Generator.Build] at h
  | succ fuel ih =>
    intro P c i s t g r c1 g1 hacc h
    cases hget : g.lookup.get (signatureOf E.types s t) with
    | some m =>
      rw [Generator.Build_hit E fuel c i s t g m hget] at h
      simp only [Option.some.injEq, Prod.mk.injEq] at h
      obtain ⟨-, -, hg⟩ := h
      subst hg
      exact hacc
    | none =>
      cases hex : extracts E.types s t with
      | false =>
        rw [Generator.Build_inline E fuel c i s t g hget hex] at h
        exact Generator.BuildNoLookup_ok_preserves E (fun g3 => g3.Grows E base P) hrules _
          (fun c i s t _ g3 r c1 g4 hq hb => ih P c i s t g3 r c1 g4 hq hb)
          _ _ _ _ _ _ _ _ hacc h
      | true =>
        rw [Generator.Build_extract E fuel c i s t g hget hex] at h
        have hacc0 := Generator.grows_reserve E base P s t g hacc hget
        split at h
        · cases h
        · simp at h
        · rename_i g2 ha
          have hacc2 : g2.Grows E base P :=
            Generator.addMethod_ok_grows E hrules base _ P _ _ g2
              (fun c i s t _ g3 r c1 g4 hq hb => ih _ c i s t g3 r c1 g4 hq hb) hacc0 ha
          exact ih P c i s t g2 r c1 g1 hacc2 h

/-- A successful `addMethod` of `createMethods` appends to the file one
declaration for each Method added to the registry meanwhile, and then the
declaration of its own Method. -/
theorem Generator.addMethod_block (E : Env) (hrules : ∀ R ∈ E.BuildSteps, R.Strict)
    (fuel : Nat) (m : Method) (g g1 : Generator)
    (h : Generator.addMethod E (Generator.asGen E fuel) m g = some (none, g1)) :
    g1.name = g.name
    ∧ ∃ (added : Lookup) (nested : List Code) (d : Code) (discovered : List Method),
        g1.lookup = g.lookup ++ added
        ∧ g1.file = g.file ++ (nested ++ [d])
        ∧ Code.DeclOf E g.name d m
        ∧ List.Forall₂ (Code.DeclOf E g.name) nested discovered
        ∧ discovered.Perm (added.map Prod.snd) := by
  cases hd : m.Delegate with
  | some d =>
    simp only [Generator.addMethod, hd, Option.some.injEq, Prod.mk.injEq, true_and] at h
    subst h
    exact ⟨rfl, [], [], _, [], by simp, rfl, ⟨[], _, rfl⟩, List.Forall₂.nil, by simp⟩
  | none =>
    rw [Generator.addMethod_no_delegate E _ m g hd] at h
    split at h
    · cases h
    · cases h
    · rename_i stmt newID c1 g2 hb
      simp only [Option.some.injEq, Prod.mk.injEq, true_and] at h
      subst h
      obtain ⟨hn, added, nested, built, hl, hf, hall, hperm⟩ :=
        Generator.BuildNoLookup_ok_preserves E (fun g3 => g3.Grows E g []) hrules
          (Generator.asGen E fuel)
          (fun c i s t _ g3 r c1 g4 hq hb =>
            Generator.Build_ok_grows E hrules g fuel [] c i s t g3 r c1 g4 hq hb)
          _ _ _ _ _ _ _ _ (Generator.grows_refl E g) hb
      have hn1 : g2.name = g.name := hn
      have hl1 : g2.lookup = g.lookup ++ added := hl
      have hf1 : g2.file = g.file ++ nested := hf
      refine ⟨hn1, added, nested, _, built, hl1, ?_, ⟨stmt, newID.Code, rfl⟩, hall,
        by simpa using hperm⟩
      simp only [hf1, methodDecl, hn1, List.append_assoc]

/-- The file and the registry after a successful run of the loop of
`createMethods`: one part per Method of the list, in the order of the list. -/
theorem Generator.createLoop_parts (E : Env) (hrules : ∀ R ∈ E.BuildSteps, R.Strict)
    (fuel : Nat) (l : List Method) (g g2 : Generator)
    (h : Generator.createLoop E (Generator.asGen E fuel) l g = some (none, g2)) :
    g2.name = g.name
    ∧ ∃ parts : List (List Code × Lookup),
      g2.file = g.file ++ (parts.map Prod.fst).flatten
      ∧ g2.lookup = g.lookup ++ (parts.map Prod.snd).flatten
      ∧ List.Forall₂
          (fun part m => ∃ (nested : List Code) (d : Code) (discovered : List Method),
            part.1 = nested ++ [d] ∧ Code.DeclOf E g.name d m
            ∧ List.Forall₂ (Code.DeclOf E g.name) nested discovered
            ∧ discovered.Perm (part.2.map Prod.snd))
          parts l := by
  induction l generalizing g with
  | nil =>
    simp only [Generator.createLoop, Option.some.injEq, Prod.mk.injEq, true_and] at h
    subst h
    exact ⟨rfl, [], by simp, by simp, List.Forall₂.nil⟩
  | cons m rest ih =>
    simp only [Generator.createLoop] at h
    cases ha : Generator.addMethod E (Generator.asGen E fuel) m g with
    | none => simp [ha] at h
    | some o =>
      obtain ⟨e, g1⟩ := o
      cases e with
      | some err => simp [ha] at h
      | none =>
        simp only [ha] at h
        obtain ⟨hn1, added, nested, d, discovered, hl1, hf1, hd, hnested, hperm⟩ :=
          Generator.addMethod_block E hrules fuel m g g1 ha
        obtain ⟨hn2, parts, hf2, hl2, hall⟩ := ih g1 h
        refine ⟨hn2.trans hn1, (nested ++ [d], added) :: parts, ?_, ?_, ?_⟩
        · simp only [hf2, hf1, List.map_cons, List.flatten_cons, List.append_assoc]
        · simp only [hl2, hl1, List.map_cons, List.flatten_cons, List.append_assoc]
        · refine List.Forall₂.cons ⟨nested, d, discovered, rfl, hd, hnested, hperm⟩ ?_
          rw [hn1] at hall
          exact hall


theorem Generator.parts_last_names (E : Env) (name : String)
    (parts : List (List Code × Lookup)) (l : List Method)
    (h : List.Forall₂
      (fun part m => ∃ (nested : List Code) (d : Code) (discovered : List Method),
        part.1 = nested ++ [d] ∧ Code.DeclOf E name d m
        ∧ List.Forall₂ (Code.DeclOf E name) nested discovered
        ∧ discovered.Perm (part.2.map Prod.snd))
      parts l) :
    parts.map (fun part => part.1.getLast?.bind Code.declName)
      = l.map (fun m => some m.Name) := by
  induction h with
  | nil => rfl
  | cons hp _ ih =>
    obtain ⟨nested, d, discovered, hpart, ⟨stmts, e, hd⟩, -, -⟩ := hp
    simp only [List.map_cons, ih]
    congr 1
    rw [hpart, hd]
    simp [Code.declName]

/-- C11, amended: after a successful `createMethods` run (with rules that succeed
only through successful dispatcher calls) the output file is the previous file
followed by one block of declarations per Method that was in the registry at the
start, the blocks in ascending order of these Methods' names.  Each block ends in
the declaration of its Method; the declarations before it in the block are one
declaration for each Method that was added to the registry while that body was
built (the implicitly discovered Methods), and nothing else: the registry after the
run is the registry at the start followed by the entries added block by block, and
every successful `addMethod` call appends to the file one declaration for each
entry it adds to the registry and then the declaration of its own Method.  So
the declarations of the Methods present at the start, which are the last
declarations of the blocks, are in ascending order of name among themselves, and
the declarations of implicitly discovered Methods stand inside the block in which
they were discovered. -/
theorem createMethods_file_blocks (E : Env) (fuel : Nat) (g g2 : Generator)
    (hrules : ∀ R ∈ E.BuildSteps, R.Strict)
    (hok : Generator.createMethods E fuel g = some (none, g2)) :
    ∃ (sorted : List Method) (parts : List (List Code × Lookup)),
      sorted.Perm (g.lookup.map Prod.snd)
      ∧ sorted.Pairwise (fun a b => a.Name ≤ b.Name)
      ∧ g2.file = g.file ++ (parts.map Prod.fst).flatten
      ∧ g2.lookup = g.lookup ++ (parts.map Prod.snd).flatten
      ∧ List.Forall₂
          (fun part m => ∃ (nested : List Code) (d : Code) (discovered : List Method),
            part.1 = nested ++ [d] ∧ Code.DeclOf E g.name d m
            ∧ List.Forall₂ (Code.DeclOf E g.name) nested discovered
            ∧ discovered.Perm (part.2.map Prod.snd))
          parts sorted
      ∧ parts.map (fun part => part.1.getLast?.bind Code.declName)
          = sorted.map (fun m => some m.Name)
      ∧ (∀ (m : Method) (g3 g4 : Generator),
          Generator.addMethod E (Generator.asGen E fuel) m g3 = some (none, g4) →
          ∃ (added : Lookup) (nested : List Code) (d : Code) (discovered : List Method),
            g4.lookup = g3.lookup ++ added
            ∧ g4.file = g3.file ++ (nested ++ [d])
            ∧ Code.DeclOf E g3.name d m
            ∧ List.Forall₂ (Code.DeclOf E g3.name) nested discovered
            ∧ discovered.Perm (added.map Prod.snd)) := by
  obtain ⟨-, parts, hfile, hlookup, hall⟩ := Generator.createLoop_parts E hrules fuel
    (sortByName (g.lookup.map Prod.snd)) g g2 hok
  exact ⟨_, parts, sortByName_perm _, sortByName_sorted _, hfile, hlookup, hall,
    Generator.parts_last_names E g.name parts _ hall,
    fun m g3 g4 h => (Generator.addMethod_block E hrules fuel m g3 g4 h).2⟩

theorem apply_lt_convert : "Apply" < "Convert" := String.lt_iff_toList_lt.mpr (by decide)

/-- The run of `createMethods` on the example registry of `Convert` and `Apply`. -/
theorem exampleTwo_run :
    Generator.createMethods exampleEnv 2 exampleTwo
      = some (none, exampleStep (exampleMethod "Convert" 5 6)
          (exampleStep (exampleMethod "Apply" 2 2) exampleTwo)) := by
  have hs : sortByName (exampleTwo.lookup.map Prod.snd)
      = [exampleMethod "Apply" 2 2, exampleMethod "Convert" 5 6] :=
    (exampleMethod_sorted "Apply" "Convert" 2 2 5 6 apply_lt_convert).1
  unfold Generator.createMethods
  simp only [hs]
  rfl

/-- C11 amended, at the registry of `Convert(A) B` (with `type A []B`,
`type B []A`) and `Apply([]int) []int`, registered in this order: the file after
`createMethods` is the block of `Apply` followed by the block of `Convert`, which
holds the declaration of the discovered `pBToPA` before that of `Convert`; the last
declarations of the blocks are `Apply` and `Convert`, and the registry has grown by
the entry of `pBToPA`. -/
theorem createMethods_file_blocks_witness :
    ∃ (g2 : Generator) (sorted : List Method) (parts : List (List Code × Lookup)),
      Generator.createMethods exampleEnv 2 exampleTwo = some (none, g2)
      ∧ sorted.Perm [exampleMethod "Convert" 5 6, exampleMethod "Apply" 2 2]
      ∧ sorted.Pairwise (fun a b => a.Name ≤ b.Name)
      ∧ g2.file = (parts.map Prod.fst).flatten
      ∧ g2.lookup = exampleTwo.lookup ++ (parts.map Prod.snd).flatten
      ∧ parts.map (fun part => part.1.getLast?.bind Code.declName)
          = sorted.map (fun m => some m.Name)
      ∧ g2.file.filterMap Code.declName = ["Apply", "pBToPA", "Convert"]
      ∧ g2.lookup.map (fun e => e.2.Name) = ["Convert", "Apply", "pBToPA"] := by
  obtain ⟨sorted, parts, hperm, hsorted, hfile, hlookup, -, hlast, -⟩ :=
    createMethods_file_blocks exampleEnv 2 exampleTwo _ exampleEnv_strict exampleTwo_run
  exact ⟨_, sorted, parts, exampleTwo_run, hperm, hsorted, by simpa using hfile, hlookup, hlast,
    rfl, rfl⟩

/-! ## Fresh names -/

theorem digitChar_val (m : Nat) (h : m < 10) : (Nat.digitChar m).toNat - 48 = m := by
  interval_cases m <;> rfl

theorem toDigitsCore_decode :
    ∀ (fuel n : Nat) (ds : List Char), n < fuel →
      ∃ pre, Nat.toDigitsCore 10 fuel n ds = pre ++ ds ∧ decodeDigits pre = n := by
  intro fuel
  induction fuel with
  | zero => intro n ds h; omega
  | succ fuel ih =>
    intro n ds h
    simp only [Nat.toDigitsCore]
    split
    · rename_i h0
      refine ⟨[Nat.digitChar (n % 10)], rfl, ?_⟩
      simp only [decodeDigits, List.foldl_cons, List.foldl_nil]
      rw [digitChar_val _ (Nat.mod_lt _ (by decide))]
      omega
    · rename_i h0
      obtain ⟨pre, hpre, hdec⟩ := ih (n / 10) (Nat.digitChar (n % 10) :: ds) (by omega)
      refine ⟨pre ++ [Nat.digitChar (n % 10)], by rw [hpre]; simp, ?_⟩
      simp only [decodeDigits, List.foldl_append, List.foldl_cons, List.foldl_nil]
      have hdec1 : List.foldl (fun acc c => 10 * acc + (c.toNat - 48)) 0 pre = n / 10 := hdec
      rw [hdec1, digitChar_val _ (Nat.mod_lt _ (by decide))]
      omega

theorem decode_repr (n : Nat) : decodeDigits (Nat.repr n).data = n := by
  obtain ⟨pre, hpre, hdec⟩ := toDigitsCore_decode (n + 1) n [] (by omega)
  simp only [Nat.repr, Nat.toDigits, List.asString, hpre, List.append_nil]
  exact hdec

theorem repr_ne_empty (n : Nat) : (Nat.repr (n + 1)).data ≠ [] := by
  intro h
  have := decode_repr (n + 1)
  rw [h] at this
  simp [decodeDigits] at this

/-- The candidates that `Namer.Name` tries are pairwise different. -/
theorem Namer.candidate_injective (name : String) :
    Function.Injective (Namer.candidate name) := by
  intro a b h
  unfold Namer.candidate at h
  have happ : ∀ k : Nat, (name ++ toString (k + 1)).data = name.data ++ (Nat.repr (k + 1)).data :=
    fun k => by simp [String.data_append]; rfl
  split at h <;> split at h
  · omega
  · rename_i ha hb
    have h1 := congrArg String.data h
    rw [happ] at h1
    have : (Nat.repr (b + 1)).data = [] := by
      have := h1.symm
      simpa using this
    exact absurd this (repr_ne_empty b)
  · rename_i ha hb
    have h1 := congrArg String.data h
    rw [happ] at h1
    have : (Nat.repr (a + 1)).data = [] := by simpa using h1
    exact absurd this (repr_ne_empty a)
  · have h1 := congrArg String.data h
    rw [happ, happ] at h1
    have h2 := List.append_cancel_left h1
    have h3 := congrArg decodeDigits h2
    rw [decode_repr, decode_repr] at h3
    omega

/-- The name that `Namer.Name` returns was not taken, and it is taken
afterwards. -/
theorem Namer.Name_fresh (m : Namer) (name : String) :
    (m.Name name).1 ∉ m.lookup ∧ (m.Name name).2.lookup = (m.Name name).1 :: m.lookup := by
  unfold Namer.Name
  cases hf : ((List.range (m.lookup.length + 1)).map (Namer.candidate name)).find?
      (fun c => decide (c ∉ m.lookup)) with
  | some c =>
    have := List.find?_some hf
    simp only [decide_eq_true_eq] at this
    exact ⟨this, rfl⟩
  | none =>
    exfalso
    have hall : ∀ c ∈ (List.range (m.lookup.length + 1)).map (Namer.candidate name),
        c ∈ m.lookup := by
      intro c hc
      have := List.find?_eq_none.mp hf c hc
      simpa using this
    have hnodup : ((List.range (m.lookup.length + 1)).map (Namer.candidate name)).Nodup :=
      (List.nodup_range _).map (Namer.candidate_injective name)
    have hle := (List.subperm_of_subset hnodup hall).length_le
    simp at hle

/-- The names that `List.Build` takes for the target slice and for the loop index
are different. -/
theorem List.targetSlice_ne_index (ty : TypeRef → XType) (ctx : MethodContext)
    (target : TypeRef) : List.targetSlice ty ctx target ≠ List.index ty ctx target := by
  unfold List.targetSlice List.index MethodContext.Index MethodContext.Name
  have h1 := Namer.Name_fresh ctx.Namer (ty target).ID
  have h2 := Namer.Name_fresh (ctx.Namer.Name (ty target).ID).2 "i"
  intro h
  apply h2.1
  rw [h1.2]
  simp only [] at h
  rw [← h]
  exact List.mem_cons_self _ _

/-! ## What the emitted loop does when it runs -/

theorem Vars.get_cons_self (vars : Vars) (x : String) (v : Val) :
    Vars.get ((x, v) :: vars) x = some v := by
  simp [Vars.get]

theorem Vars.get_cons_ne (vars : Vars) (x y : String) (v : Val) (h : y ≠ x) :
    Vars.get ((y, v) :: vars) x = Vars.get vars x := by
  simp [Vars.get, h]

theorem whileLoop_mono (cond : RunState → Option Val) (body body1 : RunState → Option RunState)
    (hbody : ∀ σ τ, body σ = some τ → body1 σ = some τ) :
    ∀ (n n1 : Nat) (σ τ : RunState), n ≤ n1 → whileLoop cond body n σ = some τ →
      whileLoop cond body1 n1 σ = some τ := by
  intro n
  induction n with
  | zero => intro n1 σ τ _ h; simp [whileLoop] at h
  | succ n ih =>
    intro n1 σ τ hle h
    obtain ⟨m, rfl⟩ : ∃ m, n1 = m + 1 := ⟨n1 - 1, by omega⟩
    simp only [whileLoop] at h ⊢
    split at h
    · obtain ⟨σ1, h1, h2⟩ := Option.bind_eq_some.mp h
      rw [hbody σ σ1 h1]
      exact ih m σ1 τ (by omega) h2
    · exact h
    · cases h

theorem execStmt_mono (o : Oracle) (run run1 : List Code → RunState → Option RunState)
    (hrun : ∀ l σ τ, run l σ = some τ → run1 l σ = some τ) (n n1 : Nat) (hn : n ≤ n1)
    (s : Code) (σ τ : RunState) (h : execStmt o run n s σ = some τ) :
    execStmt o run1 n1 s σ = some τ := by
  unfold execStmt at h ⊢
  split at h
  · exact h
  · exact h
  · exact h
  · exact h
  · exact h
  · split at h
    · exact hrun _ _ _ h
    · exact h
    · cases h
  · obtain ⟨σ1, h1, h2⟩ := Option.bind_eq_some.mp h
    simp only [hrun _ _ _ h1, Option.some_bind]
    refine whileLoop_mono _ _ _ ?_ n n1 σ1 τ hn h2
    intro σ2 τ2 hb
    obtain ⟨σ3, h3, h4⟩ := Option.bind_eq_some.mp hb
    simp only [hrun _ _ _ h3, Option.some_bind]
    exact hrun _ _ _ h4
  · exact h

/-- A run that completes within a bound completes, with the same result, within
every larger bound. -/
theorem exec_mono (o : Oracle) :
    ∀ (fuel fuel1 : Nat) (l : List Code) (σ τ : RunState), fuel ≤ fuel1 →
      exec o fuel l σ = some τ → exec o fuel1 l σ = some τ := by
  intro fuel
  induction fuel with
  | zero => intro fuel1 l σ τ _ h; simp [exec] at h
  | succ fuel ih =>
    intro fuel1 l σ τ hle h
    obtain ⟨m, rfl⟩ : ∃ m, fuel1 = m + 1 := ⟨fuel1 - 1, by omega⟩
    cases l with
    | nil =>
      simp only [exec] at h ⊢
      exact h
    | cons s rest =>
      simp only [exec] at h ⊢
      obtain ⟨σ1, h1, h2⟩ := Option.bind_eq_some.mp h
      rw [execStmt_mono o _ _ (fun l σ τ hr => ih m l σ τ (by omega) hr) fuel m (by omega)
        s σ σ1 h1]
      exact ih m rest σ1 τ (by omega) h2

theorem runs_nil (o : Oracle) (σ : RunState) : Runs o [] σ σ := ⟨1, rfl⟩

theorem runs_cons (o : Oracle) (s : Code) (rest : List Code) (σ σ1 τ : RunState)
    (h1 : ∃ fuel, execStmt o (exec o fuel) fuel s σ = some σ1) (h2 : Runs o rest σ1 τ) :
    Runs o (s :: rest) σ τ := by
  obtain ⟨f1, h1⟩ := h1
  obtain ⟨f2, h2⟩ := h2
  refine ⟨max f1 f2 + 1, ?_⟩
  simp only [exec]
  rw [execStmt_mono o _ _ (fun l σ τ hr => exec_mono o f1 (max f1 f2) l σ τ (le_max_left _ _) hr)
    f1 (max f1 f2) (le_max_left _ _) s σ σ1 h1]
  exact exec_mono o f2 (max f1 f2) rest σ1 τ (le_max_right _ _) h2

theorem runs_append (o : Oracle) (l1 l2 : List Code) (σ σ1 τ : RunState)
    (h1 : Runs o l1 σ σ1) (h2 : Runs o l2 σ1 τ) : Runs o (l1 ++ l2) σ τ := by
  induction l1 generalizing σ with
  | nil =>
    obtain ⟨f, h⟩ := h1
    cases f with
    | zero => simp [exec] at h
    | succ f =>
      simp only [exec, Option.some.injEq] at h
      subst h
      exact h2
  | cons s rest ih =>
    obtain ⟨f, h⟩ := h1
    cases f with
    | zero => simp [exec] at h
    | succ f =>
      simp only [exec] at h
      obtain ⟨σm, hs, hr⟩ := Option.bind_eq_some.mp h
      exact runs_cons o s _ σ σm τ ⟨f, hs⟩ (ih σm ⟨f, hr⟩)

theorem runs_single (o : Oracle) (s : Code) (σ τ : RunState)
    (h : ∀ run n, execStmt o run n s σ = some τ) : Runs o [s] σ τ :=
  runs_cons o s [] σ τ τ ⟨0, h _ _⟩ (runs_nil o τ)

theorem RunState.assigned_log (σ τ : RunState) (x : String) (k : Nat)
    (h : τ.log = σ.log ++ [(x, k)]) : τ.assigned x = σ.assigned x ++ [k] := by
  simp [RunState.assigned, h, List.filter_append]

theorem eval_loop_cond (o : Oracle) (ts ix : String) (src : Code) (elems : List Val)
    (before : List Nat) (k : Nat) (σ : RunState) (h : LoopState o ts ix src elems before k σ) :
    eval o σ.vars (Code.binop "<" (Code.id ix) (Code.len src))
      = some (Val.bool (decide (k < elems.length))) := by
  obtain ⟨hix, -, hsrc, -⟩ := h
  simp [eval, hix, hsrc]

/-- In the loop state of index `k` the element source expression `source[index]`
has the value of the `k`-th element of the source. -/
theorem eval_indexed_source (o : Oracle) (ts ix : String) (src : Code) (elems : List Val)
    (before : List Nat) (k : Nat) (σ : RunState) (h : LoopState o ts ix src elems before k σ)
    (hk : k < elems.length) :
    eval o σ.vars (Code.index src (Code.id ix)) = some (elems.get ⟨k, hk⟩) := by
  obtain ⟨hix, -, hsrc, -⟩ := h
  simp [eval, hix, hsrc, List.getElem?_eq_getElem hk]

theorem eval_make_len (o : Oracle) (vars : Vars) (ty src : Code) (elems : List Val)
    (h : eval o vars src = some (Val.slice elems)) :
    eval o vars (Code.make ty (Code.len src) (Code.len src))
      = some (Val.slice (List.replicate elems.length Val.zero)) := by
  simp [eval, h]

/-- One iteration of the emitted loop after the nested statements: the assignment
`target[index] = result` and the increment of the index lead from the state of
index `k` to the state of index `k + 1`. -/
theorem loopState_step (o : Oracle) (ts ix : String) (src res : Code) (elems : List Val)
    (before : List Nat) (k : Nat) (σ : RunState) (v : Val) (hne : ts ≠ ix)
    (hfree : ∀ (vars : Vars) (x : String) (w : Val), x = ts ∨ x = ix →
      eval o ((x, w) :: vars) src = eval o vars src)
    (J : RunState → Prop)
    (hJset : ∀ (σ : RunState) (x : String) (w : Val), x = ts ∨ x = ix → J σ → J (σ.set x w))
    (hJlog : ∀ (σ : RunState) (w : Val) (k : Nat), J σ →
      J { vars := (ts, w) :: σ.vars, log := σ.log ++ [(ts, k)] })
    (hk : k < elems.length) (h : LoopState o ts ix src elems before k σ) (hJ : J σ)
    (hv : eval o σ.vars res = some v) :
    ∃ σ1 σ2, Runs o [Code.assign (Code.index (Code.id ts) (Code.id ix)) res] σ σ1
      ∧ Runs o [Code.incr (Code.id ix)] σ1 σ2
      ∧ LoopState o ts ix src elems before (k + 1) σ2 ∧ J σ2 := by
  obtain ⟨hix, ⟨l, hts, hlen⟩, hsrc, hlog⟩ := h
  have hkl : k < l.length := by rw [hlen]; exact hk
  refine ⟨{ vars := (ts, Val.slice (l.set k v)) :: σ.vars, log := σ.log ++ [(ts, k)] },
    RunState.set { vars := (ts, Val.slice (l.set k v)) :: σ.vars, log := σ.log ++ [(ts, k)] }
      ix (Val.int (k + 1)), ?_, ?_, ?_, hJset _ ix _ (Or.inr rfl) (hJlog σ _ k hJ)⟩
  · refine runs_single o _ _ _ ?_
    intro run n
    simp [execStmt, eval, hts, hix, hv, hkl]
  · refine runs_single o _ _ _ ?_
    intro run n
    simp [execStmt, Vars.get_cons_ne _ _ _ _ hne, hix]
  · refine ⟨?_, ⟨l.set k v, ?_, ?_⟩, ?_, ?_⟩
    · simp [RunState.set, Vars.get_cons_self]
    · simp [RunState.set, Vars.get_cons_ne _ _ _ _ (Ne.symm hne), Vars.get_cons_self]
    · simp [hlen]
    · simp only [RunState.set]
      rw [hfree _ ix _ (Or.inr rfl), hfree _ ts _ (Or.inl rfl)]
      exact hsrc
    · have := RunState.assigned_log σ
        (RunState.set { vars := (ts, Val.slice (l.set k v)) :: σ.vars, log := σ.log ++ [(ts, k)] }
          ix (Val.int (k + 1))) ts k rfl
      rw [this, hlog, List.range_succ, List.append_assoc]

/-- The iterations of the emitted loop from index `k` on: when the nested
statements keep the loop state, the loop runs to the state of index `N`. -/
theorem List.loop_iterations (o : Oracle) (ts ix : String) (src res : Code) (elems : List Val)
    (before : List Nat) (newStmt : List Code) (hne : ts ≠ ix)
    (hfree : ∀ (vars : Vars) (x : String) (w : Val), x = ts ∨ x = ix →
      eval o ((x, w) :: vars) src = eval o vars src)
    (J : RunState → Prop)
    (hJset : ∀ (σ : RunState) (x : String) (w : Val), x = ts ∨ x = ix → J σ → J (σ.set x w))
    (hJlog : ∀ (σ : RunState) (w : Val) (k : Nat), J σ →
      J { vars := (ts, w) :: σ.vars, log := σ.log ++ [(ts, k)] })
    (hnested : ∀ (k : Nat) (σ : RunState), k < elems.length → LoopState o ts ix src elems before k σ →
      J σ → ∃ (fuel : Nat) (τ : RunState) (v : Val), exec o fuel newStmt σ = some τ
        ∧ LoopState o ts ix src elems before k τ ∧ J τ ∧ eval o τ.vars res = some v) :
    ∀ (j k : Nat) (σ : RunState), k + j = elems.length → LoopState o ts ix src elems before k σ →
      J σ → ∃ (F : Nat) (τ : RunState),
        whileLoop (fun τ => eval o τ.vars (Code.binop "<" (Code.id ix) (Code.len src)))
          (fun τ => (exec o F
              (newStmt ++ [Code.assign (Code.index (Code.id ts) (Code.id ix)) res]) τ).bind
            (exec o F [Code.incr (Code.id ix)])) F σ = some τ
        ∧ LoopState o ts ix src elems before elems.length τ ∧ J τ := by
  intro j
  induction j with
  | zero =>
    intro k σ hk h hJ
    have hk1 : k = elems.length := by omega
    subst hk1
    refine ⟨1, σ, ?_, h, hJ⟩
    simp [whileLoop, eval_loop_cond o ts ix src elems before _ σ h]
  | succ j ih =>
    intro k σ hk h hJ
    have hlt : k < elems.length := by omega
    obtain ⟨f1, σ1, v, hrun1, hst1, hJ1, hv⟩ := hnested k σ hlt h hJ
    obtain ⟨σ2, σ3, hassign, hincr, hst3, hJ3⟩ :=
      loopState_step o ts ix src res elems before k σ1 v hne hfree J hJset hJlog hlt hst1 hJ1 hv
    obtain ⟨fb, hbody⟩ := runs_append o newStmt _ σ σ1 σ2 ⟨f1, hrun1⟩ hassign
    obtain ⟨fp, hpost⟩ := hincr
    obtain ⟨F1, τ, hloop, hfin⟩ := ih (k + 1) σ3 (by omega) hst3 hJ3
    refine ⟨max (max fb fp) F1 + 1, τ, ?_, hfin⟩
    have hb : exec o (max (max fb fp) F1 + 1)
        (newStmt ++ [Code.assign (Code.index (Code.id ts) (Code.id ix)) res]) σ = some σ2 :=
      exec_mono o fb _ _ σ σ2 (by omega) hbody
    have hp : exec o (max (max fb fp) F1 + 1) [Code.incr (Code.id ix)] σ2 = some σ3 :=
      exec_mono o fp _ _ σ2 σ3 (by omega) hpost
    rw [whileLoop]
    simp only [eval_loop_cond o ts ix src elems before k σ h, hlt, decide_True, hb, hp,
      Option.some_bind]
    refine whileLoop_mono _ _ _ ?_ F1 _ σ3 τ (by omega) hloop
    intro σ4 τ4 h4
    obtain ⟨σ5, h5, h6⟩ := Option.bind_eq_some.mp h4
    rw [exec_mono o F1 _ _ σ4 σ5 (by omega) h5]
    exact exec_mono o F1 _ _ σ5 τ4 (by omega) h6

/-- The emitted loop, run from a state in which the target is allocated at the
length of the source and nothing was assigned yet, ends in the loop state of
index `N`. -/
theorem List.loop_runs (o : Oracle) (ts ix : String) (sourceID : JenID) (res : Code)
    (elems : List Val) (before : List Nat) (newStmt : List Code) (hne : ts ≠ ix)
    (hfree : ∀ (vars : Vars) (x : String) (w : Val), x = ts ∨ x = ix →
      eval o ((x, w) :: vars) sourceID.Code = eval o vars sourceID.Code)
    (J : RunState → Prop)
    (hJset : ∀ (σ : RunState) (x : String) (w : Val), x = ts ∨ x = ix → J σ → J (σ.set x w))
    (hJlog : ∀ (σ : RunState) (w : Val) (k : Nat), J σ →
      J { vars := (ts, w) :: σ.vars, log := σ.log ++ [(ts, k)] })
    (hnested : ∀ (k : Nat) (σ : RunState), k < elems.length →
      LoopState o ts ix sourceID.Code elems before k σ → J σ →
      ∃ (fuel : Nat) (τ : RunState) (v : Val), exec o fuel newStmt σ = some τ
        ∧ LoopState o ts ix sourceID.Code elems before k τ ∧ J τ ∧ eval o τ.vars res = some v)
    (σ : RunState)
    (hts : ∃ l, σ.vars.get ts = some (Val.slice l) ∧ l.length = elems.length)
    (hsrc : eval o σ.vars sourceID.Code = some (Val.slice elems))
    (hlog : σ.assigned ts = before) (hJ : J σ) :
    ∃ τ, Runs o [List.loopAssignStmt ix sourceID
        (newStmt ++ [Code.assign (Code.index (Code.id ts) (Code.id ix)) res])] σ τ
      ∧ LoopState o ts ix sourceID.Code elems before elems.length τ ∧ J τ := by
  have h0 : LoopState o ts ix sourceID.Code elems before 0 (σ.set ix (Val.int 0)) := by
    obtain ⟨l, hl, hlen⟩ := hts
    refine ⟨?_, ⟨l, ?_, hlen⟩, ?_, ?_⟩
    · simp [RunState.set, Vars.get_cons_self]
    · simp [RunState.set, Vars.get_cons_ne _ _ _ _ (Ne.symm hne), hl]
    · simp only [RunState.set]
      rw [hfree _ ix _ (Or.inr rfl)]
      exact hsrc
    · simpa [RunState.set, RunState.assigned] using hlog
  obtain ⟨F, τ, hloop, hfin⟩ :=
    List.loop_iterations o ts ix sourceID.Code res elems before newStmt hne hfree J hJset hJlog hnested
      elems.length 0 _ (by omega) h0 (hJset σ ix _ (Or.inr rfl) hJ)
  refine ⟨τ, runs_cons o _ [] σ τ τ ⟨max F 2, ?_⟩ (runs_nil o τ), hfin⟩
  have hinit : exec o (max F 2) [Code.define (Code.id ix) (Code.lit 0)] σ
      = some (σ.set ix (Val.int 0)) := by
    obtain ⟨m, hm⟩ : ∃ m, max F 2 = m + 2 := ⟨max F 2 - 2, by omega⟩
    rw [hm]
    simp [exec, execStmt, eval]
  simp only [List.loopAssignStmt, execStmt, hinit, Option.some_bind]
  refine whileLoop_mono _ _ _ ?_ F _ _ τ (le_max_left _ _) hloop
  intro σ4 τ4 h4
  obtain ⟨σ5, h5, h6⟩ := Option.bind_eq_some.mp h4
  rw [exec_mono o F _ _ σ4 σ5 (le_max_left _ _) h5]
  exact exec_mono o F _ _ σ5 τ4 (le_max_left _ _) h6

/-- The initialization statements, run with a non-nil source of length `N`,
allocate the target at length `N` and assign no element. -/
theorem List.init_runs (o : Oracle) (ty : TypeRef → XType) (ts : String) (sourceID : JenID)
    (source target : TypeRef) (elems : List Val)
    (hfree : ∀ (vars : Vars) (w : Val),
      eval o ((ts, w) :: vars) sourceID.Code = eval o vars sourceID.Code)
    (J : RunState → Prop) (hJset : ∀ (σ : RunState) (w : Val), J σ → J (σ.set ts w))
    (σ : RunState) (hsrc : eval o σ.vars sourceID.Code = some (Val.slice elems)) (hJ : J σ) :
    ∃ τ, Runs o (List.initializeStmt ty ts sourceID source target) σ τ
      ∧ τ.vars.get ts = some (Val.slice (List.replicate elems.length Val.zero))
      ∧ eval o τ.vars sourceID.Code = some (Val.slice elems)
      ∧ τ.log = σ.log ∧ J τ := by
  unfold List.initializeStmt
  split
  · refine ⟨σ.set ts (Val.slice (List.replicate elems.length Val.zero)), ?_, ?_, ?_, rfl,
      hJset _ _ hJ⟩
    · refine runs_single o _ _ _ ?_
      intro run n
      simp [execStmt, eval_make_len o σ.vars _ _ elems hsrc]
    · simp [RunState.set, Vars.get_cons_self]
    · simp only [RunState.set]
      rw [hfree]
      exact hsrc
  · have hsrc1 : eval o (σ.set ts Val.zero).vars sourceID.Code = some (Val.slice elems) := by
      simp only [RunState.set]
      rw [hfree]
      exact hsrc
    refine ⟨(σ.set ts Val.zero).set ts (Val.slice (List.replicate elems.length Val.zero)),
      ?_, ?_, ?_, rfl, hJset _ _ (hJset _ _ hJ)⟩
    · refine runs_cons o _ _ σ (σ.set ts Val.zero) _ ⟨0, by simp [execStmt]⟩ ?_
      refine runs_cons o _ [] _ _ _ ⟨2, ?_⟩ (runs_nil o _)
      simp [execStmt, exec, eval, hsrc1]
    · simp [RunState.set, Vars.get_cons_self]
    · simp only [RunState.set]
      rw [hfree, hfree]
      exact hsrc

/-- The statements of a successful `List.Build`, run with a non-nil source of
length `N`: when the nested statements keep the loop state, the run completes with
the target at length `N` and the indices `0..N-1` assigned, each once.  A property
`J` of the state that the nested statements keep, and that is kept when the target
or the index is set and when an element of the target is assigned, holds at the
end of the run when it held at the start. -/
theorem List.stmt_runs (o : Oracle) (ty : TypeRef → XType) (ts ix : String) (sourceID : JenID)
    (source target : TypeRef) (res : Code) (elems : List Val) (before : List Nat)
    (newStmt : List Code)
    (hne : ts ≠ ix)
    (hfree : ∀ (vars : Vars) (x : String) (w : Val), x = ts ∨ x = ix →
      eval o ((x, w) :: vars) sourceID.Code = eval o vars sourceID.Code)
    (J : RunState → Prop)
    (hJset : ∀ (σ : RunState) (x : String) (w : Val), x = ts ∨ x = ix → J σ → J (σ.set x w))
    (hJlog : ∀ (σ : RunState) (w : Val) (k : Nat), J σ →
      J { vars := (ts, w) :: σ.vars, log := σ.log ++ [(ts, k)] })
    (hnested : ∀ (k : Nat) (σ : RunState), k < elems.length →
      LoopState o ts ix sourceID.Code elems before k σ → J σ →
      ∃ (fuel : Nat) (τ : RunState) (v : Val), exec o fuel newStmt σ = some τ
        ∧ LoopState o ts ix sourceID.Code elems before k τ ∧ J τ ∧ eval o τ.vars res = some v)
    (σ : RunState) (hsrc : eval o σ.vars sourceID.Code = some (Val.slice elems))
    (hlog : σ.assigned ts = before) (hJ : J σ) :
    ∃ (fuel : Nat) (τ : RunState),
      (∀ f, fuel ≤ f →
        exec o f (List.initializeStmt ty ts sourceID source target
          ++ [List.loopAssignStmt ix sourceID
            (newStmt ++ [Code.assign (Code.index (Code.id ts) (Code.id ix)) res])]) σ = some τ)
      ∧ (∃ l, τ.vars.get ts = some (Val.slice l) ∧ l.length = elems.length)
      ∧ τ.assigned ts = before ++ List.range elems.length ∧ J τ := by
  obtain ⟨σ1, hinit, hts1, hsrc1, hlog1, hJ1⟩ :=
    List.init_runs o ty ts sourceID source target elems
      (fun vars w => hfree vars ts w (Or.inl rfl)) J
      (fun σ w h => hJset σ ts w (Or.inl rfl) h) σ hsrc hJ
  obtain ⟨τ, hloop, hfin, hJτ⟩ :=
    List.loop_runs o ts ix sourceID res elems before newStmt hne hfree J hJset hJlog hnested
      σ1 ⟨_, hts1, by simp⟩ hsrc1 (by simpa [RunState.assigned, hlog1] using hlog) hJ1
  obtain ⟨fuel, hrun⟩ := runs_append o _ _ σ σ1 τ hinit hloop
  exact ⟨fuel, τ, fun f hf => exec_mono o fuel f _ σ τ hf hrun, hfin.2.1, hfin.2.2.2, hJτ⟩

/-- C2 fails as stated: the nested element statements are part of the loop body
as the dispatcher returned them, and the source expression is copied into the
statements as it is, so the consequence "every index assigned exactly once"
depends on both.  (1) With a dispatcher that returns the increment of the loop
index as the nested statement, `List.Build` for `[]int` to `[]int` succeeds and
returns `for i := 0; i < len(source); i++ { i++; intList[i] = source[i] }` after the
initialization; run with a non-nil source of length 2 this assigns index 1 only,
and index 0 never.  (2) With the example rules and the source expression
`intList`, the name that the namer of the context gives to the target, the
returned statements begin with `var intList []int`, after which the source reads
as nil: run with a non-nil source of length 2 they assign no element. -/
theorem List_Build_nested_index_counterexample :
    List.Build exampleTypes exampleSkip exampleCtx (VariableID (Code.id "source")) 2 2
        exampleGenerator
      = some (.ok ([Code.varDecl (Code.id "intList") (Code.id "[]int"),
            Code.ifStmt (Code.binop "!=" (Code.id "source") Code.nil)
              [Code.assign (Code.id "intList")
                (Code.make (Code.id "[]int") (Code.len (Code.id "source"))
                  (Code.len (Code.id "source")))],
            Code.forStmt (Code.define (Code.id "i") (Code.lit 0))
              (Code.binop "<" (Code.id "i") (Code.len (Code.id "source")))
              (Code.incr (Code.id "i"))
              [Code.incr (Code.id "i"),
               Code.assign (Code.index (Code.id "intList") (Code.id "i"))
                 (Code.index (Code.id "source") (Code.id "i"))]],
          VariableID (Code.id "intList")),
        { exampleCtx with Namer := ⟨["i", "intList"]⟩ }, exampleGenerator)
    ∧ (∀ f, 10 ≤ f →
        (exec exampleOracle f
            [Code.varDecl (Code.id "intList") (Code.id "[]int"),
             Code.ifStmt (Code.binop "!=" (Code.id "source") Code.nil)
               [Code.assign (Code.id "intList")
                 (Code.make (Code.id "[]int") (Code.len (Code.id "source"))
                   (Code.len (Code.id "source")))],
             Code.forStmt (Code.define (Code.id "i") (Code.lit 0))
               (Code.binop "<" (Code.id "i") (Code.len (Code.id "source")))
               (Code.incr (Code.id "i"))
               [Code.incr (Code.id "i"),
                Code.assign (Code.index (Code.id "intList") (Code.id "i"))
                  (Code.index (Code.id "source") (Code.id "i"))]]
            ⟨[("source", Val.slice [Val.int 7, Val.int 8])], []⟩).map
          (fun τ => τ.assigned "intList") = some [1])
    ∧ [1] ≠ List.range 2
    ∧ ((List.Build exampleTypes (Generator.asGen exampleEnv 2) exampleCtx
          (VariableID (Code.id "intList")) 2 2 exampleGenerator).map (fun out => out.1)
        = some (.ok ([Code.varDecl (Code.id "intList") (Code.id "[]int"),
            Code.ifStmt (Code.binop "!=" (Code.id "intList") Code.nil)
              [Code.assign (Code.id "intList")
                (Code.make (Code.id "[]int") (Code.len (Code.id "intList"))
                  (Code.len (Code.id "intList")))],
            Code.forStmt (Code.define (Code.id "i") (Code.lit 0))
              (Code.binop "<" (Code.id "i") (Code.len (Code.id "intList")))
              (Code.incr (Code.id "i"))
              [Code.assign (Code.index (Code.id "intList") (Code.id "i"))
                 (Code.index (Code.id "intList") (Code.id "i"))]],
          VariableID (Code.id "intList"))))
    ∧ (exec exampleOracle 10
          [Code.varDecl (Code.id "intList") (Code.id "[]int"),
           Code.ifStmt (Code.binop "!=" (Code.id "intList") Code.nil)
             [Code.assign (Code.id "intList")
               (Code.make (Code.id "[]int") (Code.len (Code.id "intList"))
                 (Code.len (Code.id "intList")))],
           Code.forStmt (Code.define (Code.id "i") (Code.lit 0))
             (Code.binop "<" (Code.id "i") (Code.len (Code.id "intList")))
             (Code.incr (Code.id "i"))
             [Code.assign (Code.index (Code.id "intList") (Code.id "i"))
                (Code.index (Code.id "intList") (Code.id "i"))]]
          ⟨[("intList", Val.slice [Val.int 7, Val.int 8])], []⟩).map
        (fun τ => τ.assigned "intList") = some []
    ∧ [] ≠ List.range 2 := by
  refine ⟨rfl, ?_, by decide, rfl, rfl, by decide⟩
  intro f hf
  cases h : exec exampleOracle 10
      [Code.varDecl (Code.id "intList") (Code.id "[]int"),
       Code.ifStmt (Code.binop "!=" (Code.id "source") Code.nil)
         [Code.assign (Code.id "intList")
           (Code.make (Code.id "[]int") (Code.len (Code.id "source"))
             (Code.len (Code.id "source")))],
       Code.forStmt (Code.define (Code.id "i") (Code.lit 0))
         (Code.binop "<" (Code.id "i") (Code.len (Code.id "source")))
         (Code.incr (Code.id "i"))
         [Code.incr (Code.id "i"),
          Code.assign (Code.index (Code.id "intList") (Code.id "i"))
            (Code.index (Code.id "source") (Code.id "i"))]]
      ⟨[("source", Val.slice [Val.int 7, Val.int 8])], []⟩ with
  | none =>
    have hs : (exec exampleOracle 10
      [Code.varDecl (Code.id "intList") (Code.id "[]int"),
       Code.ifStmt (Code.binop "!=" (Code.id "source") Code.nil)
         [Code.assign (Code.id "intList")
           (Code.make (Code.id "[]int") (Code.len (Code.id "source"))
             (Code.len (Code.id "source")))],
       Code.forStmt (Code.define (Code.id "i") (Code.lit 0))
         (Code.binop "<" (Code.id "i") (Code.len (Code.id "source")))
         (Code.incr (Code.id "i"))
         [Code.incr (Code.id "i"),
          Code.assign (Code.index (Code.id "intList") (Code.id "i"))
            (Code.index (Code.id "source") (Code.id "i"))]]
      ⟨[("source", Val.slice [Val.int 7, Val.int 8])], []⟩).isSome = true := rfl
    rw [h] at hs
    cases hs
  | some τ =>
    rw [exec_mono exampleOracle 10 f _ _ τ hf h]
    rw [← h]
    rfl

/-- C2, amended: every successful `List.Build` call returns the initialization
statements followed by one loop as the last statement; the loop is
`for <index> := 0; <index> < len(<source>); <index>++`, its body is the statements
of the nested element build followed by the single assignment
`<target>[<index>] = <element result>`; the dispatcher was handed `<source>[<index>]`
classified "variable"; the result expression is the bare target identifier
classified "variable".  When the source expression does not read the target or the
index variable, and at every iteration the nested statements run to completion
keeping the loop state (the index, the value of the source, the target allocated
at the source's length, and the assignments to its elements made so far), after
which the element result has a value, then the returned statements, run with a
non-nil source of length N, complete with the target of length N and with the
elements of the indices 0..N-1 assigned, each exactly once. -/
theorem List_Build_loop_shape (ty : TypeRef → XType) (gen : GenBuild)
    (ctx : MethodContext) (sourceID : JenID) (source target : TypeRef) (g : Generator)
    (stmt : List Code) (id : JenID) (ctx3 : MethodContext) (g1 : Generator)
    (hok : List.Build ty gen ctx sourceID source target g = some (.ok (stmt, id), ctx3, g1)) :
    ∃ (newStmt : List Code) (newID : JenID),
      gen (List.elemCtx ty ctx target)
          { Code := Code.index sourceID.Code (Code.id (List.index ty ctx target)), Variable := true }
          (ty source).ListInner (ty target).ListInner
          (Wrap "error setting index %d" [Code.id (List.index ty ctx target)]) g
        = some (.ok (newStmt, newID), ctx3, g1)
      ∧ stmt = List.initializeStmt ty (List.targetSlice ty ctx target) sourceID source target
          ++ [Code.forStmt (Code.define (Code.id (List.index ty ctx target)) (Code.lit 0))
                (Code.binop "<" (Code.id (List.index ty ctx target)) (Code.len sourceID.Code))
                (Code.incr (Code.id (List.index ty ctx target)))
                (newStmt ++ [Code.assign
                  (Code.index (Code.id (List.targetSlice ty ctx target))
                    (Code.id (List.index ty ctx target))) newID.Code])]
      ∧ (∀ s ∈ List.initializeStmt ty (List.targetSlice ty ctx target) sourceID source target,
          s.isLoop = false)
      ∧ (∃ loop, stmt.getLast? = some loop ∧ loop.isLoop = true
          ∧ (stmt.filter Code.isLoop).length = 1)
      ∧ id = { Code := Code.id (List.targetSlice ty ctx target), Variable := true }
      ∧ (∀ (o : Oracle) (σ : RunState) (elems : List Val),
          (∀ (vars1 : Vars) (x : String) (w : Val),
            x = List.targetSlice ty ctx target ∨ x = List.index ty ctx target →
            eval o ((x, w) :: vars1) sourceID.Code = eval o vars1 sourceID.Code) →
          (∀ (k : Nat) (σ1 : RunState), k < elems.length →
            LoopState o (List.targetSlice ty ctx target) (List.index ty ctx target)
              sourceID.Code elems (σ.assigned (List.targetSlice ty ctx target)) k σ1 →
            ∃ (fuel : Nat) (τ : RunState) (v : Val), exec o fuel newStmt σ1 = some τ
              ∧ LoopState o (List.targetSlice ty ctx target) (List.index ty ctx target)
                  sourceID.Code elems (σ.assigned (List.targetSlice ty ctx target)) k τ
              ∧ eval o τ.vars newID.Code = some v) →
          eval o σ.vars sourceID.Code = some (Val.slice elems) →
          ∃ (fuel : Nat) (τ : RunState),
            (∀ f, fuel ≤ f → exec o f stmt σ = some τ)
            ∧ (∃ l, τ.vars.get (List.targetSlice ty ctx target) = some (Val.slice l)
                ∧ l.length = elems.length)
            ∧ τ.assigned (List.targetSlice ty ctx target)
                = σ.assigned (List.targetSlice ty ctx target) ++ List.range elems.length) := by
  cases hgen : List.elemBuild ty gen ctx sourceID source target g with
  | none =>
    rw [List.Build_of_none ty gen ctx sourceID source target g hgen] at hok
    cases hok
  | some out =>
    obtain ⟨r, c, g2⟩ := out
    cases r with
    | error e =>
      rw [List.Build_of_error ty gen ctx sourceID source target g e c g2 hgen] at hok
      cases hok
    | ok p =>
      obtain ⟨newStmt, newID⟩ := p
      rw [List.Build_of_ok ty gen ctx sourceID source target g newStmt newID c g2 hgen] at hok
      simp only [Option.some.injEq, Prod.mk.injEq, Except.ok.injEq] at hok
      obtain ⟨⟨hstmt, hid⟩, hc, hg⟩ := hok
      subst hc hg
      have hinitLoop : ∀ s ∈ List.initializeStmt ty (List.targetSlice ty ctx target) sourceID
          source target, s.isLoop = false := by
        intro s hs
        unfold List.initializeStmt at hs
        split at hs
        · simp only [List.mem_singleton] at hs
          subst hs; rfl
        · simp only [List.mem_cons, List.mem_singleton, List.not_mem_nil, or_false] at hs
          rcases hs with h | h <;> subst h <;> rfl
      refine ⟨newStmt, newID, hgen, hstmt.symm, hinitLoop, ?_, hid.symm, ?_⟩
      · refine ⟨List.loopAssignStmt (List.index ty ctx target) sourceID
          (newStmt ++ [Code.assign (Code.index (Code.id (List.targetSlice ty ctx target))
            (Code.id (List.index ty ctx target))) newID.Code]), ?_, ?_, ?_⟩
        · rw [← hstmt]; simp
        · simp [List.loopAssignStmt, Code.isLoop]
        · rw [← hstmt, List.filter_append, List.filter_eq_nil_iff.mpr]
          · simp [List.loopAssignStmt, Code.isLoop]
          · intro s hs; simp [hinitLoop s hs]
      · intro o σ elems hfree hnested hsrc
        rw [← hstmt]
        obtain ⟨fuel, τ, hexec, hlen, hassigned, -⟩ :=
          List.stmt_runs o ty _ _ sourceID source target newID.Code elems _ newStmt
            (List.targetSlice_ne_index ty ctx target) hfree
            (fun _ => True) (fun _ _ _ _ _ => trivial) (fun _ _ _ _ => trivial)
            (fun k σ1 hk hst _ => by
              obtain ⟨f1, τ1, v, h1, h2, h3⟩ := hnested k σ1 hk hst
              exact ⟨f1, τ1, v, h1, h2, trivial, h3⟩)
            σ hsrc rfl trivial
        exact ⟨fuel, τ, hexec, hlen, hassigned⟩

/-- C2 amended, at `[][]int` to `[][]int` with the example rules and the source
variable `source` holding `[[1, 2], [3]]`: the build succeeds, the nested
statements are the initialization and the loop of the inner list, which keep the
state of the outer loop, and the returned statements run to a target
`intListList` of length 2 with the indices 0 and 1 assigned in this order, each
once. -/
theorem List_Build_loop_shape_witness :
    ∃ (stmt : List Code) (c : MethodContext) (fuel : Nat) (τ : RunState),
      List.Build exampleTypes (Generator.asGen exampleEnv 2) exampleCtx
          (VariableID (Code.id "source")) 9 9 exampleGenerator
        = some (.ok (stmt, VariableID (Code.id "intListList")), c, exampleGenerator)
      ∧ stmt.length = 3
      ∧ (∀ f, fuel ≤ f →
          exec exampleOracle f stmt
            ⟨[("source", Val.slice [Val.slice [Val.int 1, Val.int 2], Val.slice [Val.int 3]])],
              []⟩ = some τ)
      ∧ (∃ l, τ.vars.get "intListList" = some (Val.slice l) ∧ l.length = 2)
      ∧ τ.assigned "intListList" = [0, 1] := by
  have hok : List.Build exampleTypes (Generator.asGen exampleEnv 2) exampleCtx
          (VariableID (Code.id "source")) 9 9 exampleGenerator
        = some (.ok
            ((List.Build exampleTypes (Generator.asGen exampleEnv 2) exampleCtx
                (VariableID (Code.id "source")) 9 9 exampleGenerator).elim [] (fun o => o.1.stmt),
              VariableID (Code.id "intListList")),
            { exampleCtx with Namer := ⟨["i2", "intList", "i", "intListList"]⟩ },
            exampleGenerator) := by rfl
  obtain ⟨newStmt, newID, hgen, -, -, -, -, hrun⟩ :=
    List_Build_loop_shape exampleTypes (Generator.asGen exampleEnv 2) exampleCtx
      (VariableID (Code.id "source")) 9 9 exampleGenerator _ _ _ _ hok
  have hgen1 : Generator.asGen exampleEnv 2 (List.elemCtx exampleTypes exampleCtx 9)
      { Code := Code.index (Code.id "source") (Code.id (List.index exampleTypes exampleCtx 9)),
        Variable := true } 2 2
      (Wrap "error setting index %d" [Code.id (List.index exampleTypes exampleCtx 9)])
      exampleGenerator
      = some (.ok
          (List.initializeStmt exampleTypes "intList"
              (VariableID (Code.index (Code.id "source") (Code.id "i"))) 2 2
            ++ [List.loopAssignStmt "i2"
              (VariableID (Code.index (Code.id "source") (Code.id "i")))
              ([] ++ [Code.assign (Code.index (Code.id "intList") (Code.id "i2"))
                (Code.index (Code.index (Code.id "source") (Code.id "i")) (Code.id "i2"))])],
            VariableID (Code.id "intList")),
          { exampleCtx with Namer := ⟨["i2", "intList", "i", "intListList"]⟩ },
          exampleGenerator) := by rfl
  have hgen2 := hgen.symm.trans hgen1
  simp only [Option.some.injEq, Prod.mk.injEq, Except.ok.injEq, true_and, and_true] at hgen2
  obtain ⟨hs, hi⟩ := hgen2
  subst hs hi
  obtain ⟨fuel, τ, hexec, hlen, hassigned⟩ := hrun exampleOracle
    ⟨[("source", Val.slice [Val.slice [Val.int 1, Val.int 2], Val.slice [Val.int 3]])], []⟩
    [Val.slice [Val.int 1, Val.int 2], Val.slice [Val.int 3]]
    (by
      intro vars1 x w hx
      have hx1 : x ≠ "source" := by
        rcases hx with h | h <;> rw [h] <;> decide
      simp [VariableID, eval, Vars.get, hx1])
    (by
      intro k σ hk hst
      have hinner : ∀ inner : List Val,
          eval exampleOracle σ.vars (Code.index (Code.id "source") (Code.id "i"))
            = some (Val.slice inner) →
          ∃ (fuel : Nat) (τ : RunState) (v : Val),
            exec exampleOracle fuel
              (List.initializeStmt exampleTypes "intList"
                  (VariableID (Code.index (Code.id "source") (Code.id "i"))) 2 2
                ++ [List.loopAssignStmt "i2"
                  (VariableID (Code.index (Code.id "source") (Code.id "i")))
                  ([] ++ [Code.assign (Code.index (Code.id "intList") (Code.id "i2"))
                    (Code.index (Code.index (Code.id "source") (Code.id "i"))
                      (Code.id "i2"))])]) σ = some τ
            ∧ LoopState exampleOracle "intListList" "i" (Code.id "source")
                [Val.slice [Val.int 1, Val.int 2], Val.slice [Val.int 3]] [] k τ
            ∧ eval exampleOracle τ.vars (Code.id "intList") = some v := by
        intro inner hsrc
        obtain ⟨fuel, τ, hexec, ⟨l, hl, -⟩, -, hJ⟩ :=
          List.stmt_runs exampleOracle exampleTypes "intList" "i2"
            (VariableID (Code.index (Code.id "source") (Code.id "i"))) 2 2
            (Code.index (Code.index (Code.id "source") (Code.id "i")) (Code.id "i2"))
            inner (σ.assigned "intList") [] (by decide)
            (by
              intro vars1 x w hx
              have hx1 : x ≠ "source" := by
                rcases hx with h | h <;> rw [h] <;> decide
              have hx2 : x ≠ "i" := by
                rcases hx with h | h <;> rw [h] <;> decide
              simp [VariableID, eval, Vars.get, hx1, hx2])
            (fun τ => LoopState exampleOracle "intListList" "i" (Code.id "source")
              [Val.slice [Val.int 1, Val.int 2], Val.slice [Val.int 3]] [] k τ)
            (by
              intro σ1 x w hx hJ
              have hx1 : x ≠ "source" := by
                rcases hx with h | h <;> rw [h] <;> decide
              have hx2 : x ≠ "i" := by
                rcases hx with h | h <;> rw [h] <;> decide
              have hx3 : x ≠ "intListList" := by
                rcases hx with h | h <;> rw [h] <;> decide
              simpa [LoopState, RunState.set, RunState.assigned, eval, Vars.get, hx1, hx2, hx3]
                using hJ)
            (by
              intro σ1 w j hJ
              simpa [LoopState, RunState.assigned, eval, Vars.get, List.filter_append]
                using hJ)
            (by
              intro j σ1 hj hst1 hJ
              exact ⟨1, σ1, inner.get ⟨j, hj⟩, rfl, hst1, hJ,
                eval_indexed_source exampleOracle "intList" "i2" _ inner _ j σ1 hst1 hj⟩)
            σ hsrc rfl hst
        exact ⟨fuel, τ, Val.slice l, hexec fuel (le_refl _), hJ, by simpa [eval] using hl⟩
      have hsrc := eval_indexed_source exampleOracle "intListList" "i" (Code.id "source")
        _ _ k σ hst hk
      have hk2 : k = 0 ∨ k = 1 := by
        have : k < 2 := hk
        omega
      rcases hk2 with h0 | h1
      · subst h0
        exact hinner [Val.int 1, Val.int 2] hsrc
      · subst h1
        exact hinner [Val.int 3] hsrc)
    (by rfl)
  exact ⟨_, _, fuel, τ, hok, by rfl, hexec, hlen, hassigned⟩

end Goverter
